import Mathlib

/-!
# Verification of the onenode-js document serialization engine

Shallow embedding of the serialization core of the onenode-js SDK:

* `Text` (src/unnamed/part_014, identical to the compiled src/src/ejson/text.js):
  constructor, `enableIndex`, `serialize`, `_deserialize`;
* `Image` (src/unnamed/part_011, identical to the compiled class in text.js):
  constructor, `enableIndex`, `_serialize`, `_deserialize`, `hasBinaryData`,
  `getBinaryData`;
* `EJImage` (src/src/ejson/image.ts): constructor and `enableIndex` of the
  revision whose constructor takes an explicit `mimeType` parameter;
* the `Collection` document walker (first revision in
  src/src/client/Collection.ts): `serialize`, `deserialize`,
  `extractBinaryData`, and the `BSON_SERIALIZERS` codec table.

JavaScript runtime values are modelled by the inductive `Value`.  Instance
fields of `Text`/`Image` are `Value`-typed because `_deserialize` assigns raw
wire values into them without runtime checks.  Thrown errors are modelled by
`JSError`; the two depth-guard errors get their own constructors (their fixed
message texts are distinct from every other message the engine can produce).
Ambient state read by the part_011 `Image` constructor (`fs.existsSync`,
`fs.readFileSync`, Node-environment detection) is passed explicitly as an
`FS` oracle.
-/

set_option maxHeartbeats 1000000

/-- Errors thrown by the engine.  `tooDeepSer`/`tooDeepDeser` stand for
`Error("Too much nesting or circular structure in serialize()")` (resp.
`... in deserialize()`); `jsError m` is `new Error(m)`; `jsTypeError m` is
`new TypeError(m)`. -/
inductive JSError where
  | tooDeepSer : JSError
  | tooDeepDeser : JSError
  | jsError (msg : String) : JSError
  | jsTypeError (msg : String) : JSError

/-- Errors thrown outside the walker's depth guard (field-type validation,
property access, BSON constructors): always a plain `Error` or `TypeError`,
never one of the two depth-guard errors.  This refines the typing only; the
messages are those of the source. -/
inductive LocalErr where
  | jsError (msg : String) : LocalErr
  | jsTypeError (msg : String) : LocalErr

/-- Injection of local errors into the walker's error type. -/
def LocalErr.toJSError : LocalErr → JSError
  | .jsError m => .jsError m
  | .jsTypeError m => .jsTypeError m

/-- Binary payload representations accepted by the part_011 `Image`
constructor besides strings.  `file` carries name, MIME type and bytes;
`blob` carries MIME type and bytes. -/
inductive ImageData where
  | str (s : String) : ImageData
  | file (name type_ : String) (bytes : List Nat) : ImageData
  | blob (type_ : String) (bytes : List Nat) : ImageData
  | arrayBuffer (bytes : List Nat) : ImageData
  | uint8Array (bytes : List Nat) : ImageData

/-- A `Blob` (or `File`, which is a `Blob` subclass) as stored into the
multipart side-table by `extractBinaryData`. -/
inductive Blobby where
  | blob (type_ : String) (bytes : List Nat) : Blobby
  | file (name type_ : String) (bytes : List Nat) : Blobby

/-- Ambient environment consulted by the part_011 `Image` constructor:
Node-environment detection, `fs.existsSync` and `fs.readFileSync`. -/
structure FS where
  isNode : Bool
  exists_ : String → Bool
  read : String → Option (List Nat)

/-- State of a part_014 `Text` instance.  `text` is always a string (the
constructor validates it); all other data fields hold arbitrary runtime
values because `_deserialize` assigns wire values into them unchecked.
`V` is instantiated with `Value`. -/
structure TextStateG (V : Type) where
  text : String
  chunks : V
  embModel : V
  maxChunkSize : V
  chunkOverlap : V
  isSeparatorRegex : V
  separators : V
  keepSeparator : V
  indexEnabled : Bool

/-- State of a part_011 `Image` instance.  `indexEnabled` is `V`-typed
because `_deserialize` assigns `data["index"] || false`, which can be any
truthy wire value. -/
structure ImageStateG (V : Type) where
  data : ImageData
  mimeType : V
  chunks : V
  embModel : V
  visionModel : V
  maxChunkSize : V
  chunkOverlap : V
  isSeparatorRegex : V
  separators : V
  keepSeparator : V
  indexEnabled : V

/-- JavaScript runtime values handled by the document walker.  JS numbers are
modelled as integers (no claim involves non-integral numerics).  `vobj` keeps
entries in JS insertion order.  The BSON leaves carry the abstract state of
the corresponding `bson` library value (`voidc` an ObjectId's 24-char hex,
`vdate` a Date's canonical ISO-8601 string, `vbinary` raw bytes,
`vtimestamp` the low/high 32-bit halves).  `vexotic ty` stands for a value of
a runtime type the engine does not know (a function, symbol or bigint),
carrying its `typeof` string. -/
inductive Value where
  | vnull : Value
  | vundefined : Value
  | vbool (b : Bool) : Value
  | vnum (n : Int) : Value
  | vstr (s : String) : Value
  | varr (xs : List Value) : Value
  | vobj (fields : List (String × Value)) : Value
  | vtext (t : TextStateG Value) : Value
  | vimage (i : ImageStateG Value) : Value
  | voidc (hex : String) : Value
  | vdate (iso : String) : Value
  | vdecimal (s : String) : Value
  | vbinary (bytes : List Nat) : Value
  | vregexp (source flags : String) : Value
  | vcode (code : String) : Value
  | vtimestamp (low high : Int) : Value
  | vminkey : Value
  | vmaxkey : Value
  | vexotic (tyName : String) : Value

abbrev TextStateV := TextStateG Value
abbrev ImageStateV := ImageStateG Value

namespace Value

/-- JS truthiness of a value. -/
def truthy : Value → Bool
  | vnull => false
  | vundefined => false
  | vbool b => b
  | vnum n => n != 0
  | vstr s => s ≠ ""
  | _ => true

/-- JS `a || b`: returns `a` when truthy, else `b`. -/
def jsOr (a b : Value) : Value := if a.truthy then a else b

/-- Is the value `undefined`?  (`x !== undefined` guards in the code.) -/
def isUndef : Value → Bool
  | vundefined => true
  | _ => false

/-- Is the value `null`?  (`x !== null` / `x === null` checks.) -/
def isNull : Value → Bool
  | vnull => true
  | _ => false

/-- Is the value strictly equal to `true`?  (`x === true` in the code.) -/
def isTrue : Value → Bool
  | vbool true => true
  | _ => false

end Value

open Value

/-- First-match lookup in a JS object's entry list (JS objects have unique
keys; on lists with duplicate keys this picks the first, like JS would have
kept only one). -/
def lookupField : List (String × Value) → String → Option Value
  | [], _ => none
  | (k, v) :: rest, key => if k = key then some v else lookupField rest key

/-- Key presence in an entry list (`k in obj` for a plain object). -/
def hasKeyB (fs : List (String × Value)) (key : String) : Bool :=
  (lookupField fs key).isSome

/-- JS property read `v[key]` for the non-numeric keys used by the engine:
throws `TypeError` on `null`/`undefined`, yields the entry on plain objects,
and `undefined` on every other value (primitives box, arrays and class
instances have no own property with these names). -/
def getField (v : Value) (key : String) : Except LocalErr Value :=
  match v with
  | vnull =>
      .error (.jsTypeError ("Cannot read properties of null (reading " ++ key ++ ")"))
  | vundefined =>
      .error (.jsTypeError ("Cannot read properties of undefined (reading " ++ key ++ ")"))
  | vobj fs => .ok ((lookupField fs key).getD vundefined)
  | _ => .ok vundefined

/-- JS `key in v`: throws `TypeError` on primitives, checks own keys on plain
objects, and is `false` for the keys the engine probes on arrays and class
instances. -/
def hasField (v : Value) (key : String) : Except LocalErr Bool :=
  match v with
  | vobj fs => .ok (hasKeyB fs key)
  | varr _ => .ok false
  | vtext _ => .ok false
  | vimage _ => .ok false
  | _ =>
      .error (.jsTypeError ("Cannot use \x27in\x27 operator to search for " ++ key))

mutual

/-- Template-literal stringification `${v}` for the values the engine
interpolates into error messages.  Plain objects and class instances print as
`[object Object]`; arrays join their elements with commas, with `null` and
`undefined` elements printing empty. -/
def jsTemplate : Value → String
  | vnull => "null"
  | vundefined => "undefined"
  | vbool b => if b then "true" else "false"
  | vnum n => toString n
  | vstr s => s
  | varr xs => jsTemplateList xs
  | _ => "[object Object]"

/-- An array element inside `Array.prototype.toString`. -/
def jsTemplateElem : Value → String
  | vnull => ""
  | vundefined => ""
  | vbool b => if b then "true" else "false"
  | vnum n => toString n
  | vstr s => s
  | varr xs => jsTemplateList xs
  | _ => "[object Object]"

/-- Comma-join of array elements. -/
def jsTemplateList : List Value → String
  | [] => ""
  | [x] => jsTemplateElem x
  | x :: y :: xs => jsTemplateElem x ++ "," ++ jsTemplateList (y :: xs)

end

/-! ## String helpers (base64 and hex, data-URL parsing, MIME sniffing)

Kernel-computable stand-ins for the string primitives the source uses
(`trim`, `startsWith`, `endsWith`, `toLowerCase`), defined structurally on
the character list so that concrete witnesses evaluate. -/

/-- ASCII whitespace as trimmed by JS `String.prototype.trim` on the inputs
the claims mention (JS additionally trims some Unicode space characters,
which no claim involves). -/
def isWsChar (c : Char) : Bool :=
  c = ' ' ∨ c = '\t' ∨ c = '\n' ∨ c = '\r' ∨ c = '\x0b' ∨ c = '\x0c'

/-- Length of the trimmed string (`s.trim().length`). -/
def jsTrimmedLen (s : String) : Nat :=
  ((s.toList.dropWhile isWsChar).reverse.dropWhile isWsChar).length

/-- `s.startsWith(p)`. -/
def startsWithB (s p : String) : Bool := List.isPrefixOf p.toList s.toList

/-- `s.endsWith(p)`. -/
def endsWithB (s p : String) : Bool := List.isSuffixOf p.toList s.toList

/-- `s.toLowerCase()` (ASCII; no claim involves non-ASCII case folding). -/
def lowerStr (s : String) : String := String.mk (s.toList.map Char.toLower)

/-- Characters of the base64 alphabet (without padding). -/
def isB64Char (c : Char) : Bool :=
  c.isAlpha || c.isDigit || c = '+' || c = '/'

/-- The regex `^[A-Za-z0-9+/]+=*$` from part_011 `Image.isValidData`: one or
more base64 characters followed by zero or more padding characters. -/
def base64Shape (s : String) : Bool :=
  let cs := s.toList
  let body := cs.takeWhile isB64Char
  body.length > 0 && (cs.drop body.length).all (· = '=')

/-- One hex digit, lowercase (`Buffer.toString("hex")` emits lowercase). -/
def hexDigit (n : Nat) : Char :=
  if n < 10 then Char.ofNat (48 + n) else Char.ofNat (87 + n)

/-- Hex encoding of a byte list, as `Buffer.prototype.toString("hex")`. -/
def hexEncode (bytes : List Nat) : String :=
  String.mk (bytes.flatMap (fun b => [hexDigit (b / 16), hexDigit (b % 16)]))

/-- Numeric value of a hex digit (either case), if any. -/
def hexVal (c : Char) : Option Nat :=
  if '0' ≤ c ∧ c ≤ '9' then some (c.toNat - 48)
  else if 'a' ≤ c ∧ c ≤ 'f' then some (c.toNat - 87)
  else if 'A' ≤ c ∧ c ≤ 'F' then some (c.toNat - 55)
  else none

/-- Lenient hex decoding as `Buffer.from(s, "hex")`: decode byte pairs from
the front and stop at the first invalid pair or odd trailing digit. -/
def hexDecodeChars : List Char → List Nat
  | c1 :: c2 :: rest =>
      match hexVal c1, hexVal c2 with
      | some h, some l => (h * 16 + l) :: hexDecodeChars rest
      | _, _ => []
  | _ => []

def hexDecode (s : String) : List Nat := hexDecodeChars s.toList

/-- Value of a base64 alphabet character (with `A` = 0 … `/` = 63). -/
def b64Val (c : Char) : Option Nat :=
  if 'A' ≤ c ∧ c ≤ 'Z' then some (c.toNat - 65)
  else if 'a' ≤ c ∧ c ≤ 'z' then some (c.toNat - 71)
  else if '0' ≤ c ∧ c ≤ '9' then some (c.toNat + 4)
  else if c = '+' then some 62
  else if c = '/' then some 63
  else none

/-- Decode a chunk of base64 character values into bytes: full groups of four
give three bytes, a trailing group of three gives two, of two gives one. -/
def b64Bytes : List Nat → List Nat
  | a :: b :: c :: d :: rest =>
      (a * 4 + b / 16) :: ((b % 16) * 16 + c / 4) :: ((c % 4) * 64 + d) :: b64Bytes rest
  | [a, b] => [a * 4 + b / 16]
  | [a, b, c] => [a * 4 + b / 16, ((b % 16) * 16 + c / 4)]
  | _ => []

/-- `atob` on a string (forgiving base64 per the WHATWG infra standard):
strip ASCII whitespace, strip up to two trailing `=` when the length is a
multiple of four, fail when the remaining length is `1 mod 4` or a character
is outside the alphabet, else decode.  `none` models the thrown
`InvalidCharacterError`. -/
def atob (s : String) : Option (List Nat) :=
  let cs := (s.toList.filter (fun c => ¬ (c = ' ' ∨ c = '\t' ∨ c = '\n' ∨ c = '\r')))
  let cs := if cs.length % 4 = 0 then
      (if cs.reverse.take 2 = ['=', '='] then cs.dropLast.dropLast
       else if cs.reverse.take 1 = ['='] then cs.dropLast else cs)
    else cs
  if cs.length % 4 = 1 then none
  else if cs.all (fun c => (b64Val c).isSome) then
    some (b64Bytes (cs.filterMap b64Val))
  else none

/-- Magic-byte MIME sniffing from part_011 `Image.extractMimeTypeFromBytes`. -/
def extractMimeTypeFromBytes (bytes : List Nat) : String :=
  let at_ : Nat → Nat := fun i => bytes.getD i 0
  if bytes.length < 4 then "image/jpeg"
  else if at_ 0 = 0xFF ∧ at_ 1 = 0xD8 ∧ at_ 2 = 0xFF then "image/jpeg"
  else if at_ 0 = 0x89 ∧ at_ 1 = 0x50 ∧ at_ 2 = 0x4E ∧ at_ 3 = 0x47 ∧
      bytes.length > 7 ∧ at_ 4 = 0x0D ∧ at_ 5 = 0x0A ∧ at_ 6 = 0x1A ∧ at_ 7 = 0x0A then
    "image/png"
  else if bytes.length ≥ 6 ∧
      ((at_ 0 = 0x47 ∧ at_ 1 = 0x49 ∧ at_ 2 = 0x46 ∧ at_ 3 = 0x38 ∧ at_ 4 = 0x37 ∧ at_ 5 = 0x61) ∨
       (at_ 0 = 0x47 ∧ at_ 1 = 0x49 ∧ at_ 2 = 0x46 ∧ at_ 3 = 0x38 ∧ at_ 4 = 0x39 ∧ at_ 5 = 0x61)) then
    "image/gif"
  else if bytes.length ≥ 12 ∧ at_ 0 = 0x52 ∧ at_ 1 = 0x49 ∧ at_ 2 = 0x46 ∧ at_ 3 = 0x46 ∧
      at_ 8 = 0x57 ∧ at_ 9 = 0x45 ∧ at_ 10 = 0x42 ∧ at_ 11 = 0x50 then
    "image/webp"
  else "image/jpeg"

/-- part_011 `Image.extractMimeTypeFromBase64`: decode (at most) the first
100 characters with `atob` and sniff the magic bytes, defaulting to JPEG if
`atob` throws. -/
def extractMimeTypeFromBase64 (base64Data : String) : String :=
  let sample := if base64Data.length > 100 then (base64Data.toList.take 100).asString
    else base64Data
  match atob sample with
  | some bytes => extractMimeTypeFromBytes bytes
  | none => "image/jpeg"

/-- part_011 `Image.extractMimeTypeFromUrl`: extension-based sniffing on the
lowercased URL, defaulting to JPEG. -/
def extractMimeTypeFromUrl (url : String) : String :=
  let u := lowerStr url
  if endsWithB u ".jpg" ∨ endsWithB u ".jpeg" then "image/jpeg"
  else if endsWithB u ".png" then "image/png"
  else if endsWithB u ".gif" then "image/gif"
  else if endsWithB u ".webp" then "image/webp"
  else "image/jpeg"

/-- part_011 `Image.extractMimeTypeFromFileName`: same sniffing on a file
name. -/
def extractMimeTypeFromFileName (fileName : String) : String :=
  let u := lowerStr fileName
  if endsWithB u ".jpg" ∨ endsWithB u ".jpeg" then "image/jpeg"
  else if endsWithB u ".png" then "image/png"
  else if endsWithB u ".gif" then "image/gif"
  else if endsWithB u ".webp" then "image/webp"
  else "image/jpeg"

/-- Parse of the data-URL regex `^data:([^;]+);base64,(.+)$` from the
part_011 constructor: on `"data:" ++ mime ++ ";base64," ++ rest` with `mime`
nonempty and free of semicolons and `rest` nonempty, yields `(mime, rest)`. -/
def parseDataUrl (s : String) : Option (String × String) :=
  let afterScheme := s.toList.drop 5
  let mime := afterScheme.takeWhile (· ≠ ';')
  let rest := afterScheme.drop mime.length
  if mime.length = 0 then none
  else
    let tag := ";base64,".toList
    if rest.take tag.length = tag ∧ (rest.drop tag.length).length > 0 then
      some (mime.asString, (rest.drop tag.length).asString)
    else none

/-! ## Supported model enums (src/src/ejson/models.js, visionModels.ts) -/

/-- `Models.TextToEmbedding.OpenAI.values()`. -/
def textToEmbeddingModels : List String :=
  ["text-embedding-3-small", "text-embedding-3-large", "text-embedding-ada-002"]

/-- `Models.ImageToText.OpenAI.values()`. -/
def imageToTextModels : List String :=
  ["gpt-4o", "gpt-4o-mini", "o4-mini", "o3", "o1", "o1-pro",
   "gpt-4.1", "gpt-4.1-mini", "gpt-4.1-nano"]

/-! ## The part_014 `Text` class -/

namespace Text

/-- `enableIndex` options (`TextIndexOptions`); `vundefined` marks an absent
property.  `_deserialize` builds these from raw wire values, so every field
is `Value`-typed. -/
structure Options where
  embModel : Value := vundefined
  maxChunkSize : Value := vundefined
  chunkOverlap : Value := vundefined
  isSeparatorRegex : Value := vundefined
  separators : Value := vundefined
  keepSeparator : Value := vundefined

/-- `Text.isValidText`: the argument is a string that is nonempty after
trimming.  (Lean's `String.trim` strips ASCII whitespace like JS `trim` does
on the inputs the claims mention.) -/
def isValidText : Value → Bool
  | vstr s => jsTrimmedLen s > 0
  | _ => false

/-- `Text.isValidEmbModel`: `Models.TextToEmbedding.OpenAI.values()
.includes(embModel)`.  A non-string value equals none of the constants. -/
def isValidEmbModel : Value → Bool
  | vstr s => textToEmbeddingModels.contains s
  | _ => false

/-- The `Text` constructor: validates the text and initialises every other
field (`chunks = []`, options `null`, `indexEnabled = false`). -/
def ctor (text : Value) : Except LocalErr TextStateV :=
  if isValidText text then
    match text with
    | vstr s =>
        .ok { text := s, chunks := varr [], embModel := vnull, maxChunkSize := vnull,
              chunkOverlap := vnull, isSeparatorRegex := vnull, separators := vnull,
              keepSeparator := vnull, indexEnabled := false }
    | _ => .error (.jsError "Invalid text: must be a non-empty string.")
  else .error (.jsError "Invalid text: must be a non-empty string.")

/-- The non-failing tail of `enableIndex`: assign each remaining option that
is not `undefined`. -/
def assignRest (t : TextStateV) (o : Options) : TextStateV :=
  { t with
    maxChunkSize := if o.maxChunkSize.isUndef then t.maxChunkSize else o.maxChunkSize
    chunkOverlap := if o.chunkOverlap.isUndef then t.chunkOverlap else o.chunkOverlap
    isSeparatorRegex :=
      if o.isSeparatorRegex.isUndef then t.isSeparatorRegex else o.isSeparatorRegex
    separators := if o.separators.isUndef then t.separators else o.separators
    keepSeparator := if o.keepSeparator.isUndef then t.keepSeparator else o.keepSeparator }

/-- `Text.enableIndex`: sets `indexEnabled` first, then validates and assigns
`embModel`, then assigns the other provided options.  The returned state is
the instance as left by the call even when it throws (`some err`), since the
JS method mutates in place. -/
def enableIndex (t : TextStateV) (o : Options) : TextStateV × Option LocalErr :=
  let t1 := { t with indexEnabled := true }
  if o.embModel.isUndef then (assignRest t1 o, none)
  else if isValidEmbModel o.embModel then
    (assignRest { t1 with embModel := o.embModel } o, none)
  else
    (t1, some (.jsError
      ("Invalid embedding model: " ++ jsTemplate o.embModel ++ " is not supported.")))

/-- The inner payload built by `Text.serialize` (the value under `"xText"`):
`text`, `chunks` and `index` always, then each option key exactly when the
field is not `null`. -/
def serializeInner (t : TextStateV) : List (String × Value) :=
  [("text", vstr t.text), ("chunks", t.chunks), ("index", vbool t.indexEnabled)]
  ++ (if t.embModel.isNull then [] else [("emb_model", t.embModel)])
  ++ (if t.maxChunkSize.isNull then [] else [("max_chunk_size", t.maxChunkSize)])
  ++ (if t.chunkOverlap.isNull then [] else [("chunk_overlap", t.chunkOverlap)])
  ++ (if t.isSeparatorRegex.isNull then [] else [("is_separator_regex", t.isSeparatorRegex)])
  ++ (if t.separators.isNull then [] else [("separators", t.separators)])
  ++ (if t.keepSeparator.isNull then [] else [("keep_separator", t.keepSeparator)])

/-- `Text.serialize` (named `_serialize` in the compiled text.js revision):
wraps the inner payload under the `"xText"` marker. -/
def serialize (t : TextStateV) : Value :=
  vobj [("xText", vobj (serializeInner t))]

/-- `Text._deserialize`: unwrap the `"xText"` marker if present, require a
`text` field, build a fresh instance, then either re-run `enableIndex` with
the wire options (when `index === true`) or assign present fields directly,
and finally set `chunks`. -/
def deserialize (v : Value) : Except LocalErr TextStateV := do
  let wrapped ← hasField v "xText"
  let data ← if wrapped then getField v "xText" else pure v
  let text ← getField data "text"
  if text.isUndef || text.isNull then
    throw (.jsError "JSON data must include \x27text\x27 under \x27xText\x27.")
  let inst ← ctor text
  let idx ← getField data "index"
  let inst ←
    if idx.isTrue then do
      let o : Options :=
        { embModel := (← getField data "emb_model"),
          maxChunkSize := (← getField data "max_chunk_size"),
          chunkOverlap := (← getField data "chunk_overlap"),
          isSeparatorRegex := (← getField data "is_separator_regex"),
          separators := (← getField data "separators"),
          keepSeparator := (← getField data "keep_separator") }
      match enableIndex inst o with
      | (_, some e) => throw e
      | (inst, none) => pure inst
    else do
      let inst ← do
        if (← hasField data "emb_model") then
          pure { inst with embModel := (← getField data "emb_model") }
        else pure inst
      let inst ← do
        if (← hasField data "max_chunk_size") then
          pure { inst with maxChunkSize := (← getField data "max_chunk_size") }
        else pure inst
      let inst ← do
        if (← hasField data "chunk_overlap") then
          pure { inst with chunkOverlap := (← getField data "chunk_overlap") }
        else pure inst
      let inst ← do
        if (← hasField data "is_separator_regex") then
          pure { inst with isSeparatorRegex := (← getField data "is_separator_regex") }
        else pure inst
      let inst ← do
        if (← hasField data "separators") then
          pure { inst with separators := (← getField data "separators") }
        else pure inst
      let inst ← do
        if (← hasField data "keep_separator") then
          pure { inst with keepSeparator := (← getField data "keep_separator") }
        else pure inst
      pure inst
  let cs ← getField data "chunks"
  return { inst with chunks := jsOr cs (varr []) }

end Text

/-! ## The part_011 `Image` class -/

namespace Image

/-- `ImageIndexOptions` with `vundefined` marking absent properties. -/
structure Options where
  embModel : Value := vundefined
  visionModel : Value := vundefined
  maxChunkSize : Value := vundefined
  chunkOverlap : Value := vundefined
  isSeparatorRegex : Value := vundefined
  separators : Value := vundefined
  keepSeparator : Value := vundefined

/-- `Image.SUPPORTED_MIME_TYPES`. -/
def supportedMimeTypes : List String :=
  ["image/jpeg", "image/jpg", "image/png", "image/gif", "image/webp"]

/-- `Image.isValidData` on a string: nonempty after trimming and either an
`http`-prefixed URL or matching `^[A-Za-z0-9+/]+=*$` (the subsequent
`Buffer.from(data, "base64")` call never throws on a string, so it adds no
constraint). -/
def isValidData (s : String) : Bool :=
  jsTrimmedLen s > 0 && (startsWithB s "http" || base64Shape s)

/-- `Image.isValidFilePath`: nonempty, and in a Node environment an existing
file with a supported image extension. -/
def isValidFilePath (path : String) (fs : FS) : Bool :=
  path ≠ "" && fs.isNode && fs.exists_ path &&
    ([".jpg", ".jpeg", ".png", ".gif", ".webp"].any (endsWithB (lowerStr path) ·))

/-- `Image.isValidMimeType` applied to the stored (possibly non-string)
`mimeType` value: `SUPPORTED_MIME_TYPES.includes(mimeType)`. -/
def isValidMimeType : Value → Bool
  | vstr s => supportedMimeTypes.contains s
  | _ => false

/-- `Image.isValidEmbModel` on a runtime value. -/
def isValidEmbModel : Value → Bool
  | vstr s => textToEmbeddingModels.contains s
  | _ => false

/-- `Image.isValidVisionModel` on a runtime value. -/
def isValidVisionModel : Value → Bool
  | vstr s => imageToTextModels.contains s
  | _ => false

/-- Fresh state with the remaining constructor initialisation applied. -/
def freshState (d : ImageData) (mime : String) : ImageStateV :=
  { data := d, mimeType := vstr mime, chunks := varr [], embModel := vnull,
    visionModel := vnull, maxChunkSize := vnull, chunkOverlap := vnull,
    isSeparatorRegex := vnull, separators := vnull, keepSeparator := vnull,
    indexEnabled := vbool false }

/-- The part_011 `Image` constructor on its declared payload types.  For a
string it sniffs: data URL, then `http` URL, then base64, then file path;
binary payloads are stored with a MIME type sniffed from the type tag, the
file name, or the magic bytes. -/
def ctorData (d : ImageData) (fs : FS) : Except LocalErr ImageStateV :=
  match d with
  | .str s =>
      if startsWithB s "data:" then
        match parseDataUrl s with
        | some (urlMimeType, base64Data) =>
            .ok (freshState (.str base64Data) urlMimeType)
        | none =>
            .error (.jsError
              "Invalid data URL format. Expected format: data:image/type;base64,<data>")
      else if startsWithB s "http" then
        .ok (freshState (.str s) (extractMimeTypeFromUrl s))
      else if isValidData s then
        .ok (freshState (.str s) (extractMimeTypeFromBase64 s))
      else if isValidFilePath s fs then
        if ¬ fs.isNode then
          .error (.jsError ("File path input is only supported in Node.js environment. "
            ++ "In browsers, use File, Blob, or base64 data instead."))
        else
          match fs.read s with
          | some bytes => .ok (freshState (.uint8Array bytes) (extractMimeTypeFromBytes bytes))
          | none => .error (.jsError ("Could not read file \x27" ++ s ++ "\x27: read error"))
      else
        .error (.jsError ("Invalid data: must be a non-empty string containing valid "
          ++ "base64-encoded image data, HTTP URL, or valid file path."))
  | .file name type_ bytes =>
      .ok (freshState (.file name type_ bytes)
        (if type_ ≠ "" then type_ else extractMimeTypeFromFileName name))
  | .blob type_ bytes =>
      .ok (freshState (.blob type_ bytes) (if type_ ≠ "" then type_ else "image/jpeg"))
  | .arrayBuffer bytes => .ok (freshState (.arrayBuffer bytes) (extractMimeTypeFromBytes bytes))
  | .uint8Array bytes => .ok (freshState (.uint8Array bytes) (extractMimeTypeFromBytes bytes))

/-- The constructor applied to an arbitrary runtime value, as `_deserialize`
does: strings go through the sniffing constructor, anything else (a wire
value can never be a `File`/`Blob`/`ArrayBuffer`/`Uint8Array`) hits the
final type check. -/
def ctorValue (v : Value) (fs : FS) : Except LocalErr ImageStateV :=
  match v with
  | vstr s => ctorData (.str s) fs
  | _ => .error (.jsError ("Invalid data type: must be string (base64/data URL/HTTP "
      ++ "URL/file path), File, Blob, ArrayBuffer, or Uint8Array"))

/-- `Image.hasBinaryData`: a string payload counts as binary exactly when it
is `http`-prefixed (the code comment intends the opposite, but this is what
`return this.data.startsWith("http")` computes); non-string payloads always
do. -/
def hasBinaryData (i : ImageStateV) : Bool :=
  match i.data with
  | .str s => startsWithB s "http"
  | _ => true

/-- `Image.getBinaryData`: `null` for string payloads, the payload
otherwise. -/
def getBinaryData (i : ImageStateV) : Option ImageData :=
  match i.data with
  | .str _ => none
  | d => some d

/-- The non-failing tail of `Image.enableIndex`. -/
def assignRest (i : ImageStateV) (o : Options) : ImageStateV :=
  { i with
    maxChunkSize := if o.maxChunkSize.isUndef then i.maxChunkSize else o.maxChunkSize
    chunkOverlap := if o.chunkOverlap.isUndef then i.chunkOverlap else o.chunkOverlap
    isSeparatorRegex :=
      if o.isSeparatorRegex.isUndef then i.isSeparatorRegex else o.isSeparatorRegex
    separators := if o.separators.isUndef then i.separators else o.separators
    keepSeparator := if o.keepSeparator.isUndef then i.keepSeparator else o.keepSeparator }

/-- `Image.enableIndex`: sets `indexEnabled` first, then validates the MIME
type, then validates/assigns `embModel` and `visionModel`, then assigns the
other options.  Returns the instance as left by the call together with the
thrown error, if any. -/
def enableIndex (i : ImageStateV) (o : Options) : ImageStateV × Option LocalErr :=
  let i1 := { i with indexEnabled := vbool true }
  if ¬ isValidMimeType i1.mimeType then
    (i1, some (.jsError ("Unsupported mime type: \x27" ++ jsTemplate i1.mimeType
      ++ "\x27. Supported types are: " ++ String.intercalate ", " supportedMimeTypes)))
  else
    let next2 : ImageStateV → ImageStateV × Option LocalErr := fun i2 =>
      if o.visionModel.isUndef then (assignRest i2 o, none)
      else if isValidVisionModel o.visionModel then
        (assignRest { i2 with visionModel := o.visionModel } o, none)
      else
        (i2, some (.jsError ("Invalid vision model: \x27" ++ jsTemplate o.visionModel
          ++ "\x27 is not supported. Supported models are: "
          ++ String.intercalate ", " imageToTextModels)))
    if o.embModel.isUndef then next2 i1
    else if isValidEmbModel o.embModel then next2 { i1 with embModel := o.embModel }
    else
      (i1, some (.jsError ("Invalid embedding model: \x27" ++ jsTemplate o.embModel
        ++ "\x27 is not supported. Supported models are: "
        ++ String.intercalate ", " textToEmbeddingModels)))

/-- The inner payload built by `Image._serialize` (the value under
`"xImage"`): `mime_type` and `index` first, each option key exactly when the
field is not `null`, then `chunks` always, then `data` exactly when the
payload is a string.  Binary payloads are never included. -/
def serializeInner (i : ImageStateV) : List (String × Value) :=
  [("mime_type", i.mimeType), ("index", i.indexEnabled)]
  ++ (if i.embModel.isNull then [] else [("emb_model", i.embModel)])
  ++ (if i.visionModel.isNull then [] else [("vision_model", i.visionModel)])
  ++ (if i.maxChunkSize.isNull then [] else [("max_chunk_size", i.maxChunkSize)])
  ++ (if i.chunkOverlap.isNull then [] else [("chunk_overlap", i.chunkOverlap)])
  ++ (if i.isSeparatorRegex.isNull then [] else [("is_separator_regex", i.isSeparatorRegex)])
  ++ (if i.separators.isNull then [] else [("separators", i.separators)])
  ++ (if i.keepSeparator.isNull then [] else [("keep_separator", i.keepSeparator)])
  ++ [("chunks", i.chunks)]
  ++ (match i.data with | .str s => [("data", vstr s)] | _ => [])

/-- `Image._serialize`: wraps the inner payload under the `"xImage"`
marker. -/
def serialize (i : ImageStateV) : Value :=
  vobj [("xImage", vobj (serializeInner i))]

/-- `Image._deserialize`: unwrap the `"xImage"` marker if present, require
`mime_type`, run the constructor on `data["data"] || ""`, then overwrite the
MIME type, the index flag (`data["index"] || false`), every present option
field, and `chunks` — all without re-validation. -/
def deserialize (v : Value) (fs : FS) : Except LocalErr ImageStateV := do
  let wrapped ← hasField v "xImage"
  let data ← if wrapped then getField v "xImage" else pure v
  if ¬ (← hasField data "mime_type") then
    throw (.jsError "JSON data must include \x27mime_type\x27 under \x27xImage\x27.")
  let dataValue ← getField data "data"
  let inst ← ctorValue (jsOr dataValue (vstr "")) fs
  let inst := { inst with mimeType := (← getField data "mime_type") }
  let inst := { inst with indexEnabled := jsOr (← getField data "index") (vbool false) }
  let inst ← do
    if (← hasField data "emb_model") then
      pure { inst with embModel := (← getField data "emb_model") }
    else pure inst
  let inst ← do
    if (← hasField data "vision_model") then
      pure { inst with visionModel := (← getField data "vision_model") }
    else pure inst
  let inst ← do
    if (← hasField data "max_chunk_size") then
      pure { inst with maxChunkSize := (← getField data "max_chunk_size") }
    else pure inst
  let inst ← do
    if (← hasField data "chunk_overlap") then
      pure { inst with chunkOverlap := (← getField data "chunk_overlap") }
    else pure inst
  let inst ← do
    if (← hasField data "is_separator_regex") then
      pure { inst with isSeparatorRegex := (← getField data "is_separator_regex") }
    else pure inst
  let inst ← do
    if (← hasField data "separators") then
      pure { inst with separators := (← getField data "separators") }
    else pure inst
  let inst ← do
    if (← hasField data "keep_separator") then
      pure { inst with keepSeparator := (← getField data "keep_separator") }
    else pure inst
  let inst ← do
    if (← hasField data "chunks") then
      pure { inst with chunks := jsOr (← getField data "chunks") (varr []) }
    else pure inst
  return inst

end Image

/-! ## The src/src/ejson/image.ts `Image` revision (`EJImage`) -/

namespace EJImage

/-- Binary payload types of this revision (`File | Blob | ArrayBuffer`). -/
inductive Bin where
  | file (name type_ : String) (bytes : List Nat) : Bin
  | blob (type_ : String) (bytes : List Nat) : Bin
  | arrayBuffer (bytes : List Nat) : Bin

/-- Constructor argument: `string | File | Blob | ArrayBuffer`. -/
inductive CtorData where
  | str (s : String) : CtorData
  | bin (b : Bin) : CtorData

/-- Instance state.  This revision keeps base64 text in `data` and binary
payloads in `binaryData`, and has a server-populated `url`. -/
structure State where
  data : Option String
  binaryData : Option Bin
  mimeType : String
  chunks : List String
  url : Option String
  embModel : Option String
  visionModel : Option String
  maxChunkSize : Option Int
  chunkOverlap : Option Int
  isSeparatorRegex : Option Bool
  separators : Option (Option (List String))
  keepSeparator : Option Bool
  indexEnabled : Bool

/-- `ImageIndexOptions` of this revision; the outer `Option` is property
presence (`undefined`), the inner one on `separators` is an explicit
`null`. -/
structure Options where
  embModel : Option String := none
  visionModel : Option String := none
  maxChunkSize : Option Int := none
  chunkOverlap : Option Int := none
  isSeparatorRegex : Option Bool := none
  separators : Option (Option (List String)) := none
  keepSeparator : Option Bool := none

/-- `SUPPORTED_EMB_MODELS` of this revision. -/
def supportedEmbModels : List String :=
  ["text-embedding-3-small", "text-embedding-3-large", "text-embedding-ada-002"]

/-- `SUPPORTED_VISION_MODELS` of this revision (visionModels.ts). -/
def supportedVisionModels : List String :=
  ["gpt-4o-mini", "gpt-4o", "gpt-4-turbo", "o1"]

/-- `SUPPORTED_MIME_TYPES` of this revision. -/
def supportedMimeTypes : List String :=
  ["image/jpeg", "image/jpg", "image/png", "image/gif", "image/webp"]

/-- `isValidData` of this revision: a nonempty-after-trim string
(`Buffer.from(data, "base64")` never throws on a string, so the try/catch
adds no constraint). -/
def isValidData (s : String) : Bool := jsTrimmedLen s > 0

/-- The constructor: a truthy string payload failing `isValidData` throws;
every other payload is stored.  The MIME type is `mimeType || data.type ||
""` for `File`/`Blob` and `mimeType || ""` otherwise — never validated
here. -/
def ctor (d : CtorData) (mimeType : Option String) : Except LocalErr State :=
  let base : State :=
    { data := none, binaryData := none, mimeType := "", chunks := [], url := none,
      embModel := none, visionModel := none, maxChunkSize := none, chunkOverlap := none,
      isSeparatorRegex := none, separators := none, keepSeparator := none,
      indexEnabled := false }
  let mt : String → String := fun alt =>
    (match mimeType with
     | some m => if m ≠ "" then m else alt
     | none => alt)
  match d with
  | .str s =>
      if s ≠ "" ∧ ¬ isValidData s then
        .error (.jsError ("Invalid data: must be a non-empty string containing valid "
          ++ "base64-encoded image data."))
      else .ok { base with data := some s, mimeType := mt "" }
  | .bin (.file name type_ bytes) =>
      .ok { base with
            binaryData := some (.file name type_ bytes)
            mimeType := mt (if type_ ≠ "" then type_ else "") }
  | .bin (.blob type_ bytes) =>
      .ok { base with
            binaryData := some (.blob type_ bytes)
            mimeType := mt (if type_ ≠ "" then type_ else "") }
  | .bin (.arrayBuffer bytes) =>
      .ok { base with binaryData := some (.arrayBuffer bytes), mimeType := mt "" }

/-- Non-failing tail of this revision's `enableIndex`. -/
def assignRest (i : State) (o : Options) : State :=
  { i with
    maxChunkSize := (match o.maxChunkSize with | some x => some x | none => i.maxChunkSize)
    chunkOverlap := (match o.chunkOverlap with | some x => some x | none => i.chunkOverlap)
    isSeparatorRegex :=
      (match o.isSeparatorRegex with | some x => some x | none => i.isSeparatorRegex)
    separators := (match o.separators with | some s => some s | none => i.separators)
    keepSeparator :=
      (match o.keepSeparator with | some x => some x | none => i.keepSeparator) }

/-- `enableIndex` of this revision: flips `indexEnabled`, validates the
stored MIME type against the supported set, then `embModel` and
`visionModel`, then assigns the rest.  Returns state-so-far plus the thrown
error, if any. -/
def enableIndex (i : State) (o : Options) : State × Option LocalErr :=
  let i1 := { i with indexEnabled := true }
  if ¬ supportedMimeTypes.contains i1.mimeType then
    (i1, some (.jsError ("Unsupported mime type: \x27" ++ i1.mimeType
      ++ "\x27. Supported types are: " ++ String.intercalate ", " supportedMimeTypes)))
  else
    let next2 : State → State × Option LocalErr := fun i2 =>
      match o.visionModel with
      | none => (assignRest i2 o, none)
      | some vm =>
          if supportedVisionModels.contains vm then
            (assignRest { i2 with visionModel := some vm } o, none)
          else
            (i2, some (.jsError ("Invalid vision model: \x27" ++ vm
              ++ "\x27 is not supported. Supported models are: "
              ++ String.intercalate ", " supportedVisionModels)))
    match o.embModel with
    | none => next2 i1
    | some em =>
        if supportedEmbModels.contains em then next2 { i1 with embModel := some em }
        else
          (i1, some (.jsError ("Invalid embedding model: \x27" ++ em
            ++ "\x27 is not supported. Supported models are: "
            ++ String.intercalate ", " supportedEmbModels)))

end EJImage

/-! ## The `Collection` document walker (first revision of Collection.ts) -/

namespace Collection

mutual

/-- `Collection.serialize`: depth guard at entry, primitives unchanged,
arrays and plain objects element-wise, `Text`/`Image` via their own
serializers, the BSON codec table by constructor identity, and a
`TypeError` for a leaf of unknown runtime type.  `bson` library behaviour
modelled: `ObjectId.toString()` is the hex, `Date.toISOString()` the stored
canonical ISO string, `Decimal128.toString()` the stored digits,
`Binary.toString("hex")` lowercase hex of the bytes, `Code.toString()` the
stored code, `Timestamp.getHighBits/getLowBits` the stored halves. -/
def serialize (v : Value) (depth : Nat) : Except JSError Value :=
  if depth > 100 then .error .tooDeepSer
  else match v with
  | vnull => .ok vnull
  | vundefined => .ok vundefined
  | vbool b => .ok (vbool b)
  | vnum n => .ok (vnum n)
  | vstr s => .ok (vstr s)
  | varr xs => do
      return varr (← serializeList xs (depth + 1))
  | vtext t => .ok (Text.serialize t)
  | vimage i => .ok (Image.serialize i)
  | voidc hex => .ok (vobj [("$oid", vstr hex)])
  | vdate iso => .ok (vobj [("$date", vstr iso)])
  | vdecimal s => .ok (vobj [("$numberDecimal", vstr s)])
  | vbinary bytes => .ok (vobj [("$binary", vstr (hexEncode bytes))])
  | vregexp source flags => .ok (vobj [("$regex", vstr source), ("$options", vstr flags)])
  | vcode code => .ok (vobj [("$code", vstr code)])
  | vtimestamp low high =>
      .ok (vobj [("$timestamp", vobj [("t", vnum high), ("i", vnum low)])])
  | vminkey => .ok (vobj [("$minKey", vnum 1)])
  | vmaxkey => .ok (vobj [("$maxKey", vnum 1)])
  | vobj fields => do
      return vobj (← serializeFields fields (depth + 1))
  | vexotic tyName => .error (.jsTypeError ("Unsupported BSON type: " ++ tyName))

/-- Element-wise serialization of an array (`value.map(...)`), failing on the
first element that throws. -/
def serializeList (xs : List Value) (depth : Nat) : Except JSError (List Value) :=
  match xs with
  | [] => .ok []
  | x :: rest => do
      let y ← serialize x depth
      let ys ← serializeList rest depth
      return y :: ys

/-- Entry-wise serialization of a plain object (`Object.entries` order). -/
def serializeFields (fields : List (String × Value)) (depth : Nat) :
    Except JSError (List (String × Value)) :=
  match fields with
  | [] => .ok []
  | (k, x) :: rest => do
      let y ← serialize x depth
      let ys ← serializeFields rest depth
      return (k, y) :: ys

end

/-- 32-bit coercion `x | 0` applied by `Long.fromBits` to the `t`/`i`
values; strings convert numerically, everything else to 0 (the 32-bit mask
itself is not modelled — no claim involves out-of-range bits). -/
def toInt32ish : Value → Int
  | vnum n => n
  | vbool b => if b then 1 else 0
  | vstr s => (s.toInt?).getD 0
  | _ => 0

/-- `new ObjectId(x)` (bson): accepts a 24-character hex string and
normalises to lowercase; other inputs are rejected with a `BSONError`
(integer and 12-byte inputs are outside the wire contract and not
modelled). -/
def mkObjectId (x : Value) : Except LocalErr Value :=
  match x with
  | vstr s =>
      if s.length = 24 ∧ s.toList.all (fun c => (hexVal c).isSome) then
        .ok (voidc (lowerStr s))
      else
        .error (.jsError
          "input must be a 24 character hex string, 12 byte Uint8Array, or an integer")
  | _ =>
      .error (.jsError
        "input must be a 24 character hex string, 12 byte Uint8Array, or an integer")

/-- `new Date(x)`: never throws; a string argument stores that string (the
model identifies a `Date` with its ISO form), anything else is outside the
wire contract and mapped to a tagged placeholder string. -/
def mkDate (x : Value) : Value :=
  match x with
  | vstr s => vdate s
  | vnum n => vdate ("<epoch-ms:" ++ toString n ++ ">")
  | _ => vdate "Invalid Date"

/-- `new Decimal128(x)`: requires a string (format validation of the digits
is not modelled — no claim involves malformed decimals). -/
def mkDecimal (x : Value) : Except LocalErr Value :=
  match x with
  | vstr s => .ok (vdecimal s)
  | _ => .error (.jsTypeError "Decimal128 must take a Buffer or string")

/-- `new Binary(Buffer.from(x, "hex"))`: requires a string, decoded with
Node's lenient hex parse. -/
def mkBinary (x : Value) : Except LocalErr Value :=
  match x with
  | vstr s => .ok (vbinary (hexDecode s))
  | _ => .error (.jsTypeError
      "The first argument must be of type string or an instance of Buffer")

/-- Valid RegExp flag strings: each flag character at most once. -/
def validFlags (s : String) : Bool :=
  s.toList.all (fun c => c ∈ ['d', 'g', 'i', 'm', 's', 'u', 'v', 'y'])
    && s.toList.Nodup

/-- `new RegExp(source, flags)`: the source coerces to a string; invalid
flags throw a `SyntaxError` (pattern syntax validation is not modelled). -/
def mkRegExp (source flags : Value) : Except LocalErr Value :=
  let f := jsTemplate flags
  if validFlags f then .ok (vregexp (jsTemplate source) f)
  else .error (.jsError ("Invalid flags supplied to RegExp constructor \x27" ++ f ++ "\x27"))

mutual

/-- `Collection.deserialize`: depth guard at entry, primitives and arrays as
in `serialize`, then the ordered marker checks on objects (`xText`,
`xImage`, then the BSON markers), with unmatched objects recursed into as
plain nested documents.  Class-instance and exotic leaves are outside the
wire contract (responses are parsed JSON); they are passed through
unchanged. -/
def deserialize (v : Value) (depth : Nat) (fs : FS) : Except JSError Value :=
  if depth > 100 then .error .tooDeepDeser
  else match v with
  | vnull => .ok vnull
  | vundefined => .ok vundefined
  | vbool b => .ok (vbool b)
  | vnum n => .ok (vnum n)
  | vstr s => .ok (vstr s)
  | varr xs => do
      return varr (← deserializeList xs (depth + 1) fs)
  | vobj fields =>
      if hasKeyB fields "xText" then do
        return vtext (← (Text.deserialize (vobj fields)).mapError LocalErr.toJSError)
      else if hasKeyB fields "xImage" then do
        return vimage (← (Image.deserialize (vobj fields) fs).mapError LocalErr.toJSError)
      else if hasKeyB fields "$oid" then
        (mkObjectId ((lookupField fields "$oid").getD vundefined)).mapError LocalErr.toJSError
      else if hasKeyB fields "$date" then
        .ok (mkDate ((lookupField fields "$date").getD vundefined))
      else if hasKeyB fields "$numberDecimal" then
        (mkDecimal ((lookupField fields "$numberDecimal").getD vundefined)).mapError
          LocalErr.toJSError
      else if hasKeyB fields "$binary" then
        (mkBinary ((lookupField fields "$binary").getD vundefined)).mapError LocalErr.toJSError
      else if hasKeyB fields "$regex" then
        (mkRegExp ((lookupField fields "$regex").getD vundefined)
          (match (lookupField fields "$options").getD vundefined with
           | vnull => vstr ""
           | vundefined => vstr ""
           | w => w)).mapError LocalErr.toJSError
      else if hasKeyB fields "$code" then
        .ok (vcode (jsTemplate ((lookupField fields "$code").getD vundefined)))
      else if hasKeyB fields "$timestamp" then
        (do
          let ts := (lookupField fields "$timestamp").getD vundefined
          let tv ← getField ts "t"
          let iv ← getField ts "i"
          return vtimestamp (toInt32ish tv) (toInt32ish iv) :
            Except LocalErr Value).mapError LocalErr.toJSError
      else if hasKeyB fields "$minKey" then .ok vminkey
      else if hasKeyB fields "$maxKey" then .ok vmaxkey
      else do
        return vobj (← deserializeFields fields (depth + 1) fs)
  | other => .ok other

/-- Element-wise deserialization of an array. -/
def deserializeList (xs : List Value) (depth : Nat) (fs : FS) :
    Except JSError (List Value) :=
  match xs with
  | [] => .ok []
  | x :: rest => do
      let y ← deserialize x depth fs
      let ys ← deserializeList rest depth fs
      return y :: ys

/-- Entry-wise deserialization of a plain object. -/
def deserializeFields (fields : List (String × Value)) (depth : Nat) (fs : FS) :
    Except JSError (List (String × Value)) :=
  match fields with
  | [] => .ok []
  | (k, x) :: rest => do
      let y ← deserialize x depth fs
      let ys ← deserializeFields rest depth fs
      return (k, y) :: ys

end

end Collection

namespace Collection

/-- Generic association-list lookup (first match). -/
def assocLookup {β : Type} : List (String × β) → String → Option β
  | [], _ => none
  | (k, v) :: rest, key => if k = key then some v else assocLookup rest key

/-- JS object property assignment `files[k] = b`: overwrite in place when the
key exists, append otherwise. -/
def objSet : List (String × Blobby) → String → Blobby → List (String × Blobby)
  | [], k, b => [(k, b)]
  | (k1, b1) :: rest, k, b =>
      if k1 = k then (k1, b) :: rest else (k1, b1) :: objSet rest k b

/-- Blob conversion inside `extractBinaryData`: `File` and `Blob` pass
through (`File` is a `Blob` subclass, caught by the first `instanceof`),
`ArrayBuffer` and `Uint8Array` are wrapped in a fresh `Blob`. -/
def toBlob : ImageData → Option Blobby
  | .str _ => none
  | .file name type_ bytes => some (.file name type_ bytes)
  | .blob type_ bytes => some (.blob type_ bytes)
  | .arrayBuffer bytes => some (.blob "" bytes)
  | .uint8Array bytes => some (.blob "" bytes)

/-- Path extension helper of the extractor
(`path ? path + "." + seg : seg`). -/
def extPath (path seg : String) : String :=
  if path = "" then seg else path ++ "." ++ seg

mutual

/-- The recursive helper of `Collection.extractBinaryData`: an `Image` with
`hasBinaryData()` contributes `files[<doc path>.xImage.data] = blob`; arrays
and objects are walked with extended dotted paths.  A base64-string `Image`
falls into the generic object branch and is walked through its own entries
(which can contain no further `Image`); a `Text` instance likewise.  BSON
library values are plain objects too, but their internals contain no `Image`
instances and never contribute an entry, so walking them is a no-op and is
modelled as such. -/
def extractFromValue (v : Value) (docIndex : Nat) (path : String)
    (files : List (String × Blobby)) : List (String × Blobby) :=
  match v with
  | vimage i =>
      if Image.hasBinaryData i then
        match Image.getBinaryData i with
        | some bd =>
            match toBlob bd with
            | some blob =>
                objSet files
                  (if path = "" then "doc_" ++ toString docIndex ++ ".xImage.data"
                   else "doc_" ++ toString docIndex ++ "." ++ path ++ ".xImage.data")
                  blob
            | none => files
        | none => files
      else
        -- A non-binary `Image` (base64-string payload) falls into the
        -- generic object branch: `Object.entries` walks its own fields in
        -- constructor assignment order (TypeScript `private` is
        -- compile-time only).  Entries that are strings or booleans
        -- (`data`, `indexEnabled`) contribute nothing and are skipped.
        match i with
        | ⟨_, mimeType, chunks, embModel, visionModel, maxChunkSize, chunkOverlap,
           isSeparatorRegex, separators, keepSeparator, indexEnabled⟩ =>
          let f1 := extractFromValue mimeType docIndex (extPath path "mimeType") files
          let f2 := extractFromValue chunks docIndex (extPath path "_chunks") f1
          let f3 := extractFromValue embModel docIndex (extPath path "embModel") f2
          let f4 := extractFromValue visionModel docIndex (extPath path "visionModel") f3
          let f5 := extractFromValue maxChunkSize docIndex (extPath path "maxChunkSize") f4
          let f6 := extractFromValue chunkOverlap docIndex (extPath path "chunkOverlap") f5
          let f7 := extractFromValue isSeparatorRegex docIndex
            (extPath path "isSeparatorRegex") f6
          let f8 := extractFromValue separators docIndex (extPath path "separators") f7
          let f9 := extractFromValue keepSeparator docIndex (extPath path "keepSeparator") f8
          extractFromValue indexEnabled docIndex (extPath path "indexEnabled") f9
  | varr xs => extractFromList xs 0 docIndex path files
  | vtext t =>
      -- A `Text` instance is also walked through its own entries; its
      -- `text` field is a string and contributes nothing.
      match t with
      | ⟨_, chunks, embModel, maxChunkSize, chunkOverlap, isSeparatorRegex,
         separators, keepSeparator, indexEnabled⟩ =>
        let f1 := extractFromValue chunks docIndex (extPath path "chunks") files
        let f2 := extractFromValue embModel docIndex (extPath path "embModel") f1
        let f3 := extractFromValue maxChunkSize docIndex (extPath path "maxChunkSize") f2
        let f4 := extractFromValue chunkOverlap docIndex (extPath path "chunkOverlap") f3
        let f5 := extractFromValue isSeparatorRegex docIndex
          (extPath path "isSeparatorRegex") f4
        let f6 := extractFromValue separators docIndex (extPath path "separators") f5
        let f7 := extractFromValue keepSeparator docIndex (extPath path "keepSeparator") f6
        extractFromValue (vbool indexEnabled) docIndex (extPath path "indexEnabled") f7
  | vobj fields => extractFromFields fields docIndex path files
  | _ => files

/-- Array walk with running element index. -/
def extractFromList (xs : List Value) (n : Nat) (docIndex : Nat) (path : String)
    (files : List (String × Blobby)) : List (String × Blobby) :=
  match xs with
  | [] => files
  | x :: rest =>
      let files1 := extractFromValue x docIndex
        (if path = "" then toString n else path ++ "." ++ toString n) files
      extractFromList rest (n + 1) docIndex path files1

/-- Object-entry walk. -/
def extractFromFields (fields : List (String × Value)) (docIndex : Nat) (path : String)
    (files : List (String × Blobby)) : List (String × Blobby) :=
  match fields with
  | [] => files
  | (k, x) :: rest =>
      let files1 := extractFromValue x docIndex
        (if path = "" then k else path ++ "." ++ k) files
      extractFromFields rest docIndex path files1

end

/-- Document-list walk of `extractBinaryData` with running document index. -/
def extractDocs (documents : List Value) (docIndex : Nat)
    (files : List (String × Blobby)) : List (String × Blobby) :=
  match documents with
  | [] => files
  | d :: rest => extractDocs rest (docIndex + 1) (extractFromValue d docIndex "" files)

/-- `Collection.extractBinaryData`. -/
def extractBinaryData (documents : List Value) : List (String × Blobby) :=
  extractDocs documents 0 []

end Collection

/-! ## Structural predicates on values -/

mutual

/-- Nesting depth as seen by the document walker: the depth counter of the
recursive call that reaches a node equals that node's level, and the walker
descends only through arrays and plain objects (embeddable-field and BSON
leaves are serialized without recursion). -/
def nestingDepth : Value → Nat
  | varr xs => nestingDepthList xs
  | vobj fields => nestingDepthFields fields
  | _ => 0

def nestingDepthList : List Value → Nat
  | [] => 0
  | x :: rest => max (nestingDepth x + 1) (nestingDepthList rest)

def nestingDepthFields : List (String × Value) → Nat
  | [] => 0
  | (_, x) :: rest => max (nestingDepth x + 1) (nestingDepthFields rest)

end

mutual

/-- No `vexotic` leaf reachable through arrays or plain objects (the only
positions in which `serialize` can meet one). -/
def noExotic : Value → Bool
  | varr xs => noExoticList xs
  | vobj fields => noExoticFields fields
  | vexotic _ => false
  | _ => true

def noExoticList : List Value → Bool
  | [] => true
  | x :: rest => noExotic x && noExoticList rest

def noExoticFields : List (String × Value) → Bool
  | [] => true
  | (_, x) :: rest => noExotic x && noExoticFields rest

end

/-- The marker keys recognised by `Collection.deserialize`, in check
order. -/
def reservedKeys : List String :=
  ["xText", "xImage", "$oid", "$date", "$numberDecimal", "$binary",
   "$regex", "$code", "$timestamp", "$minKey", "$maxKey"]

mutual

/-- Parsed-JSON values none of whose objects use a recognised marker key:
the inputs on which `deserialize` performs pure structural recursion. -/
def jsonPlain : Value → Bool
  | vnull => true
  | vbool _ => true
  | vnum _ => true
  | vstr _ => true
  | varr xs => jsonPlainList xs
  | vobj fields => (reservedKeys.all (fun k => ¬ hasKeyB fields k)) && jsonPlainFields fields
  | _ => false

def jsonPlainList : List Value → Bool
  | [] => true
  | x :: rest => jsonPlain x && jsonPlainList rest

def jsonPlainFields : List (String × Value) → Bool
  | [] => true
  | (_, x) :: rest => jsonPlain x && jsonPlainFields rest

end

/-- Lowercase hex digit. -/
def isLowerHex (c : Char) : Bool :=
  ('0' ≤ c ∧ c ≤ '9') ∨ ('a' ≤ c ∧ c ≤ 'f')

/-- Is the value an array? -/
def isArrB : Value → Bool
  | varr _ => true
  | _ => false

/-- Is the value a boolean? -/
def isBoolB : Value → Bool
  | vbool _ => true
  | _ => false

/-- String-payload well-formedness for a round-trippable image: what the
constructor itself guarantees for stored string payloads (no `data:` prefix
survives parsing, and the payload is an `http` URL or a base64-shaped
string), stated directly with the constructor's own checks. -/
def imageDataRT : ImageData → Bool
  | .str s =>
      ¬ startsWithB s "data:" && jsTrimmedLen s > 0 && (startsWithB s "http" || base64Shape s)
  | _ => false

mutual

/-- Documents for which serialization round-trips: constructor-established
invariants on embeddable fields (valid text, array-valued `chunks`,
valid-or-null `embModel`, no `undefined` option fields, string image
payloads, boolean image index flag), canonical BSON leaves (lowercase
24-hex ObjectId, bytes below 256, valid RegExp flags), no `Timestamp`
leaves (their `t`/`i` halves are swapped on decode by
`Timestamp.fromBits(t, i)`), no exotic leaves, and no reserved marker key
used by a plain object. -/
def wfRT : Value → Bool
  | vnull => true
  | vundefined => true
  | vbool _ => true
  | vnum _ => true
  | vstr _ => true
  | varr xs => wfRTList xs
  | vobj fields =>
      (reservedKeys.all (fun k => ¬ hasKeyB fields k)) && wfRTFields fields
  | vtext t =>
      jsTrimmedLen t.text > 0 && isArrB t.chunks &&
      (t.embModel.isNull || Text.isValidEmbModel t.embModel) &&
      ¬ t.maxChunkSize.isUndef && ¬ t.chunkOverlap.isUndef &&
      ¬ t.isSeparatorRegex.isUndef && ¬ t.separators.isUndef && ¬ t.keepSeparator.isUndef
  | vimage i =>
      imageDataRT i.data && isArrB i.chunks && isBoolB i.indexEnabled &&
      ¬ i.embModel.isUndef && ¬ i.visionModel.isUndef &&
      ¬ i.maxChunkSize.isUndef && ¬ i.chunkOverlap.isUndef &&
      ¬ i.isSeparatorRegex.isUndef && ¬ i.separators.isUndef && ¬ i.keepSeparator.isUndef
  | voidc hex => hex.length = 24 && hex.toList.all isLowerHex
  | vdate _ => true
  | vdecimal _ => true
  | vbinary bytes => bytes.all (· < 256)
  | vregexp _ flags => Collection.validFlags flags
  | vcode _ => true
  | vtimestamp _ _ => false
  | vminkey => true
  | vmaxkey => true
  | vexotic _ => false

def wfRTList : List Value → Bool
  | [] => true
  | x :: rest => wfRT x && wfRTList rest

def wfRTFields : List (String × Value) → Bool
  | [] => true
  | (_, x) :: rest => wfRT x && wfRTFields rest

end

/-! ## Field positions (paths) inside a document -/

/-- One descent step: an object key or an array index. -/
inductive Step where
  | key (k : String) : Step
  | idx (n : Nat) : Step

/-- Follow a path of steps through arrays and plain objects. -/
def getAt : Value → List Step → Option Value
  | v, [] => some v
  | varr xs, .idx n :: rest =>
      match xs[n]? with
      | some x => getAt x rest
      | none => none
  | vobj fields, .key k :: rest =>
      match lookupField fields k with
      | some x => getAt x rest
      | none => none
  | _, _ => none

/-- Rendered form of one step inside a dotted path. -/
def stepStr : Step → String
  | .key k => k
  | .idx n => toString n

/-- Extend an accumulated dotted path by further steps, exactly as the
extractor does (`path ? path + "." + seg : seg`). -/
def extendPath (path : String) : List Step → String
  | [] => path
  | st :: rest =>
      extendPath (if path = "" then stepStr st else path ++ "." ++ stepStr st) rest

/-- The side-table key for the image field of document `docIndex` at the
accumulated dotted path. -/
def leafKey (docIndex : Nat) (path : String) : String :=
  if path = "" then "doc_" ++ toString docIndex ++ ".xImage.data"
  else "doc_" ++ toString docIndex ++ "." ++ path ++ ".xImage.data"

/-! ## Hand-stated unfolding equations for `Collection.deserialize`

The automatically generated equation lemma for `deserialize` is too large to
realize, so the per-constructor unfoldings are stated here and proved by
definitional reduction. -/

theorem deserialize_varr (xs : List Value) (d : Nat) (fs : FS) :
    Collection.deserialize (varr xs) d fs =
      if d > 100 then .error .tooDeepDeser
      else do return varr (← Collection.deserializeList xs (d + 1) fs) := rfl

theorem deserialize_vobj (fields : List (String × Value)) (d : Nat) (fs : FS) :
    Collection.deserialize (vobj fields) d fs =
      if d > 100 then .error .tooDeepDeser
      else if hasKeyB fields "xText" then do
        return vtext (← (Text.deserialize (vobj fields)).mapError LocalErr.toJSError)
      else if hasKeyB fields "xImage" then do
        return vimage (← (Image.deserialize (vobj fields) fs).mapError LocalErr.toJSError)
      else if hasKeyB fields "$oid" then
        (Collection.mkObjectId ((lookupField fields "$oid").getD vundefined)).mapError
          LocalErr.toJSError
      else if hasKeyB fields "$date" then
        .ok (Collection.mkDate ((lookupField fields "$date").getD vundefined))
      else if hasKeyB fields "$numberDecimal" then
        (Collection.mkDecimal ((lookupField fields "$numberDecimal").getD vundefined)).mapError
          LocalErr.toJSError
      else if hasKeyB fields "$binary" then
        (Collection.mkBinary ((lookupField fields "$binary").getD vundefined)).mapError
          LocalErr.toJSError
      else if hasKeyB fields "$regex" then
        (Collection.mkRegExp ((lookupField fields "$regex").getD vundefined)
          (match (lookupField fields "$options").getD vundefined with
           | vnull => vstr ""
           | vundefined => vstr ""
           | w => w)).mapError LocalErr.toJSError
      else if hasKeyB fields "$code" then
        .ok (vcode (jsTemplate ((lookupField fields "$code").getD vundefined)))
      else if hasKeyB fields "$timestamp" then
        (do
          let ts := (lookupField fields "$timestamp").getD vundefined
          let tv ← getField ts "t"
          let iv ← getField ts "i"
          return vtimestamp (Collection.toInt32ish tv) (Collection.toInt32ish iv) :
            Except LocalErr Value).mapError LocalErr.toJSError
      else if hasKeyB fields "$minKey" then .ok vminkey
      else if hasKeyB fields "$maxKey" then .ok vmaxkey
      else do
        return vobj (← Collection.deserializeFields fields (d + 1) fs) := rfl

/-- Is the value a plain object? -/
def isObjB : Value → Bool
  | vobj _ => true
  | _ => false

theorem deserialize_other (v : Value) (d : Nat) (fs : FS) (ha : isArrB v = false)
    (ho : isObjB v = false) :
    Collection.deserialize v d fs =
      if d > 100 then .error .tooDeepDeser else .ok v := by
  cases v
  case varr => exact absurd ha (by simp [isArrB])
  case vobj => exact absurd ho (by simp [isObjB])
  all_goals rfl

/-! ## Small reduction lemmas for the `Except` monad -/

@[simp]
theorem ebind_ok {e a b : Type} (x : a) (f : a → Except e b) :
    (Except.ok x >>= f) = f x := rfl

@[simp]
theorem ebind_error {e a b : Type} (err : e) (f : a → Except e b) :
    ((Except.error err : Except e a) >>= f) = .error err := rfl

@[simp]
theorem epure {e a : Type} (x : a) : (pure x : Except e a) = .ok x := rfl

@[simp]
theorem ethrow {e a : Type} (err : e) : (throw err : Except e a) = .error err := rfl

@[simp]
theorem emapError_ok {e f a : Type} (x : a) (g : e → f) :
    (Except.ok x : Except e a).mapError g = .ok x := rfl

@[simp]
theorem emapError_error {e f a : Type} (err : e) (g : e → f) :
    (Except.error err : Except e a).mapError g = .error (g err) := rfl

@[simp]
theorem emap_ok {e a b : Type} (x : a) (g : a → b) :
    (g <$> (Except.ok x : Except e a)) = .ok (g x) := rfl

@[simp]
theorem emap_error {e a b : Type} (err : e) (g : a → b) :
    (g <$> (Except.error err : Except e a)) = .error err := rfl

/-! ## Concrete objects shared by the claim theorems -/

/-- An environment with no filesystem (a browser, or simply no matching
files); the constructor branches that consult it are unreachable in every
statement quantified over all of `FS`. -/
def fsNone : FS := ⟨false, fun _ => false, fun _ => none⟩

/-- The state `new Text("hi")` produces. -/
def textHi : TextStateV :=
  ⟨"hi", varr [], vnull, vnull, vnull, vnull, vnull, vnull, false⟩

/-- `n` nested singleton arrays around the number 1. -/
def nestArr : Nat → Value
  | 0 => vnum 1
  | n + 1 => varr [nestArr n]

/-! ## C3 — sparse encoding of optional fields -/

/-- C3, counterexample: serializing the freshly constructed `new Text("hi")`
(no optional field set, `chunks` empty) produces an inner payload that also
contains the `chunks` key, contradicting both "contains only the mandatory
keys" and "`chunks` is included only when non-empty". -/
theorem c3_chunks_always_serialized :
    Text.ctor (vstr "hi") = .ok textHi ∧
    Text.serialize textHi =
      vobj [("xText",
        vobj [("text", vstr "hi"), ("chunks", varr []), ("index", vbool false)])] ∧
    hasKeyB [("text", vstr "hi"), ("chunks", varr []), ("index", vbool false)] "chunks" = true :=
  ⟨rfl, rfl, rfl⟩

/-- C3, amended: with no optional field set the inner payload holds exactly
`text`, `chunks`, `index` (for `Text`), resp. `mime_type`, `index`, `chunks`
and — exactly when the payload is a string — `data` (for `Image`); `chunks`
is always included, also when empty, and no `null`-valued optional key ever
appears. -/
theorem c3_amended_sparse_encoding :
    (∀ (s : String) (ch : Value) (ie : Bool),
      Text.serializeInner ⟨s, ch, vnull, vnull, vnull, vnull, vnull, vnull, ie⟩ =
        [("text", vstr s), ("chunks", ch), ("index", vbool ie)]) ∧
    (∀ (bytes : List Nat) (mt ch ie : Value),
      Image.serializeInner ⟨.uint8Array bytes, mt, ch, vnull, vnull, vnull, vnull, vnull,
        vnull, vnull, ie⟩ = [("mime_type", mt), ("index", ie), ("chunks", ch)]) ∧
    (∀ (s : String) (mt ch ie : Value),
      Image.serializeInner ⟨.str s, mt, ch, vnull, vnull, vnull, vnull, vnull, vnull,
        vnull, ie⟩ = [("mime_type", mt), ("index", ie), ("chunks", ch), ("data", vstr s)]) ∧
    (∀ (t : TextStateV) (k : String) (v : Value), (k, v) ∈ Text.serializeInner t →
      k ≠ "text" → k ≠ "chunks" → k ≠ "index" → v.isNull = false) ∧
    (∀ (i : ImageStateV) (k : String) (v : Value), (k, v) ∈ Image.serializeInner i →
      k ≠ "mime_type" → k ≠ "index" → k ≠ "chunks" → k ≠ "data" → v.isNull = false) := by
  have optPair : ∀ (c : Bool) (kk k : String) (v x : Value),
      (kk, v) ∈ (if c then ([] : List (String × Value)) else [(k, x)]) →
      c = false ∧ kk = k ∧ v = x := by
    intro c kk k v x h
    cases c <;> simp_all
  refine ⟨fun s ch ie => rfl, fun bytes mt ch ie => rfl, fun s mt ch ie => rfl, ?_, ?_⟩
  · intro t k v hmem hk1 hk2 hk3
    unfold Text.serializeInner at hmem
    rcases List.mem_append.mp hmem with hmem | h
    rotate_left
    · obtain ⟨hc, -, rfl⟩ := optPair _ _ _ _ _ h
      simpa using hc
    rcases List.mem_append.mp hmem with hmem | h
    rotate_left
    · obtain ⟨hc, -, rfl⟩ := optPair _ _ _ _ _ h
      simpa using hc
    rcases List.mem_append.mp hmem with hmem | h
    rotate_left
    · obtain ⟨hc, -, rfl⟩ := optPair _ _ _ _ _ h
      simpa using hc
    rcases List.mem_append.mp hmem with hmem | h
    rotate_left
    · obtain ⟨hc, -, rfl⟩ := optPair _ _ _ _ _ h
      simpa using hc
    rcases List.mem_append.mp hmem with hmem | h
    rotate_left
    · obtain ⟨hc, -, rfl⟩ := optPair _ _ _ _ _ h
      simpa using hc
    rcases List.mem_append.mp hmem with hmem | h
    rotate_left
    · obtain ⟨hc, -, rfl⟩ := optPair _ _ _ _ _ h
      simpa using hc
    simp only [List.mem_cons, List.not_mem_nil, or_false, Prod.mk.injEq] at hmem
    rcases hmem with ⟨h, -⟩ | ⟨h, -⟩ | ⟨h, -⟩
    · exact absurd h hk1
    · exact absurd h hk2
    · exact absurd h hk3
  · intro i k v hmem hk1 hk2 hk3 hk4
    unfold Image.serializeInner at hmem
    rcases List.mem_append.mp hmem with hmem | h
    rotate_left
    · cases hd : i.data <;> rw [hd] at h <;> simp only [List.mem_cons, List.not_mem_nil,
        or_false, Prod.mk.injEq] at h
      exact absurd h.1 hk4
    rcases List.mem_append.mp hmem with hmem | h
    rotate_left
    · simp only [List.mem_cons, List.not_mem_nil, or_false, Prod.mk.injEq] at h
      exact absurd h.1 hk3
    rcases List.mem_append.mp hmem with hmem | h
    rotate_left
    · obtain ⟨hc, -, rfl⟩ := optPair _ _ _ _ _ h
      simpa using hc
    rcases List.mem_append.mp hmem with hmem | h
    rotate_left
    · obtain ⟨hc, -, rfl⟩ := optPair _ _ _ _ _ h
      simpa using hc
    rcases List.mem_append.mp hmem with hmem | h
    rotate_left
    · obtain ⟨hc, -, rfl⟩ := optPair _ _ _ _ _ h
      simpa using hc
    rcases List.mem_append.mp hmem with hmem | h
    rotate_left
    · obtain ⟨hc, -, rfl⟩ := optPair _ _ _ _ _ h
      simpa using hc
    rcases List.mem_append.mp hmem with hmem | h
    rotate_left
    · obtain ⟨hc, -, rfl⟩ := optPair _ _ _ _ _ h
      simpa using hc
    rcases List.mem_append.mp hmem with hmem | h
    rotate_left
    · obtain ⟨hc, -, rfl⟩ := optPair _ _ _ _ _ h
      simpa using hc
    rcases List.mem_append.mp hmem with hmem | h
    rotate_left
    · obtain ⟨hc, -, rfl⟩ := optPair _ _ _ _ _ h
      simpa using hc
    simp only [List.mem_cons, List.not_mem_nil, or_false, Prod.mk.injEq] at hmem
    rcases hmem with ⟨h, -⟩ | ⟨h, -⟩
    · exact absurd h hk1
    · exact absurd h hk2

/-- C3, witness for the amended theorem's hypotheses: a `Text` with
`embModel` set serializes that key with a non-null value. -/
theorem c3_sparse_witness :
    Text.serializeInner ⟨"hi", varr [], vnull, vnull, vnull, vnull, vnull, vnull, false⟩ =
      [("text", vstr "hi"), ("chunks", varr []), ("index", vbool false)] ∧
    (vstr "text-embedding-3-small").isNull = false :=
  ⟨c3_amended_sparse_encoding.1 "hi" (varr []) false,
   c3_amended_sparse_encoding.2.2.2.1
     ⟨"hi", varr [], vstr "text-embedding-3-small", vnull, vnull, vnull, vnull, vnull, true⟩
     "emb_model" (vstr "text-embedding-3-small") (by simp [Text.serializeInner, Value.isNull])
     (by decide) (by decide) (by decide)⟩

/-! ## C5 — server-response decoding and model re-validation -/

/-- The wire object of the claim's scenario, with an unrecognized model
name. -/
def c5wire : Value :=
  vobj [("xText", vobj [("text", vstr "hi"), ("chunks", varr [vstr "hi"]),
    ("index", vbool true), ("emb_model", vstr "not-a-real-model")])]

/-- C5, counterexample: decoding a recognized text wire object with
`index: true` and an unrecognized `emb_model` raises the validation error —
`_deserialize` re-invokes `enableIndex`, which re-validates model names —
both directly and through the document walker. -/
theorem c5_unrecognized_model_decode_throws :
    Text.deserialize c5wire =
      .error (.jsError "Invalid embedding model: not-a-real-model is not supported.") ∧
    Collection.deserialize c5wire 0 fsNone =
      .error (.jsError "Invalid embedding model: not-a-real-model is not supported.") :=
  ⟨rfl, rfl⟩

/-- C5, amended: decoding a recognized text wire object with `index: true`
re-validates the model name through `enableIndex`: it succeeds (populating
`chunks` and the config) exactly when `emb_model` is a recognized model, and
raises the validation error otherwise.  (With the index flag not strictly
`true`, fields are assigned without validation.) -/
theorem c5_amended_response_decode :
    ∀ (s : String) (ch em : Value), 0 < jsTrimmedLen s → em.isUndef = false →
      Text.deserialize (vobj [("xText", vobj [("text", vstr s), ("chunks", ch),
        ("index", vbool true), ("emb_model", em)])]) =
      (if Text.isValidEmbModel em then
        .ok { text := s, chunks := jsOr ch (varr []), embModel := em, maxChunkSize := vnull,
              chunkOverlap := vnull, isSeparatorRegex := vnull, separators := vnull,
              keepSeparator := vnull, indexEnabled := true }
      else
        .error (.jsError
          ("Invalid embedding model: " ++ jsTemplate em ++ " is not supported."))) := by
  intro s ch em hs hem
  simp only [Text.deserialize, hasField, hasKeyB, lookupField, getField, Text.ctor,
    Text.isValidText, Value.isTrue, Value.isNull, ebind_ok, ebind_error, epure, ethrow]
  simp [lookupField, Text.enableIndex, Text.assignRest, hs]
  cases em
  case vundefined => simp [Value.isUndef] at hem
  case vstr s1 =>
    by_cases hv : s1 ∈ textToEmbeddingModels <;>
      simp [Value.isUndef, Text.isValidEmbModel, hv, Value.isNull, hs]
  all_goals simp [Value.isUndef, Text.isValidEmbModel, Value.isNull, hs]

/-! ## C6 — construction and model validation of `Text` -/

/-- C6, counterexample: the error thrown for an unrecognized embedding model
is `Invalid embedding model: <name> is not supported.` — it does not name
the supported set (none of the supported model names occurs in the
message). -/
theorem c6_message_lacks_supported_set :
    (Text.enableIndex textHi { embModel := vstr "not-a-real-model" }).2 =
      some (.jsError "Invalid embedding model: not-a-real-model is not supported.") ∧
    textToEmbeddingModels.all
      (fun m => ¬ (m.toList <:+: "Invalid embedding model: not-a-real-model is not supported.".toList)) = true :=
  ⟨rfl, by decide⟩

/-- C6, amended: empty and whitespace-only strings are rejected by the
constructor, and `enableIndex` with an unsupported embedding model fails
with a validation error naming the offending model (not the supported
set). -/
theorem c6_amended_validation :
    (∀ s : String, jsTrimmedLen s = 0 →
      Text.ctor (vstr s) = .error (.jsError "Invalid text: must be a non-empty string.")) ∧
    (∀ (t : TextStateV) (em : Value), em.isUndef = false → Text.isValidEmbModel em = false →
      (Text.enableIndex t { embModel := em }).2 =
        some (.jsError ("Invalid embedding model: " ++ jsTemplate em ++ " is not supported."))) := by
  constructor
  · intro s hs
    simp [Text.ctor, Text.isValidText, hs]
  · intro t em hem hv
    simp [Text.enableIndex, hem, hv]

/-- C6, witness: the amended theorem applied at the claim's concrete
inputs. -/
theorem c6_validation_witness :
    Text.ctor (vstr "") = .error (.jsError "Invalid text: must be a non-empty string.") ∧
    Text.ctor (vstr "   ") = .error (.jsError "Invalid text: must be a non-empty string.") ∧
    (Text.enableIndex textHi { embModel := vstr "not-a-real-model" }).2 =
      some (.jsError "Invalid embedding model: not-a-real-model is not supported.") :=
  ⟨c6_amended_validation.1 "" (by decide), c6_amended_validation.1 "   " (by decide),
   c6_amended_validation.2 textHi (vstr "not-a-real-model") (by decide) (by decide)⟩

/-- C5, witness: the amended theorem at the scenario's wire object with a
recognized model. -/
theorem c5_decode_witness :
    Text.deserialize (vobj [("xText", vobj [("text", vstr "hi"), ("chunks", varr [vstr "hi"]),
      ("index", vbool true), ("emb_model", vstr "text-embedding-3-small")])]) =
      .ok { text := "hi", chunks := varr [vstr "hi"],
            embModel := vstr "text-embedding-3-small", maxChunkSize := vnull,
            chunkOverlap := vnull, isSeparatorRegex := vnull, separators := vnull,
            keepSeparator := vnull, indexEnabled := true } := by
  have h := c5_amended_response_decode "hi" (varr [vstr "hi"])
    (vstr "text-embedding-3-small") (by decide) (by decide)
  simpa [Text.isValidEmbModel, textToEmbeddingModels, Value.jsOr, Value.truthy] using h

/-! ## C7 — MIME validation happens at `enableIndex`, not construction -/

/-- Payloads the ejson `Image` constructor accepts: any binary payload, and
any string except a nonempty whitespace-only one. -/
def EJImage.ctorAccepts : EJImage.CtorData → Bool
  | .str s => s = "" || jsTrimmedLen s > 0
  | .bin _ => true

/-- C7: the ejson `Image` constructor never validates the MIME type — for
every `mimeType` argument it succeeds on any accepted payload — while
`enableIndex` validates the stored MIME type exactly: it fails with a
validation error listing the supported MIME set whenever the stored type is
unsupported, and reports no error on a supported one (with no model options
given). -/
theorem c7_mime_validated_at_enable_index :
    (∀ (d : EJImage.CtorData) (mt : Option String), EJImage.ctorAccepts d = true →
      (EJImage.ctor d mt).isOk = true) ∧
    (∀ st : EJImage.State, st.mimeType ∉ EJImage.supportedMimeTypes →
      (EJImage.enableIndex st {}).2 =
        some (.jsError ("Unsupported mime type: \x27" ++ st.mimeType
          ++ "\x27. Supported types are: "
          ++ String.intercalate ", " EJImage.supportedMimeTypes))) ∧
    (∀ st : EJImage.State, st.mimeType ∈ EJImage.supportedMimeTypes →
      (EJImage.enableIndex st {}).2 = none) := by
  refine ⟨?_, ?_, ?_⟩
  · intro d mt hd
    cases d with
    | str s =>
        simp only [EJImage.ctorAccepts, Bool.or_eq_true, decide_eq_true_eq] at hd
        have hc : ¬ (¬ s = "" ∧ EJImage.isValidData s = false) := by
          rcases hd with rfl | hpos
          · simp
          · have hv : EJImage.isValidData s = true := by
              simp only [EJImage.isValidData]
              exact decide_eq_true hpos
            intro h
            rw [hv] at h
            simp at h
        simp [EJImage.ctor, hc, Except.isOk, Except.toBool]
    | bin b => cases b <;> rfl
  · intro st hmt
    simp [EJImage.enableIndex, hmt]
  · intro st hmt
    simp [EJImage.enableIndex, hmt, EJImage.assignRest]

/-- C7, witness: constructing with an unsupported MIME type succeeds, its
`enableIndex` fails naming the supported set, and a supported MIME type
passes. -/
theorem c7_mime_witness :
    (EJImage.ctor (.str "aGVsbG8=") (some "text/plain")).isOk = true ∧
    (EJImage.enableIndex
        { data := some "aGVsbG8=", binaryData := none, mimeType := "text/plain",
          chunks := [], url := none, embModel := none, visionModel := none,
          maxChunkSize := none, chunkOverlap := none, isSeparatorRegex := none,
          separators := none, keepSeparator := none, indexEnabled := false } {}).2 =
      some (.jsError ("Unsupported mime type: \x27text/plain\x27. Supported types are: "
        ++ "image/jpeg, image/jpg, image/png, image/gif, image/webp")) ∧
    (EJImage.enableIndex
        { data := some "aGVsbG8=", binaryData := none, mimeType := "image/png",
          chunks := [], url := none, embModel := none, visionModel := none,
          maxChunkSize := none, chunkOverlap := none, isSeparatorRegex := none,
          separators := none, keepSeparator := none, indexEnabled := false } {}).2 = none := by
  refine ⟨c7_mime_validated_at_enable_index.1 (.str "aGVsbG8=") (some "text/plain") (by decide),
    ?_, c7_mime_validated_at_enable_index.2.2 _ (by decide)⟩
  have h := c7_mime_validated_at_enable_index.2.1
    { data := some "aGVsbG8=", binaryData := none, mimeType := "text/plain",
      chunks := [], url := none, embModel := none, visionModel := none,
      maxChunkSize := none, chunkOverlap := none, isSeparatorRegex := none,
      separators := none, keepSeparator := none, indexEnabled := false } (by decide)
  simpa using h

/-! ## C9 — missing required field on deserialize -/

set_option maxHeartbeats 8000000 in
/-- C9: under a recognized marker, a missing required field always fails: a
text wire object without `text`, an image wire object without `mime_type`,
and an image wire object with `mime_type` but without `data` (the
constructor then rejects the empty-string fallback `data["data"] || ""`). -/
theorem c9_missing_required_field :
    (∀ inner : List (String × Value), lookupField inner "text" = none →
      Text.deserialize (vobj [("xText", vobj inner)]) =
        .error (.jsError "JSON data must include \x27text\x27 under \x27xText\x27.")) ∧
    (∀ (inner : List (String × Value)) (fs : FS), lookupField inner "mime_type" = none →
      Image.deserialize (vobj [("xImage", vobj inner)]) fs =
        .error (.jsError "JSON data must include \x27mime_type\x27 under \x27xImage\x27.")) ∧
    (∀ (inner : List (String × Value)) (fs : FS), hasKeyB inner "mime_type" = true →
      lookupField inner "data" = none →
      Image.deserialize (vobj [("xImage", vobj inner)]) fs =
        .error (.jsError ("Invalid data: must be a non-empty string containing valid "
          ++ "base64-encoded image data, HTTP URL, or valid file path."))) := by
  refine ⟨?_, ?_, ?_⟩
  · intro inner h
    simp [Text.deserialize, hasField, hasKeyB, lookupField, getField, h, Value.isUndef]
  · intro inner fs h
    simp [Image.deserialize, hasField, hasKeyB, lookupField, getField, h]
  · intro inner fs hmt hdata
    have h0 : Value.jsOr vundefined (vstr "") = vstr "" := rfl
    have h1 : Image.ctorValue (vstr "") fs =
        .error (.jsError ("Invalid data: must be a non-empty string containing valid "
          ++ "base64-encoded image data, HTTP URL, or valid file path.")) := rfl
    have k1 : hasField (vobj [("xImage", vobj inner)]) "xImage" = .ok true := by
      simp [hasField, hasKeyB, lookupField]
    have k2 : getField (vobj [("xImage", vobj inner)]) "xImage" = .ok (vobj inner) := by
      simp [getField, lookupField]
    have k3 : hasField (vobj inner) "mime_type" = .ok true := by
      simp [hasField, hmt]
    have k4 : getField (vobj inner) "data" = .ok vundefined := by
      simp [getField, hdata]
    simp only [Image.deserialize, k1, k2, k3, k4, ebind_ok, ebind_error, if_true, ite_true,
      ite_false, h0, h1, Bool.not_true, if_false, epure, ethrow, Bool.true_eq_false,
      not_false_eq_true]
    simp

/-- C9, witness: concrete wire objects missing each required field. -/
theorem c9_missing_witness :
    Text.deserialize (vobj [("xText", vobj [("chunks", varr [])])]) =
      .error (.jsError "JSON data must include \x27text\x27 under \x27xText\x27.") ∧
    Image.deserialize (vobj [("xImage", vobj [("data", vstr "aGVsbG8=")])]) fsNone =
      .error (.jsError "JSON data must include \x27mime_type\x27 under \x27xImage\x27.") ∧
    Image.deserialize (vobj [("xImage", vobj [("mime_type", vstr "image/png")])]) fsNone =
      .error (.jsError ("Invalid data: must be a non-empty string containing valid "
        ++ "base64-encoded image data, HTTP URL, or valid file path.")) :=
  ⟨c9_missing_required_field.1 _ rfl,
   c9_missing_required_field.2.1 _ fsNone rfl,
   c9_missing_required_field.2.2 _ fsNone rfl rfl⟩

/-! ## C10 — `enableIndex` is not atomic on failure -/

/-- Whatever happens inside `Text.enableIndex`, the instance it leaves
behind has the index flag already set. -/
theorem text_enableIndex_flag (t : TextStateV) (o : Text.Options) :
    ((Text.enableIndex t o).1).indexEnabled = true := by
  simp only [Text.enableIndex]
  split_ifs <;> simp [Text.assignRest]

/-- Same for the part_011 `Image.enableIndex`. -/
theorem image_enableIndex_flag (i : ImageStateV) (o : Image.Options) :
    ((Image.enableIndex i o).1).indexEnabled = vbool true := by
  simp only [Image.enableIndex]
  split_ifs <;> simp [Image.assignRest]

/-- Same for the ejson revision. -/
theorem ejimage_enableIndex_flag (i : EJImage.State) (o : EJImage.Options) :
    ((EJImage.enableIndex i o).1).indexEnabled = true := by
  rcases hem : o.embModel with _ | em <;> rcases hvm : o.visionModel with _ | vm <;>
    simp only [EJImage.enableIndex, hem, hvm] <;> split_ifs <;>
      simp [EJImage.assignRest]

/-- A `Text` state with the flag set serializes `index: true`. -/
theorem text_serialize_index_mem (st : TextStateV) (h : st.indexEnabled = true) :
    ("index", vbool true) ∈ Text.serializeInner st := by
  simp [Text.serializeInner, h]

/-- An `Image` state with the flag set serializes `index: true`. -/
theorem image_serialize_index_mem (st : ImageStateV) (h : st.indexEnabled = vbool true) :
    ("index", vbool true) ∈ Image.serializeInner st := by
  simp [Image.serializeInner, h]

/-- C10: when `enableIndex` throws (on any `Text`, part_011 `Image` or ejson
`Image`), the instance is left with its index flag set, so a subsequent
serialization emits `index: true`; moreover an option assigned before the
failing check (a valid `embModel` before an invalid `visionModel`) is
already mutated. -/
theorem c10_enable_index_not_atomic :
    (∀ (t : TextStateV) (o : Text.Options) (st : TextStateV) (e : LocalErr),
      Text.enableIndex t o = (st, some e) →
      st.indexEnabled = true ∧ ("index", vbool true) ∈ Text.serializeInner st) ∧
    (∀ (i : ImageStateV) (o : Image.Options) (st : ImageStateV) (e : LocalErr),
      Image.enableIndex i o = (st, some e) →
      st.indexEnabled = vbool true ∧ ("index", vbool true) ∈ Image.serializeInner st) ∧
    (∀ (i : EJImage.State) (o : EJImage.Options) (st : EJImage.State) (e : LocalErr),
      EJImage.enableIndex i o = (st, some e) → st.indexEnabled = true) ∧
    (∀ (i : ImageStateV) (o : Image.Options) (st : ImageStateV) (e : LocalErr),
      Image.enableIndex i o = (st, some e) →
      Image.isValidMimeType i.mimeType = true → o.embModel.isUndef = false →
      Image.isValidEmbModel o.embModel = true → st.embModel = o.embModel) := by
  refine ⟨?_, ?_, ?_, ?_⟩
  · intro t o st e h
    have hst : st = (Text.enableIndex t o).1 := by rw [h]
    have hflag := text_enableIndex_flag t o
    rw [← hst] at hflag
    exact ⟨hflag, text_serialize_index_mem st hflag⟩
  · intro i o st e h
    have hst : st = (Image.enableIndex i o).1 := by rw [h]
    have hflag := image_enableIndex_flag i o
    rw [← hst] at hflag
    exact ⟨hflag, image_serialize_index_mem st hflag⟩
  · intro i o st e h
    have hst : st = (EJImage.enableIndex i o).1 := by rw [h]
    have hflag := ejimage_enableIndex_flag i o
    rw [← hst] at hflag
    exact hflag
  · intro i o st e h hm hu hv
    have hst : st = (Image.enableIndex i o).1 := by rw [h]
    subst hst
    simp only [Image.enableIndex, hm, Bool.not_true, if_true, ite_false, ite_true]
    by_cases h3 : o.visionModel.isUndef = true <;>
      by_cases h4 : Image.isValidVisionModel o.visionModel = true <;>
        simp [hm, hu, hv, h3, h4, Image.assignRest]

/-! ## C8 — the unsupported-type error -/

mutual

/-- On values without exotic leaves, `serialize` never raises the
unsupported-type `TypeError` (its only other failure is the depth guard). -/
theorem serialize_noExotic_no_typeErr (v : Value) (d : Nat) (h : noExotic v = true)
    (m : String) : Collection.serialize v d ≠ .error (.jsTypeError m) := by
  rw [Collection.serialize.eq_def]
  split
  · simp
  · cases v with
    | varr xs =>
        have hxs : noExoticList xs = true := by simpa [noExotic] using h
        cases hres : Collection.serializeList xs (d + 1) with
        | ok ys => simp [hres]
        | error e =>
            simp only [hres, ebind_error]
            intro heq
            cases heq
            exact serializeList_noExotic_no_typeErr xs (d + 1) hxs m hres
    | vobj fields =>
        have hfs : noExoticFields fields = true := by simpa [noExotic] using h
        cases hres : Collection.serializeFields fields (d + 1) with
        | ok ys => simp [hres]
        | error e =>
            simp only [hres, ebind_error]
            intro heq
            cases heq
            exact serializeFields_noExotic_no_typeErr fields (d + 1) hfs m hres
    | vexotic ty => simp [noExotic] at h
    | _ => simp

/-- List version. -/
theorem serializeList_noExotic_no_typeErr (xs : List Value) (d : Nat)
    (h : noExoticList xs = true) (m : String) :
    Collection.serializeList xs d ≠ .error (.jsTypeError m) := by
  cases xs with
  | nil => simp [Collection.serializeList]
  | cons x rest =>
      have hx : noExotic x = true := by simp [noExoticList] at h; exact h.1
      have hrest : noExoticList rest = true := by simp [noExoticList] at h; exact h.2
      rw [Collection.serializeList]
      cases hres : Collection.serialize x d with
      | error e =>
          simp only [hres, ebind_error]
          intro heq
          cases heq
          exact serialize_noExotic_no_typeErr x d hx m hres
      | ok y =>
          cases hres2 : Collection.serializeList rest d with
          | error e2 =>
              simp only [hres, hres2, ebind_ok, ebind_error]
              intro heq
              cases heq
              exact serializeList_noExotic_no_typeErr rest d hrest m hres2
          | ok ys => simp [hres, hres2]

/-- Entry-list version. -/
theorem serializeFields_noExotic_no_typeErr (fields : List (String × Value)) (d : Nat)
    (h : noExoticFields fields = true) (m : String) :
    Collection.serializeFields fields d ≠ .error (.jsTypeError m) := by
  cases fields with
  | nil => simp [Collection.serializeFields]
  | cons kv rest =>
      obtain ⟨k, x⟩ := kv
      have hx : noExotic x = true := by simp [noExoticFields] at h; exact h.1
      have hrest : noExoticFields rest = true := by simp [noExoticFields] at h; exact h.2
      rw [Collection.serializeFields]
      cases hres : Collection.serialize x d with
      | error e =>
          simp only [hres, ebind_error]
          intro heq
          cases heq
          exact serialize_noExotic_no_typeErr x d hx m hres
      | ok y =>
          cases hres2 : Collection.serializeFields rest d with
          | error e2 =>
              simp only [hres, hres2, ebind_ok, ebind_error]
              intro heq
              cases heq
              exact serializeFields_noExotic_no_typeErr rest d hrest m hres2
          | ok ys => simp [hres, hres2]

end

/-- C8: a leaf whose runtime type matches no codec, primitive, array or
plain-object case fails with the `TypeError` naming its `typeof` string, and
`serialize` never raises that error on a value without such a leaf. -/
theorem c8_unsupported_type_error :
    (∀ (ty : String) (d : Nat), d ≤ 100 →
      Collection.serialize (vexotic ty) d =
        .error (.jsTypeError ("Unsupported BSON type: " ++ ty))) ∧
    (∀ (v : Value) (d : Nat) (m : String), noExotic v = true →
      Collection.serialize v d ≠ .error (.jsTypeError m)) := by
  constructor
  · intro ty d hd
    rw [Collection.serialize.eq_def]
    rw [if_neg (by omega)]
  · intro v d m h
    exact serialize_noExotic_no_typeErr v d h m

/-- C8, witness: the error at a function-typed leaf, and its absence on a
plain document. -/
theorem c8_unsupported_witness :
    Collection.serialize (vexotic "function") 0 =
      .error (.jsTypeError "Unsupported BSON type: function") ∧
    Collection.serialize (vobj [("a", vnum 1)]) 0 ≠
      .error (.jsTypeError "Unsupported BSON type: function") :=
  ⟨c8_unsupported_type_error.1 "function" 0 (by omega),
   c8_unsupported_type_error.2 (vobj [("a", vnum 1)]) 0 "Unsupported BSON type: function"
     (by decide)⟩

/-! ## C4 — depth-guard lemmas -/

mutual

/-- A value with a node deeper than the remaining depth budget never
serializes successfully. -/
theorem serialize_deep_fails (v : Value) (d : Nat) (h : 100 < d + nestingDepth v) :
    (Collection.serialize v d).isOk = false := by
  rw [Collection.serialize.eq_def]
  split
  · rfl
  · rename_i hd
    cases v with
    | varr xs =>
        have hxs : 100 < d + nestingDepthList xs := by simpa [nestingDepth] using h
        have hfail := serializeList_deep_fails xs d hxs (by omega)
        cases hres : Collection.serializeList xs (d + 1) with
        | ok ys => rw [hres] at hfail; simp [Except.isOk, Except.toBool] at hfail
        | error e => simp [hres, Except.isOk, Except.toBool]
    | vobj fields =>
        have hfs : 100 < d + nestingDepthFields fields := by simpa [nestingDepth] using h
        have hfail := serializeFields_deep_fails fields d hfs (by omega)
        cases hres : Collection.serializeFields fields (d + 1) with
        | ok ys => rw [hres] at hfail; simp [Except.isOk, Except.toBool] at hfail
        | error e => simp [hres, Except.isOk, Except.toBool]
    | _ =>
        simp [nestingDepth] at h
        omega

/-- List version: the elements sit at depth `d + 1`. -/
theorem serializeList_deep_fails (xs : List Value) (d : Nat)
    (h : 100 < d + nestingDepthList xs) (hd : d ≤ 100) :
    (Collection.serializeList xs (d + 1)).isOk = false := by
  cases xs with
  | nil => simp [nestingDepthList] at h; omega
  | cons x rest =>
      rw [Collection.serializeList]
      by_cases hx : 100 < (d + 1) + nestingDepth x
      · have hfail := serialize_deep_fails x (d + 1) hx
        cases hres : Collection.serialize x (d + 1) with
        | ok y => rw [hres] at hfail; simp [Except.isOk, Except.toBool] at hfail
        | error e => simp [hres, Except.isOk, Except.toBool]
      · have hrest : 100 < d + nestingDepthList rest := by
          simp only [nestingDepthList] at h
          omega
        have hfail := serializeList_deep_fails rest d hrest hd
        cases hres : Collection.serialize x (d + 1) with
        | error e => simp [hres, Except.isOk, Except.toBool]
        | ok y =>
            cases hres2 : Collection.serializeList rest (d + 1) with
            | ok ys => rw [hres2] at hfail; simp [Except.isOk, Except.toBool] at hfail
            | error e2 => simp [hres, hres2, Except.isOk, Except.toBool]

/-- Entry-list version. -/
theorem serializeFields_deep_fails (fields : List (String × Value)) (d : Nat)
    (h : 100 < d + nestingDepthFields fields) (hd : d ≤ 100) :
    (Collection.serializeFields fields (d + 1)).isOk = false := by
  cases fields with
  | nil => simp [nestingDepthFields] at h; omega
  | cons kv rest =>
      obtain ⟨k, x⟩ := kv
      rw [Collection.serializeFields]
      by_cases hx : 100 < (d + 1) + nestingDepth x
      · have hfail := serialize_deep_fails x (d + 1) hx
        cases hres : Collection.serialize x (d + 1) with
        | ok y => rw [hres] at hfail; simp [Except.isOk, Except.toBool] at hfail
        | error e => simp [hres, Except.isOk, Except.toBool]
      · have hrest : 100 < d + nestingDepthFields rest := by
          simp only [nestingDepthFields] at h
          omega
        have hfail := serializeFields_deep_fails rest d hrest hd
        cases hres : Collection.serialize x (d + 1) with
        | error e => simp [hres, Except.isOk, Except.toBool]
        | ok y =>
            cases hres2 : Collection.serializeFields rest (d + 1) with
            | ok ys => rw [hres2] at hfail; simp [Except.isOk, Except.toBool] at hfail
            | error e2 => simp [hres, hres2, Except.isOk, Except.toBool]

end

mutual

/-- A shallow value without exotic leaves always serializes. -/
theorem serialize_ok_of_shallow (v : Value) (d : Nat) (hx : noExotic v = true)
    (h : d + nestingDepth v ≤ 100) : (Collection.serialize v d).isOk = true := by
  rw [Collection.serialize.eq_def]
  split
  · omega
  · cases v with
    | varr xs =>
        have hxs : noExoticList xs = true := by simpa [noExotic] using hx
        have hfail := serializeList_ok_of_shallow xs d hxs (by simpa [nestingDepth] using h)
        cases hres : Collection.serializeList xs (d + 1) with
        | ok ys => simp [hres, Except.isOk, Except.toBool]
        | error e => rw [hres] at hfail; simp [Except.isOk, Except.toBool] at hfail
    | vobj fields =>
        have hfs : noExoticFields fields = true := by simpa [noExotic] using hx
        have hfail := serializeFields_ok_of_shallow fields d hfs
          (by simpa [nestingDepth] using h)
        cases hres : Collection.serializeFields fields (d + 1) with
        | ok ys => simp [hres, Except.isOk, Except.toBool]
        | error e => rw [hres] at hfail; simp [Except.isOk, Except.toBool] at hfail
    | vexotic ty => simp [noExotic] at hx
    | _ => simp [Except.isOk, Except.toBool]

/-- List version. -/
theorem serializeList_ok_of_shallow (xs : List Value) (d : Nat)
    (hx : noExoticList xs = true) (h : d + nestingDepthList xs ≤ 100) :
    (Collection.serializeList xs (d + 1)).isOk = true := by
  cases xs with
  | nil => rfl
  | cons x rest =>
      have hx1 : noExotic x = true := by simp [noExoticList] at hx; exact hx.1
      have hx2 : noExoticList rest = true := by simp [noExoticList] at hx; exact hx.2
      have hone := serialize_ok_of_shallow x (d + 1) hx1
        (by simp only [nestingDepthList] at h; omega)
      have hmore := serializeList_ok_of_shallow rest d hx2
        (by simp only [nestingDepthList] at h; omega)
      rw [Collection.serializeList]
      cases hres : Collection.serialize x (d + 1) with
      | error e => rw [hres] at hone; simp [Except.isOk, Except.toBool] at hone
      | ok y =>
          cases hres2 : Collection.serializeList rest (d + 1) with
          | error e2 => rw [hres2] at hmore; simp [Except.isOk, Except.toBool] at hmore
          | ok ys => simp [hres, hres2, Except.isOk, Except.toBool]

/-- Entry-list version. -/
theorem serializeFields_ok_of_shallow (fields : List (String × Value)) (d : Nat)
    (hx : noExoticFields fields = true) (h : d + nestingDepthFields fields ≤ 100) :
    (Collection.serializeFields fields (d + 1)).isOk = true := by
  cases fields with
  | nil => rfl
  | cons kv rest =>
      obtain ⟨k, x⟩ := kv
      have hx1 : noExotic x = true := by simp [noExoticFields] at hx; exact hx.1
      have hx2 : noExoticFields rest = true := by simp [noExoticFields] at hx; exact hx.2
      have hone := serialize_ok_of_shallow x (d + 1) hx1
        (by simp only [nestingDepthFields] at h; omega)
      have hmore := serializeFields_ok_of_shallow rest d hx2
        (by simp only [nestingDepthFields] at h; omega)
      rw [Collection.serializeFields]
      cases hres : Collection.serialize x (d + 1) with
      | error e => rw [hres] at hone; simp [Except.isOk, Except.toBool] at hone
      | ok y =>
          cases hres2 : Collection.serializeFields rest (d + 1) with
          | error e2 => rw [hres2] at hmore; simp [Except.isOk, Except.toBool] at hmore
          | ok ys => simp [hres, hres2, Except.isOk, Except.toBool]

end

mutual

/-- A deep value without exotic leaves fails with exactly the serialize
depth-guard error. -/
theorem serialize_deep_tooDeep (v : Value) (d : Nat) (hx : noExotic v = true)
    (h : 100 < d + nestingDepth v) :
    Collection.serialize v d = .error .tooDeepSer := by
  rw [Collection.serialize.eq_def]
  split
  · rfl
  · rename_i hd
    cases v with
    | varr xs =>
        have hxs : noExoticList xs = true := by simpa [noExotic] using hx
        have hlist := serializeList_deep_tooDeep xs d hxs
          (by simpa [nestingDepth] using h) (by omega)
        simp [hlist]
    | vobj fields =>
        have hfs : noExoticFields fields = true := by simpa [noExotic] using hx
        have hlist := serializeFields_deep_tooDeep fields d hfs
          (by simpa [nestingDepth] using h) (by omega)
        simp [hlist]
    | vexotic ty => simp [noExotic] at hx
    | _ =>
        simp [nestingDepth] at h
        omega

/-- List version. -/
theorem serializeList_deep_tooDeep (xs : List Value) (d : Nat)
    (hx : noExoticList xs = true) (h : 100 < d + nestingDepthList xs) (hd : d ≤ 100) :
    Collection.serializeList xs (d + 1) = .error .tooDeepSer := by
  cases xs with
  | nil => simp [nestingDepthList] at h; omega
  | cons x rest =>
      have hx1 : noExotic x = true := by simp [noExoticList] at hx; exact hx.1
      have hx2 : noExoticList rest = true := by simp [noExoticList] at hx; exact hx.2
      rw [Collection.serializeList]
      by_cases hdeep : 100 < (d + 1) + nestingDepth x
      · simp [serialize_deep_tooDeep x (d + 1) hx1 hdeep]
      · have hone := serialize_ok_of_shallow x (d + 1) hx1 (by omega)
        cases hres : Collection.serialize x (d + 1) with
        | error e => rw [hres] at hone; simp [Except.isOk, Except.toBool] at hone
        | ok y =>
            have hrest : 100 < d + nestingDepthList rest := by
              simp only [nestingDepthList] at h
              omega
            simp [hres, serializeList_deep_tooDeep rest d hx2 hrest hd]

/-- Entry-list version. -/
theorem serializeFields_deep_tooDeep (fields : List (String × Value)) (d : Nat)
    (hx : noExoticFields fields = true) (h : 100 < d + nestingDepthFields fields)
    (hd : d ≤ 100) :
    Collection.serializeFields fields (d + 1) = .error .tooDeepSer := by
  cases fields with
  | nil => simp [nestingDepthFields] at h; omega
  | cons kv rest =>
      obtain ⟨k, x⟩ := kv
      have hx1 : noExotic x = true := by simp [noExoticFields] at hx; exact hx.1
      have hx2 : noExoticFields rest = true := by simp [noExoticFields] at hx; exact hx.2
      rw [Collection.serializeFields]
      by_cases hdeep : 100 < (d + 1) + nestingDepth x
      · simp [serialize_deep_tooDeep x (d + 1) hx1 hdeep]
      · have hone := serialize_ok_of_shallow x (d + 1) hx1 (by omega)
        cases hres : Collection.serialize x (d + 1) with
        | error e => rw [hres] at hone; simp [Except.isOk, Except.toBool] at hone
        | ok y =>
            have hrest : 100 < d + nestingDepthFields rest := by
              simp only [nestingDepthFields] at h
              omega
            simp [hres, serializeFields_deep_tooDeep rest d hx2 hrest hd]

end

mutual

/-- A shallow value never triggers the serialize depth guard, whatever else
happens. -/
theorem serialize_shallow_no_tooDeep (v : Value) (d : Nat)
    (h : d + nestingDepth v ≤ 100) :
    Collection.serialize v d ≠ .error .tooDeepSer := by
  rw [Collection.serialize.eq_def]
  split
  · omega
  · cases v with
    | varr xs =>
        cases hres : Collection.serializeList xs (d + 1) with
        | ok ys => simp [hres]
        | error e =>
            simp only [hres, ebind_error]
            intro heq
            cases heq
            exact serializeList_shallow_no_tooDeep xs d (by simpa [nestingDepth] using h) hres
    | vobj fields =>
        cases hres : Collection.serializeFields fields (d + 1) with
        | ok ys => simp [hres]
        | error e =>
            simp only [hres, ebind_error]
            intro heq
            cases heq
            exact serializeFields_shallow_no_tooDeep fields d
              (by simpa [nestingDepth] using h) hres
    | vexotic ty => simp
    | _ => simp

/-- List version. -/
theorem serializeList_shallow_no_tooDeep (xs : List Value) (d : Nat)
    (h : d + nestingDepthList xs ≤ 100) :
    Collection.serializeList xs (d + 1) ≠ .error .tooDeepSer := by
  cases xs with
  | nil => simp [Collection.serializeList]
  | cons x rest =>
      rw [Collection.serializeList]
      cases hres : Collection.serialize x (d + 1) with
      | error e =>
          simp only [hres, ebind_error]
          intro heq
          cases heq
          exact serialize_shallow_no_tooDeep x (d + 1)
            (by simp only [nestingDepthList] at h; omega) hres
      | ok y =>
          cases hres2 : Collection.serializeList rest (d + 1) with
          | ok ys => simp [hres, hres2]
          | error e2 =>
              simp only [hres, hres2, ebind_ok, ebind_error]
              intro heq
              cases heq
              exact serializeList_shallow_no_tooDeep rest d
                (by simp only [nestingDepthList] at h; omega) hres2

/-- Entry-list version. -/
theorem serializeFields_shallow_no_tooDeep (fields : List (String × Value)) (d : Nat)
    (h : d + nestingDepthFields fields ≤ 100) :
    Collection.serializeFields fields (d + 1) ≠ .error .tooDeepSer := by
  cases fields with
  | nil => simp [Collection.serializeFields]
  | cons kv rest =>
      obtain ⟨k, x⟩ := kv
      rw [Collection.serializeFields]
      cases hres : Collection.serialize x (d + 1) with
      | error e =>
          simp only [hres, ebind_error]
          intro heq
          cases heq
          exact serialize_shallow_no_tooDeep x (d + 1)
            (by simp only [nestingDepthFields] at h; omega) hres
      | ok y =>
          cases hres2 : Collection.serializeFields rest (d + 1) with
          | ok ys => simp [hres, hres2]
          | error e2 =>
              simp only [hres, hres2, ebind_ok, ebind_error]
              intro heq
              cases heq
              exact serializeFields_shallow_no_tooDeep rest d
                (by simp only [nestingDepthFields] at h; omega) hres2

end

/-- A mapped local error is never a depth-guard error. -/
theorem mapError_ne_tooDeepDeser {a : Type} (x : Except LocalErr a) :
    ∀ e, x.mapError LocalErr.toJSError = .error e → e ≠ .tooDeepDeser := by
  intro e he
  cases x with
  | ok v => simp at he
  | error le =>
      simp only [emapError_error, Except.error.injEq] at he
      cases le <;> simp [LocalErr.toJSError] at he <;> simp [← he]

/-- Bind of a mapped local computation is never a depth-guard error
(whenever its continuation is not). -/
theorem bind_mapError_ne_tooDeepDeser {a : Type} (x : Except LocalErr a) (f : a → Value) :
    (do return f (← x.mapError LocalErr.toJSError) : Except JSError Value) ≠
      .error .tooDeepDeser := by
  cases x with
  | ok v => simp
  | error le => cases le <;> simp [LocalErr.toJSError]

mutual

/-- A shallow value never triggers the deserialize depth guard, whatever
else happens. -/
theorem deserialize_shallow_no_tooDeep (v : Value) (d : Nat) (fs : FS)
    (h : d + nestingDepth v ≤ 100) :
    Collection.deserialize v d fs ≠ .error .tooDeepDeser := by
  cases v with
    | varr xs =>
        rw [deserialize_varr, if_neg (by omega)]
        cases hres : Collection.deserializeList xs (d + 1) fs with
        | ok ys => simp [hres]
        | error e =>
            simp only [hres, ebind_error]
            intro heq
            cases heq
            exact deserializeList_shallow_no_tooDeep xs d fs
              (by simpa [nestingDepth] using h) hres
    | vobj fields =>
        rw [deserialize_vobj, if_neg (by omega)]
        by_cases h1 : hasKeyB fields "xText" = true
        · rw [if_pos h1]
          exact bind_mapError_ne_tooDeepDeser _ _
        rw [if_neg h1]
        by_cases h2 : hasKeyB fields "xImage" = true
        · rw [if_pos h2]
          exact bind_mapError_ne_tooDeepDeser _ _
        rw [if_neg h2]
        by_cases h3 : hasKeyB fields "$oid" = true
        · rw [if_pos h3]
          intro heq
          exact mapError_ne_tooDeepDeser _ _ heq rfl
        rw [if_neg h3]
        by_cases h4 : hasKeyB fields "$date" = true
        · rw [if_pos h4]
          simp
        rw [if_neg h4]
        by_cases h5 : hasKeyB fields "$numberDecimal" = true
        · rw [if_pos h5]
          intro heq
          exact mapError_ne_tooDeepDeser _ _ heq rfl
        rw [if_neg h5]
        by_cases h6 : hasKeyB fields "$binary" = true
        · rw [if_pos h6]
          intro heq
          exact mapError_ne_tooDeepDeser _ _ heq rfl
        rw [if_neg h6]
        by_cases h7 : hasKeyB fields "$regex" = true
        · rw [if_pos h7]
          intro heq
          exact mapError_ne_tooDeepDeser _ _ heq rfl
        rw [if_neg h7]
        by_cases h8 : hasKeyB fields "$code" = true
        · rw [if_pos h8]
          simp
        rw [if_neg h8]
        by_cases h9 : hasKeyB fields "$timestamp" = true
        · rw [if_pos h9]
          intro heq
          exact mapError_ne_tooDeepDeser _ _ heq rfl
        rw [if_neg h9]
        by_cases h10 : hasKeyB fields "$minKey" = true
        · rw [if_pos h10]
          simp
        rw [if_neg h10]
        by_cases h11 : hasKeyB fields "$maxKey" = true
        · rw [if_pos h11]
          simp
        rw [if_neg h11]
        cases hres : Collection.deserializeFields fields (d + 1) fs with
        | ok ys => simp [hres]
        | error e =>
            simp only [hres, ebind_error]
            intro heq
            cases heq
            exact deserializeFields_shallow_no_tooDeep fields d fs
              (by simpa [nestingDepth] using h) hres
    | _ =>
        rw [deserialize_other]
        · rw [if_neg (by omega)]
          simp
        · rfl
        · rfl

/-- List version. -/
theorem deserializeList_shallow_no_tooDeep (xs : List Value) (d : Nat) (fs : FS)
    (h : d + nestingDepthList xs ≤ 100) :
    Collection.deserializeList xs (d + 1) fs ≠ .error .tooDeepDeser := by
  cases xs with
  | nil => simp [Collection.deserializeList]
  | cons x rest =>
      rw [Collection.deserializeList]
      cases hres : Collection.deserialize x (d + 1) fs with
      | error e =>
          simp only [hres, ebind_error]
          intro heq
          cases heq
          exact deserialize_shallow_no_tooDeep x (d + 1) fs
            (by simp only [nestingDepthList] at h; omega) hres
      | ok y =>
          cases hres2 : Collection.deserializeList rest (d + 1) fs with
          | ok ys => simp [hres, hres2]
          | error e2 =>
              simp only [hres, hres2, ebind_ok, ebind_error]
              intro heq
              cases heq
              exact deserializeList_shallow_no_tooDeep rest d fs
                (by simp only [nestingDepthList] at h; omega) hres2

/-- Entry-list version. -/
theorem deserializeFields_shallow_no_tooDeep (fields : List (String × Value)) (d : Nat)
    (fs : FS) (h : d + nestingDepthFields fields ≤ 100) :
    Collection.deserializeFields fields (d + 1) fs ≠ .error .tooDeepDeser := by
  cases fields with
  | nil => simp [Collection.deserializeFields]
  | cons kv rest =>
      obtain ⟨k, x⟩ := kv
      rw [Collection.deserializeFields]
      cases hres : Collection.deserialize x (d + 1) fs with
      | error e =>
          simp only [hres, ebind_error]
          intro heq
          cases heq
          exact deserialize_shallow_no_tooDeep x (d + 1) fs
            (by simp only [nestingDepthFields] at h; omega) hres
      | ok y =>
          cases hres2 : Collection.deserializeFields rest (d + 1) fs with
          | ok ys => simp [hres, hres2]
          | error e2 =>
              simp only [hres, hres2, ebind_ok, ebind_error]
              intro heq
              cases heq
              exact deserializeFields_shallow_no_tooDeep rest d fs
                (by simp only [nestingDepthFields] at h; omega) hres2

end

/-- A marker-free plain object has none of the recognised keys. -/
theorem jsonPlain_obj_facts (fields : List (String × Value))
    (h : jsonPlain (vobj fields) = true) :
    hasKeyB fields "xText" = false ∧ hasKeyB fields "xImage" = false ∧
    hasKeyB fields "$oid" = false ∧ hasKeyB fields "$date" = false ∧
    hasKeyB fields "$numberDecimal" = false ∧ hasKeyB fields "$binary" = false ∧
    hasKeyB fields "$regex" = false ∧ hasKeyB fields "$code" = false ∧
    hasKeyB fields "$timestamp" = false ∧ hasKeyB fields "$minKey" = false ∧
    hasKeyB fields "$maxKey" = false ∧ jsonPlainFields fields = true := by
  rw [jsonPlain] at h
  simp only [reservedKeys, List.all_cons, List.all_nil, Bool.and_eq_true,
    Bool.and_true, decide_eq_true_eq] at h
  obtain ⟨⟨h1, h2, h3, h4, h5, h6, h7, h8, h9, h10, h11⟩, h12⟩ := h
  exact ⟨by simp [h1], by simp [h2], by simp [h3], by simp [h4], by simp [h5],
    by simp [h6], by simp [h7], by simp [h8], by simp [h9], by simp [h10],
    by simp [h11], h12⟩

/-- The marker-free object arm reduces to the nested recursion. -/
theorem deserialize_vobj_plain (fields : List (String × Value)) (d : Nat) (fs : FS)
    (h : jsonPlain (vobj fields) = true) (hd : d ≤ 100) :
    Collection.deserialize (vobj fields) d fs = do
      return vobj (← Collection.deserializeFields fields (d + 1) fs) := by
  obtain ⟨h1, h2, h3, h4, h5, h6, h7, h8, h9, h10, h11, -⟩ := jsonPlain_obj_facts fields h
  rw [deserialize_vobj, if_neg (by omega), if_neg (by simp [h1]), if_neg (by simp [h2]),
    if_neg (by simp [h3]), if_neg (by simp [h4]), if_neg (by simp [h5]),
    if_neg (by simp [h6]), if_neg (by simp [h7]), if_neg (by simp [h8]),
    if_neg (by simp [h9]), if_neg (by simp [h10]), if_neg (by simp [h11])]

mutual

/-- A shallow marker-free JSON value always deserializes. -/
theorem deserialize_ok_of_shallow (v : Value) (d : Nat) (fs : FS)
    (hx : jsonPlain v = true) (h : d + nestingDepth v ≤ 100) :
    (Collection.deserialize v d fs).isOk = true := by
  cases v with
  | varr xs =>
      rw [deserialize_varr, if_neg (by omega)]
      have hmore := deserializeList_ok_of_shallow xs d fs (by simpa [jsonPlain] using hx)
        (by simpa [nestingDepth] using h)
      cases hres : Collection.deserializeList xs (d + 1) fs with
      | ok ys => simp [hres, Except.isOk, Except.toBool]
      | error e => rw [hres] at hmore; simp [Except.isOk, Except.toBool] at hmore
  | vobj fields =>
      rw [deserialize_vobj_plain fields d fs hx (by omega)]
      have hmore := deserializeFields_ok_of_shallow fields d fs
        (jsonPlain_obj_facts fields hx).2.2.2.2.2.2.2.2.2.2.2
        (by simpa [nestingDepth] using h)
      cases hres : Collection.deserializeFields fields (d + 1) fs with
      | ok ys => simp [hres, Except.isOk, Except.toBool]
      | error e => rw [hres] at hmore; simp [Except.isOk, Except.toBool] at hmore
  | vnull => rw [deserialize_other vnull d fs rfl rfl, if_neg (by omega)]; rfl
  | vbool b => rw [deserialize_other (vbool b) d fs rfl rfl, if_neg (by omega)]; rfl
  | vnum n => rw [deserialize_other (vnum n) d fs rfl rfl, if_neg (by omega)]; rfl
  | vstr s => rw [deserialize_other (vstr s) d fs rfl rfl, if_neg (by omega)]; rfl
  | _ => simp [jsonPlain] at hx

/-- List version. -/
theorem deserializeList_ok_of_shallow (xs : List Value) (d : Nat) (fs : FS)
    (hx : jsonPlainList xs = true) (h : d + nestingDepthList xs ≤ 100) :
    (Collection.deserializeList xs (d + 1) fs).isOk = true := by
  cases xs with
  | nil => rfl
  | cons x rest =>
      have hx1 : jsonPlain x = true := by simp [jsonPlainList] at hx; exact hx.1
      have hx2 : jsonPlainList rest = true := by simp [jsonPlainList] at hx; exact hx.2
      have hone := deserialize_ok_of_shallow x (d + 1) fs hx1
        (by simp only [nestingDepthList] at h; omega)
      have hmore := deserializeList_ok_of_shallow rest d fs hx2
        (by simp only [nestingDepthList] at h; omega)
      rw [Collection.deserializeList]
      cases hres : Collection.deserialize x (d + 1) fs with
      | error e => rw [hres] at hone; simp [Except.isOk, Except.toBool] at hone
      | ok y =>
          cases hres2 : Collection.deserializeList rest (d + 1) fs with
          | error e2 => rw [hres2] at hmore; simp [Except.isOk, Except.toBool] at hmore
          | ok ys => simp [hres, hres2, Except.isOk, Except.toBool]

/-- Entry-list version. -/
theorem deserializeFields_ok_of_shallow (fields : List (String × Value)) (d : Nat)
    (fs : FS) (hx : jsonPlainFields fields = true)
    (h : d + nestingDepthFields fields ≤ 100) :
    (Collection.deserializeFields fields (d + 1) fs).isOk = true := by
  cases fields with
  | nil => rfl
  | cons kv rest =>
      obtain ⟨k, x⟩ := kv
      have hx1 : jsonPlain x = true := by simp [jsonPlainFields] at hx; exact hx.1
      have hx2 : jsonPlainFields rest = true := by simp [jsonPlainFields] at hx; exact hx.2
      have hone := deserialize_ok_of_shallow x (d + 1) fs hx1
        (by simp only [nestingDepthFields] at h; omega)
      have hmore := deserializeFields_ok_of_shallow rest d fs hx2
        (by simp only [nestingDepthFields] at h; omega)
      rw [Collection.deserializeFields]
      cases hres : Collection.deserialize x (d + 1) fs with
      | error e => rw [hres] at hone; simp [Except.isOk, Except.toBool] at hone
      | ok y =>
          cases hres2 : Collection.deserializeFields rest (d + 1) fs with
          | error e2 => rw [hres2] at hmore; simp [Except.isOk, Except.toBool] at hmore
          | ok ys => simp [hres, hres2, Except.isOk, Except.toBool]

end

mutual

/-- A deep marker-free JSON value fails with exactly the deserialize
depth-guard error. -/
theorem deserialize_deep_tooDeep (v : Value) (d : Nat) (fs : FS)
    (hx : jsonPlain v = true) (h : 100 < d + nestingDepth v) :
    Collection.deserialize v d fs = .error .tooDeepDeser := by
  by_cases hd : d > 100
  · cases v with
    | varr xs => rw [deserialize_varr, if_pos hd]
    | vobj fields => rw [deserialize_vobj, if_pos hd]
    | vnull => rw [deserialize_other vnull d fs rfl rfl, if_pos hd]
    | vbool b => rw [deserialize_other (vbool b) d fs rfl rfl, if_pos hd]
    | vnum n => rw [deserialize_other (vnum n) d fs rfl rfl, if_pos hd]
    | vstr s => rw [deserialize_other (vstr s) d fs rfl rfl, if_pos hd]
    | _ => simp [jsonPlain] at hx
  · cases v with
    | varr xs =>
        rw [deserialize_varr, if_neg hd]
        have hlist := deserializeList_deep_tooDeep xs d fs
          (by simpa [jsonPlain] using hx) (by simpa [nestingDepth] using h) (by omega)
        simp [hlist]
    | vobj fields =>
        rw [deserialize_vobj_plain fields d fs hx (by omega)]
        have hlist := deserializeFields_deep_tooDeep fields d fs
          (jsonPlain_obj_facts fields hx).2.2.2.2.2.2.2.2.2.2.2
          (by simpa [nestingDepth] using h) (by omega)
        simp [hlist]
    | _ =>
        simp [nestingDepth] at h
        omega

/-- List version. -/
theorem deserializeList_deep_tooDeep (xs : List Value) (d : Nat) (fs : FS)
    (hx : jsonPlainList xs = true) (h : 100 < d + nestingDepthList xs) (hd : d ≤ 100) :
    Collection.deserializeList xs (d + 1) fs = .error .tooDeepDeser := by
  cases xs with
  | nil => simp [nestingDepthList] at h; omega
  | cons x rest =>
      have hx1 : jsonPlain x = true := by simp [jsonPlainList] at hx; exact hx.1
      have hx2 : jsonPlainList rest = true := by simp [jsonPlainList] at hx; exact hx.2
      rw [Collection.deserializeList]
      by_cases hdeep : 100 < (d + 1) + nestingDepth x
      · simp [deserialize_deep_tooDeep x (d + 1) fs hx1 hdeep]
      · have hone := deserialize_ok_of_shallow x (d + 1) fs hx1 (by omega)
        cases hres : Collection.deserialize x (d + 1) fs with
        | error e => rw [hres] at hone; simp [Except.isOk, Except.toBool] at hone
        | ok y =>
            have hrest : 100 < d + nestingDepthList rest := by
              simp only [nestingDepthList] at h
              omega
            simp [hres, deserializeList_deep_tooDeep rest d fs hx2 hrest hd]

/-- Entry-list version. -/
theorem deserializeFields_deep_tooDeep (fields : List (String × Value)) (d : Nat)
    (fs : FS) (hx : jsonPlainFields fields = true)
    (h : 100 < d + nestingDepthFields fields) (hd : d ≤ 100) :
    Collection.deserializeFields fields (d + 1) fs = .error .tooDeepDeser := by
  cases fields with
  | nil => simp [nestingDepthFields] at h; omega
  | cons kv rest =>
      obtain ⟨k, x⟩ := kv
      have hx1 : jsonPlain x = true := by simp [jsonPlainFields] at hx; exact hx.1
      have hx2 : jsonPlainFields rest = true := by simp [jsonPlainFields] at hx; exact hx.2
      rw [Collection.deserializeFields]
      by_cases hdeep : 100 < (d + 1) + nestingDepth x
      · simp [deserialize_deep_tooDeep x (d + 1) fs hx1 hdeep]
      · have hone := deserialize_ok_of_shallow x (d + 1) fs hx1 (by omega)
        cases hres : Collection.deserialize x (d + 1) fs with
        | error e => rw [hres] at hone; simp [Except.isOk, Except.toBool] at hone
        | ok y =>
            have hrest : 100 < d + nestingDepthFields rest := by
              simp only [nestingDepthFields] at h
              omega
            simp [hres, deserializeFields_deep_tooDeep rest d fs hx2 hrest hd]

end

/-! ## C4 — the depth guard -/

set_option maxRecDepth 4000

/-- C4, counterexample: a value nested deeper than 100 levels whose first array
element is a function-typed leaf makes `serialize` fail with the
unsupported-type `TypeError`, not the too-deep error — the claim's "fail
with the too-deep error" does not hold for every value nested deeper than
100 levels. -/
theorem c4_exotic_leaf_preempts_too_deep :
    nestingDepth (varr [vexotic "function", nestArr 101]) = 102 ∧
    Collection.serialize (varr [vexotic "function", nestArr 101]) 0 =
      .error (.jsTypeError "Unsupported BSON type: function") ∧
    JSError.jsTypeError "Unsupported BSON type: function" ≠ JSError.tooDeepSer := by
  refine ⟨by decide, rfl, by simp⟩

/-- C4, amended: any value nested deeper than 100 levels makes `serialize`
fail (never loop); the error is exactly the serialize depth-guard error
when no unsupported leaf preempts it, and the symmetric statement holds for
`deserialize` on marker-free JSON trees; conversely neither direction ever
raises its depth-guard error on a value nested at most 100 levels deep. -/
theorem c4_amended_depth_guard :
    (∀ v : Value, 100 < nestingDepth v → (Collection.serialize v 0).isOk = false) ∧
    (∀ v : Value, noExotic v = true → 100 < nestingDepth v →
      Collection.serialize v 0 = .error .tooDeepSer) ∧
    (∀ v : Value, nestingDepth v ≤ 100 →
      Collection.serialize v 0 ≠ .error .tooDeepSer) ∧
    (∀ (v : Value) (fs : FS), jsonPlain v = true → 100 < nestingDepth v →
      Collection.deserialize v 0 fs = .error .tooDeepDeser) ∧
    (∀ (v : Value) (fs : FS), nestingDepth v ≤ 100 →
      Collection.deserialize v 0 fs ≠ .error .tooDeepDeser) :=
  ⟨fun v h => serialize_deep_fails v 0 (by omega),
   fun v hx h => serialize_deep_tooDeep v 0 hx (by omega),
   fun v h => serialize_shallow_no_tooDeep v 0 (by omega),
   fun v fs hx h => deserialize_deep_tooDeep v 0 fs hx (by omega),
   fun v fs h => deserialize_shallow_no_tooDeep v 0 fs (by omega)⟩

/-- C4, witness: the amended theorem at 101- and 100-deep arrays. -/
theorem c4_depth_witness :
    Collection.serialize (nestArr 101) 0 = .error .tooDeepSer ∧
    Collection.deserialize (nestArr 101) 0 fsNone = .error .tooDeepDeser ∧
    Collection.serialize (nestArr 100) 0 ≠ .error .tooDeepSer ∧
    Collection.deserialize (nestArr 100) 0 fsNone ≠ .error .tooDeepDeser ∧
    (Collection.serialize (varr [vexotic "function", nestArr 101]) 0).isOk = false :=
  ⟨c4_amended_depth_guard.2.1 (nestArr 101) (by decide) (by decide),
   c4_amended_depth_guard.2.2.2.1 (nestArr 101) fsNone (by decide) (by decide),
   c4_amended_depth_guard.2.2.1 (nestArr 100) (by decide),
   c4_amended_depth_guard.2.2.2.2 (nestArr 100) fsNone (by decide),
   c4_amended_depth_guard.1 (varr [vexotic "function", nestArr 101]) (by decide)⟩

/-! ## C1 — round trip: lookup structure of the serialized payloads -/

theorem lookupField_append (l1 l2 : List (String × Value)) (k : String) :
    lookupField (l1 ++ l2) k =
      match lookupField l1 k with
      | some x => some x
      | none => lookupField l2 k := by
  induction l1 with
  | nil => rfl
  | cons a rest ih =>
      obtain ⟨k1, v1⟩ := a
      by_cases h : k1 = k <;> simp [lookupField, h, ih]

theorem lookupField_opt_ne (c : Prop) [Decidable c] (k1 k : String) (x : Value)
    (h : ¬ k1 = k) :
    lookupField (if c then [] else [(k1, x)]) k = none := by
  split <;> simp [lookupField, h]

theorem text_lookup_text (t : TextStateV) :
    lookupField (Text.serializeInner t) "text" = some (vstr t.text) := by
  simp [Text.serializeInner, lookupField_append, lookupField]

theorem text_lookup_chunks (t : TextStateV) :
    lookupField (Text.serializeInner t) "chunks" = some t.chunks := by
  simp [Text.serializeInner, lookupField_append, lookupField]

theorem text_lookup_index (t : TextStateV) :
    lookupField (Text.serializeInner t) "index" = some (vbool t.indexEnabled) := by
  simp [Text.serializeInner, lookupField_append, lookupField]

theorem text_lookup_emb (t : TextStateV) :
    lookupField (Text.serializeInner t) "emb_model" =
      if t.embModel.isNull then none else some t.embModel := by
  by_cases h : t.embModel.isNull = true <;>
    simp [Text.serializeInner, lookupField_append, lookupField, lookupField_opt_ne, h]

theorem text_lookup_mcs (t : TextStateV) :
    lookupField (Text.serializeInner t) "max_chunk_size" =
      if t.maxChunkSize.isNull then none else some t.maxChunkSize := by
  by_cases h : t.maxChunkSize.isNull = true <;>
    simp [Text.serializeInner, lookupField_append, lookupField, lookupField_opt_ne, h]

theorem text_lookup_co (t : TextStateV) :
    lookupField (Text.serializeInner t) "chunk_overlap" =
      if t.chunkOverlap.isNull then none else some t.chunkOverlap := by
  by_cases h : t.chunkOverlap.isNull = true <;>
    simp [Text.serializeInner, lookupField_append, lookupField, lookupField_opt_ne, h]

theorem text_lookup_isr (t : TextStateV) :
    lookupField (Text.serializeInner t) "is_separator_regex" =
      if t.isSeparatorRegex.isNull then none else some t.isSeparatorRegex := by
  by_cases h : t.isSeparatorRegex.isNull = true <;>
    simp [Text.serializeInner, lookupField_append, lookupField, lookupField_opt_ne, h]

theorem text_lookup_sep (t : TextStateV) :
    lookupField (Text.serializeInner t) "separators" =
      if t.separators.isNull then none else some t.separators := by
  by_cases h : t.separators.isNull = true <;>
    simp [Text.serializeInner, lookupField_append, lookupField, lookupField_opt_ne, h]

theorem text_lookup_ks (t : TextStateV) :
    lookupField (Text.serializeInner t) "keep_separator" =
      if t.keepSeparator.isNull then none else some t.keepSeparator := by
  by_cases h : t.keepSeparator.isNull = true <;>
    simp [Text.serializeInner, lookupField_append, lookupField, lookupField_opt_ne, h]

/-! ## Embeddable-class round trips -/


set_option maxHeartbeats 2000000

open Value

/-- A value flagged `isNull` is `vnull`. -/
theorem isNull_eq_vnull (x : Value) (h : x.isNull = true) : x = vnull := by
  cases x <;> simp [Value.isNull] at h ⊢

/-- Every value is `vnull` or not-null. -/
theorem isNull_cases (x : Value) : x = vnull ∨ x.isNull = false := by
  cases x <;> simp [Value.isNull]

/-- A value flagged `isArrB` is an array. -/
theorem isArrB_ex (x : Value) (h : isArrB x = true) : ∃ xs, x = varr xs := by
  cases x <;> simp [isArrB] at h ⊢

/-- Arrays are truthy. -/
theorem truthy_of_isArrB (x : Value) (h : isArrB x = true) : x.truthy = true := by
  cases x <;> simp [isArrB, Value.truthy] at h ⊢

/-- A valid embedding model is one of the supported model strings. -/
theorem validEmb_vstr (x : Value) (h : Text.isValidEmbModel x = true) :
    ∃ s, x = vstr s ∧ s ∈ textToEmbeddingModels := by
  cases x <;> simp [Text.isValidEmbModel] at h ⊢
  exact h

/-- A null-or-valid embedding-model field is never `undefined`. -/
theorem undefFalse_of_nullOrValid (x : Value)
    (h : x.isNull = true ∨ Text.isValidEmbModel x = true) : x.isUndef = false := by
  cases x <;> simp [Value.isNull, Text.isValidEmbModel, Value.isUndef] at h ⊢

/-- The round-trip of a sparsely-encoded option field: reading the key back
gives `undefined` exactly when the field was `null`. -/
theorem undef_ite (x : Value) (hx : x.isUndef = false) :
    (if x.isNull = true then vundefined else x).isUndef = x.isNull := by
  rcases isNull_cases x with rfl | h
  · rfl
  · simp [h, hx]

/-- Collapse of `enableIndex`'s assignment of a sparsely-decoded option. -/
theorem null_ite (x : Value) :
    (if x.isNull = true then vnull else if x.isNull = true then vundefined else x) = x := by
  rcases isNull_cases x with rfl | h
  · rfl
  · simp [h]

/-- Collapse of the non-indexing assignment of a sparsely-decoded option. -/
theorem nnull_ite (x : Value) :
    (if (!x.isNull) = true then (if x.isNull = true then vundefined else x) else vnull) = x := by
  rcases isNull_cases x with rfl | h
  · rfl
  · simp [h]

/-! Evaluation lemmas for the concrete constructors that appear while
unwinding `Text._deserialize`. -/

theorem isUndef_vstr (s : String) : (vstr s).isUndef = false := rfl

theorem isNull_vstr (s : String) : (vstr s).isNull = false := rfl

theorem isNull_vnull : (vnull).isNull = true := rfl

theorem isUndef_vnull : (vnull).isUndef = false := rfl

theorem isUndef_vundefined : (vundefined).isUndef = true := rfl

theorem isTrue_vbool (b : Bool) : (vbool b).isTrue = b := by cases b <;> rfl

theorem truthy_vbool (b : Bool) : (vbool b).truthy = b := rfl

/-! Property reads on a serialized `Text` payload. -/

theorem th_outer (t : TextStateV) :
    hasField (Text.serialize t) "xText" = .ok true := rfl

theorem tg_outer (t : TextStateV) :
    getField (Text.serialize t) "xText" = .ok (vobj (Text.serializeInner t)) := rfl

theorem tg_text (t : TextStateV) :
    getField (vobj (Text.serializeInner t)) "text" = .ok (vstr t.text) := by
  simp [getField, text_lookup_text]

theorem tg_chunks (t : TextStateV) :
    getField (vobj (Text.serializeInner t)) "chunks" = .ok t.chunks := by
  simp [getField, text_lookup_chunks]

theorem tg_index (t : TextStateV) :
    getField (vobj (Text.serializeInner t)) "index" = .ok (vbool t.indexEnabled) := by
  simp [getField, text_lookup_index]

theorem tg_emb (t : TextStateV) :
    getField (vobj (Text.serializeInner t)) "emb_model" =
      .ok (if t.embModel.isNull = true then vundefined else t.embModel) := by
  cases h : t.embModel.isNull <;> simp [getField, text_lookup_emb, h]

theorem tg_mcs (t : TextStateV) :
    getField (vobj (Text.serializeInner t)) "max_chunk_size" =
      .ok (if t.maxChunkSize.isNull = true then vundefined else t.maxChunkSize) := by
  cases h : t.maxChunkSize.isNull <;> simp [getField, text_lookup_mcs, h]

theorem tg_co (t : TextStateV) :
    getField (vobj (Text.serializeInner t)) "chunk_overlap" =
      .ok (if t.chunkOverlap.isNull = true then vundefined else t.chunkOverlap) := by
  cases h : t.chunkOverlap.isNull <;> simp [getField, text_lookup_co, h]

theorem tg_isr (t : TextStateV) :
    getField (vobj (Text.serializeInner t)) "is_separator_regex" =
      .ok (if t.isSeparatorRegex.isNull = true then vundefined else t.isSeparatorRegex) := by
  cases h : t.isSeparatorRegex.isNull <;> simp [getField, text_lookup_isr, h]

theorem tg_sep (t : TextStateV) :
    getField (vobj (Text.serializeInner t)) "separators" =
      .ok (if t.separators.isNull = true then vundefined else t.separators) := by
  cases h : t.separators.isNull <;> simp [getField, text_lookup_sep, h]

theorem tg_ks (t : TextStateV) :
    getField (vobj (Text.serializeInner t)) "keep_separator" =
      .ok (if t.keepSeparator.isNull = true then vundefined else t.keepSeparator) := by
  cases h : t.keepSeparator.isNull <;> simp [getField, text_lookup_ks, h]

theorem th_emb (t : TextStateV) :
    hasField (vobj (Text.serializeInner t)) "emb_model" = .ok (!t.embModel.isNull) := by
  cases h : t.embModel.isNull <;> simp [hasField, hasKeyB, text_lookup_emb, h]

theorem th_mcs (t : TextStateV) :
    hasField (vobj (Text.serializeInner t)) "max_chunk_size" =
      .ok (!t.maxChunkSize.isNull) := by
  cases h : t.maxChunkSize.isNull <;> simp [hasField, hasKeyB, text_lookup_mcs, h]

theorem th_co (t : TextStateV) :
    hasField (vobj (Text.serializeInner t)) "chunk_overlap" =
      .ok (!t.chunkOverlap.isNull) := by
  cases h : t.chunkOverlap.isNull <;> simp [hasField, hasKeyB, text_lookup_co, h]

theorem th_isr (t : TextStateV) :
    hasField (vobj (Text.serializeInner t)) "is_separator_regex" =
      .ok (!t.isSeparatorRegex.isNull) := by
  cases h : t.isSeparatorRegex.isNull <;> simp [hasField, hasKeyB, text_lookup_isr, h]

theorem th_sep (t : TextStateV) :
    hasField (vobj (Text.serializeInner t)) "separators" = .ok (!t.separators.isNull) := by
  cases h : t.separators.isNull <;> simp [hasField, hasKeyB, text_lookup_sep, h]

theorem th_ks (t : TextStateV) :
    hasField (vobj (Text.serializeInner t)) "keep_separator" =
      .ok (!t.keepSeparator.isNull) := by
  cases h : t.keepSeparator.isNull <;> simp [hasField, hasKeyB, text_lookup_ks, h]

set_option maxHeartbeats 4000000 in
/-- `Text._deserialize` inverts `Text.serialize` on every state satisfying
the constructor-established invariants. -/
theorem text_roundtrip (t : TextStateV)
    (htext : jsTrimmedLen t.text > 0)
    (hch : isArrB t.chunks = true)
    (hem : t.embModel.isNull = true ∨ Text.isValidEmbModel t.embModel = true)
    (h1 : t.maxChunkSize.isUndef = false) (h2 : t.chunkOverlap.isUndef = false)
    (h3 : t.isSeparatorRegex.isUndef = false) (h4 : t.separators.isUndef = false)
    (h5 : t.keepSeparator.isUndef = false) :
    Text.deserialize (Text.serialize t) = .ok t := by
  have hemU := undefFalse_of_nullOrValid t.embModel hem
  have htr := truthy_of_isArrB t.chunks hch
  have hctor : Text.ctor (vstr t.text) =
      .ok ⟨t.text, varr [], vnull, vnull, vnull, vnull, vnull, vnull, false⟩ := by
    simp [Text.ctor, Text.isValidText, htext]
  obtain ⟨tx, ch, em, mcs, co, isr, sep, ks, idx⟩ := t
  dsimp only at htext hch hem h1 h2 h3 h4 h5 hemU htr hctor
  cases idx
  case false =>
    simp only [Text.deserialize, th_outer, tg_outer, tg_text, tg_index, tg_chunks,
      tg_emb, tg_mcs, tg_co, tg_isr, tg_sep, tg_ks, th_emb, th_mcs, th_co, th_isr,
      th_sep, th_ks, hctor, ebind_ok, epure, isUndef_vstr, isNull_vstr, isTrue_vbool,
      Bool.or_self, Bool.false_eq_true, eq_self_iff_true, if_true, if_false]
    rcases isNull_cases em with rfl | hA <;>
      rcases isNull_cases mcs with rfl | hB <;>
      rcases isNull_cases co with rfl | hC <;>
      rcases isNull_cases isr with rfl | hD <;>
      rcases isNull_cases sep with rfl | hE <;>
      rcases isNull_cases ks with rfl | hF <;>
      simp [isNull_vnull, isUndef_vnull, isUndef_vundefined, Value.jsOr, htr, *]
  case true =>
    simp only [Text.deserialize, th_outer, tg_outer, tg_text, tg_index, tg_chunks,
      tg_emb, tg_mcs, tg_co, tg_isr, tg_sep, tg_ks, hctor, ebind_ok, epure,
      isUndef_vstr, isNull_vstr, isTrue_vbool, Bool.or_self, Bool.false_eq_true,
      eq_self_iff_true, if_true, if_false]
    rcases hem with hn | hv
    · obtain rfl := isNull_eq_vnull em hn
      simp [Text.enableIndex, Text.assignRest, undef_ite, null_ite,
        isNull_vnull, isUndef_vnull, isUndef_vundefined, Value.jsOr, htr, *]
    · obtain ⟨s, rfl, hs⟩ := validEmb_vstr em hv
      simp [Text.enableIndex, Text.assignRest, Text.isValidEmbModel, undef_ite, null_ite,
        isNull_vnull, isUndef_vnull, isUndef_vundefined, isUndef_vstr, isNull_vstr,
        Value.jsOr, htr, *]

/-! Image payload: lookup structure and round trip. -/

theorem ig_mime (i : ImageStateV) :
    lookupField (Image.serializeInner i) "mime_type" = some i.mimeType := by
  simp [Image.serializeInner, lookupField_append, lookupField]

theorem ig_index (i : ImageStateV) :
    lookupField (Image.serializeInner i) "index" = some i.indexEnabled := by
  simp [Image.serializeInner, lookupField_append, lookupField]

theorem ig_chunks (i : ImageStateV) :
    lookupField (Image.serializeInner i) "chunks" = some i.chunks := by
  cases hd : i.data <;>
    simp [Image.serializeInner, lookupField_append, lookupField, lookupField_opt_ne, hd]

theorem ig_data (i : ImageStateV) (s : String) (h : i.data = .str s) :
    lookupField (Image.serializeInner i) "data" = some (vstr s) := by
  simp [Image.serializeInner, lookupField_append, lookupField, lookupField_opt_ne, h]

theorem ig_emb (i : ImageStateV) :
    lookupField (Image.serializeInner i) "emb_model" =
      if i.embModel.isNull = true then none else some i.embModel := by
  cases h : i.embModel.isNull <;> cases hd : i.data <;>
    simp [Image.serializeInner, lookupField_append, lookupField, lookupField_opt_ne, h, hd]

theorem ig_vis (i : ImageStateV) :
    lookupField (Image.serializeInner i) "vision_model" =
      if i.visionModel.isNull = true then none else some i.visionModel := by
  cases h : i.visionModel.isNull <;> cases hd : i.data <;>
    simp [Image.serializeInner, lookupField_append, lookupField, lookupField_opt_ne, h, hd]

theorem ig_mcs (i : ImageStateV) :
    lookupField (Image.serializeInner i) "max_chunk_size" =
      if i.maxChunkSize.isNull = true then none else some i.maxChunkSize := by
  cases h : i.maxChunkSize.isNull <;> cases hd : i.data <;>
    simp [Image.serializeInner, lookupField_append, lookupField, lookupField_opt_ne, h, hd]

theorem ig_co (i : ImageStateV) :
    lookupField (Image.serializeInner i) "chunk_overlap" =
      if i.chunkOverlap.isNull = true then none else some i.chunkOverlap := by
  cases h : i.chunkOverlap.isNull <;> cases hd : i.data <;>
    simp [Image.serializeInner, lookupField_append, lookupField, lookupField_opt_ne, h, hd]

theorem ig_isr (i : ImageStateV) :
    lookupField (Image.serializeInner i) "is_separator_regex" =
      if i.isSeparatorRegex.isNull = true then none else some i.isSeparatorRegex := by
  cases h : i.isSeparatorRegex.isNull <;> cases hd : i.data <;>
    simp [Image.serializeInner, lookupField_append, lookupField, lookupField_opt_ne, h, hd]

theorem ig_sep (i : ImageStateV) :
    lookupField (Image.serializeInner i) "separators" =
      if i.separators.isNull = true then none else some i.separators := by
  cases h : i.separators.isNull <;> cases hd : i.data <;>
    simp [Image.serializeInner, lookupField_append, lookupField, lookupField_opt_ne, h, hd]

theorem ig_ks (i : ImageStateV) :
    lookupField (Image.serializeInner i) "keep_separator" =
      if i.keepSeparator.isNull = true then none else some i.keepSeparator := by
  cases h : i.keepSeparator.isNull <;> cases hd : i.data <;>
    simp [Image.serializeInner, lookupField_append, lookupField, lookupField_opt_ne, h, hd]

/-! Property reads on a serialized `Image` payload. -/

theorem ih_outer (i : ImageStateV) :
    hasField (Image.serialize i) "xImage" = .ok true := rfl

theorem igf_outer (i : ImageStateV) :
    getField (Image.serialize i) "xImage" = .ok (vobj (Image.serializeInner i)) := rfl

theorem ihf_mime (i : ImageStateV) :
    hasField (vobj (Image.serializeInner i)) "mime_type" = .ok true := by
  simp [hasField, hasKeyB, ig_mime]

theorem igf_mime (i : ImageStateV) :
    getField (vobj (Image.serializeInner i)) "mime_type" = .ok i.mimeType := by
  simp [getField, ig_mime]

theorem igf_index (i : ImageStateV) :
    getField (vobj (Image.serializeInner i)) "index" = .ok i.indexEnabled := by
  simp [getField, ig_index]

theorem ihf_chunks (i : ImageStateV) :
    hasField (vobj (Image.serializeInner i)) "chunks" = .ok true := by
  simp [hasField, hasKeyB, ig_chunks]

theorem igf_chunks (i : ImageStateV) :
    getField (vobj (Image.serializeInner i)) "chunks" = .ok i.chunks := by
  simp [getField, ig_chunks]

theorem igf_data (i : ImageStateV) (s : String) (h : i.data = .str s) :
    getField (vobj (Image.serializeInner i)) "data" = .ok (vstr s) := by
  simp [getField, ig_data i s h]

theorem igf_emb (i : ImageStateV) :
    getField (vobj (Image.serializeInner i)) "emb_model" =
      .ok (if i.embModel.isNull = true then vundefined else i.embModel) := by
  cases h : i.embModel.isNull <;> simp [getField, ig_emb, h]

theorem igf_vis (i : ImageStateV) :
    getField (vobj (Image.serializeInner i)) "vision_model" =
      .ok (if i.visionModel.isNull = true then vundefined else i.visionModel) := by
  cases h : i.visionModel.isNull <;> simp [getField, ig_vis, h]

theorem igf_mcs (i : ImageStateV) :
    getField (vobj (Image.serializeInner i)) "max_chunk_size" =
      .ok (if i.maxChunkSize.isNull = true then vundefined else i.maxChunkSize) := by
  cases h : i.maxChunkSize.isNull <;> simp [getField, ig_mcs, h]

theorem igf_co (i : ImageStateV) :
    getField (vobj (Image.serializeInner i)) "chunk_overlap" =
      .ok (if i.chunkOverlap.isNull = true then vundefined else i.chunkOverlap) := by
  cases h : i.chunkOverlap.isNull <;> simp [getField, ig_co, h]

theorem igf_isr (i : ImageStateV) :
    getField (vobj (Image.serializeInner i)) "is_separator_regex" =
      .ok (if i.isSeparatorRegex.isNull = true then vundefined else i.isSeparatorRegex) := by
  cases h : i.isSeparatorRegex.isNull <;> simp [getField, ig_isr, h]

theorem igf_sep (i : ImageStateV) :
    getField (vobj (Image.serializeInner i)) "separators" =
      .ok (if i.separators.isNull = true then vundefined else i.separators) := by
  cases h : i.separators.isNull <;> simp [getField, ig_sep, h]

theorem igf_ks (i : ImageStateV) :
    getField (vobj (Image.serializeInner i)) "keep_separator" =
      .ok (if i.keepSeparator.isNull = true then vundefined else i.keepSeparator) := by
  cases h : i.keepSeparator.isNull <;> simp [getField, ig_ks, h]

theorem ihf_emb (i : ImageStateV) :
    hasField (vobj (Image.serializeInner i)) "emb_model" = .ok (!i.embModel.isNull) := by
  cases h : i.embModel.isNull <;> simp [hasField, hasKeyB, ig_emb, h]

theorem ihf_vis (i : ImageStateV) :
    hasField (vobj (Image.serializeInner i)) "vision_model" =
      .ok (!i.visionModel.isNull) := by
  cases h : i.visionModel.isNull <;> simp [hasField, hasKeyB, ig_vis, h]

theorem ihf_mcs (i : ImageStateV) :
    hasField (vobj (Image.serializeInner i)) "max_chunk_size" =
      .ok (!i.maxChunkSize.isNull) := by
  cases h : i.maxChunkSize.isNull <;> simp [hasField, hasKeyB, ig_mcs, h]

theorem ihf_co (i : ImageStateV) :
    hasField (vobj (Image.serializeInner i)) "chunk_overlap" =
      .ok (!i.chunkOverlap.isNull) := by
  cases h : i.chunkOverlap.isNull <;> simp [hasField, hasKeyB, ig_co, h]

theorem ihf_isr (i : ImageStateV) :
    hasField (vobj (Image.serializeInner i)) "is_separator_regex" =
      .ok (!i.isSeparatorRegex.isNull) := by
  cases h : i.isSeparatorRegex.isNull <;> simp [hasField, hasKeyB, ig_isr, h]

theorem ihf_sep (i : ImageStateV) :
    hasField (vobj (Image.serializeInner i)) "separators" = .ok (!i.separators.isNull) := by
  cases h : i.separators.isNull <;> simp [hasField, hasKeyB, ig_sep, h]

theorem ihf_ks (i : ImageStateV) :
    hasField (vobj (Image.serializeInner i)) "keep_separator" =
      .ok (!i.keepSeparator.isNull) := by
  cases h : i.keepSeparator.isNull <;> simp [hasField, hasKeyB, ig_ks, h]

/-- A round-trippable string payload decomposed into the constructor's own
checks. -/
theorem imageDataRT_ex (d : ImageData) (h : imageDataRT d = true) :
    ∃ s, d = .str s ∧ startsWithB s "data:" = false ∧ 0 < jsTrimmedLen s ∧
      (startsWithB s "http" || base64Shape s) = true := by
  cases d with
  | str s =>
      simp only [imageDataRT, Bool.and_eq_true, Bool.not_eq_true] at h
      exact ⟨s, rfl, of_decide_eq_true h.1.1, by simpa using h.1.2, h.2⟩
  | file n t b => simp [imageDataRT] at h
  | blob t b => simp [imageDataRT] at h
  | arrayBuffer b => simp [imageDataRT] at h
  | uint8Array b => simp [imageDataRT] at h

/-- A value flagged `isBoolB` is a boolean. -/
theorem isBoolB_ex (x : Value) (h : isBoolB x = true) : ∃ b, x = vbool b := by
  cases x <;> simp [isBoolB] at h ⊢

/-- `b || false` on wire booleans. -/
theorem jsOr_bool (b : Bool) : Value.jsOr (vbool b) (vbool false) = vbool b := by
  cases b <;> rfl

/-- Strings that are nonempty after trimming are truthy. -/
theorem truthy_vstr_of_trim (s : String) (h : 0 < jsTrimmedLen s) :
    (vstr s).truthy = true := by
  simp only [Value.truthy, ne_eq, decide_eq_true_eq]
  rintro rfl
  exact absurd h (by decide)

/-- Re-running the constructor on a stored round-trippable string payload
stores the same payload (only a sniffed MIME type, later overwritten by
`_deserialize`, depends on the branch taken). -/
theorem ctorData_rt (s : String) (fs : FS)
    (hnd : startsWithB s "data:" = false) (htrim : 0 < jsTrimmedLen s)
    (hor : (startsWithB s "http" || base64Shape s) = true) :
    ∃ m, Image.ctorData (.str s) fs = .ok (Image.freshState (.str s) m) := by
  by_cases hh : startsWithB s "http" = true
  · exact ⟨extractMimeTypeFromUrl s, by simp [Image.ctorData, hnd, hh]⟩
  · have hb : base64Shape s = true := by simpa [hh] using hor
    exact ⟨extractMimeTypeFromBase64 s,
      by simp [Image.ctorData, hnd, hh, Image.isValidData, htrim, hb]⟩

set_option maxHeartbeats 8000000 in
/-- `Image._deserialize` inverts `Image._serialize` on every state satisfying
the constructor-established invariants. -/
theorem image_roundtrip (i : ImageStateV) (fs : FS)
    (hd : imageDataRT i.data = true)
    (hch : isArrB i.chunks = true)
    (hb : isBoolB i.indexEnabled = true)
    (h1 : i.embModel.isUndef = false) (h2 : i.visionModel.isUndef = false)
    (h3 : i.maxChunkSize.isUndef = false) (h4 : i.chunkOverlap.isUndef = false)
    (h5 : i.isSeparatorRegex.isUndef = false) (h6 : i.separators.isUndef = false)
    (h7 : i.keepSeparator.isUndef = false) :
    Image.deserialize (Image.serialize i) fs = .ok i := by
  obtain ⟨s, hds, hnd, htrim, hor⟩ := imageDataRT_ex i.data hd
  obtain ⟨m, hctor⟩ := ctorData_rt s fs hnd htrim hor
  have htrs := truthy_vstr_of_trim s htrim
  have htr := truthy_of_isArrB i.chunks hch
  obtain ⟨b, hbb⟩ := isBoolB_ex i.indexEnabled hb
  have hgdata := igf_data i s hds
  obtain ⟨da, mt, ch, em, vm, mcs, co, isr, sep, ks, idx⟩ := i
  dsimp only at h1 h2 h3 h4 h5 h6 h7 htr hds hbb hgdata
  subst hds
  subst hbb
  simp only [Image.deserialize, ih_outer, igf_outer, ihf_mime, igf_mime, igf_index,
    ihf_chunks, igf_chunks, hgdata, igf_emb, igf_vis, igf_mcs, igf_co, igf_isr,
    igf_sep, igf_ks, ihf_emb, ihf_vis, ihf_mcs, ihf_co, ihf_isr, ihf_sep, ihf_ks,
    ebind_ok, epure, Value.jsOr, htrs, isTrue_vbool, Bool.or_self, Bool.false_eq_true,
    eq_self_iff_true, not_true, if_true, if_false, Image.ctorValue, hctor, jsOr_bool]
  rcases isNull_cases em with rfl | hA <;>
    rcases isNull_cases vm with rfl | hB <;>
    rcases isNull_cases mcs with rfl | hC <;>
    rcases isNull_cases co with rfl | hD <;>
    rcases isNull_cases isr with rfl | hE <;>
    rcases isNull_cases sep with rfl | hF <;>
    rcases isNull_cases ks with rfl | hG <;>
    simp [Image.freshState, jsOr_bool, isNull_vnull, isUndef_vnull, isUndef_vundefined,
      Value.jsOr, truthy_vbool, htr, *]

/-! BSON leaf round trips. -/

/-- Lowercase hex digits are unchanged by `toLowerCase`. -/
theorem toLower_of_lowerHex (c : Char) (h : isLowerHex c = true) : c.toLower = c := by
  simp only [isLowerHex, decide_eq_true_eq] at h
  unfold Char.toLower
  have hn : ¬ (c.toNat ≥ 65 ∧ c.toNat ≤ 90) := by
    rcases h with ⟨h1, h2⟩ | ⟨h1, h2⟩
    · have hb : c.toNat ≤ 57 := by
        rw [Char.le_def, UInt32.le_def] at h2
        exact h2
      intro hc
      omega
    · have hb : 97 ≤ c.toNat := by
        rw [Char.le_def, UInt32.le_def] at h1
        exact h1
      intro hc
      omega
  simp [hn]

/-- All-lowercase-hex strings are unchanged by `toLowerCase`. -/
theorem lowerStr_of_lowerHex (s : String) (h : s.toList.all isLowerHex = true) :
    lowerStr s = s := by
  unfold lowerStr
  have hmap : s.toList.map Char.toLower = s.toList := by
    conv_rhs => rw [show s.toList = s.toList.map id from (List.map_id s.toList).symm]
    exact List.map_congr_left (fun a ha => toLower_of_lowerHex a (List.all_eq_true.mp h a ha))
  rw [hmap]
  cases s
  rfl

/-- Lowercase hex digits have a hex value. -/
theorem hexVal_isSome_of_lowerHex (c : Char) (h : isLowerHex c = true) :
    (hexVal c).isSome = true := by
  simp only [isLowerHex, decide_eq_true_eq] at h
  unfold hexVal
  rcases h with ⟨h1, h2⟩ | ⟨h1, h2⟩
  · rw [if_pos ⟨h1, h2⟩]
    rfl
  · rw [if_neg (fun hc => absurd (le_trans h1 hc.2) (by decide)), if_pos ⟨h1, h2⟩]
    rfl

/-- `hexDigit` inverts through `hexVal` below 16. -/
theorem hexVal_hexDigit (n : Nat) (h : n < 16) : hexVal (hexDigit n) = some n := by
  interval_cases n <;> decide

/-- Node's hex decode inverts the hex encode of a byte list. -/
theorem hexDecode_encode (bytes : List Nat) (h : bytes.all (· < 256) = true) :
    hexDecode (hexEncode bytes) = bytes := by
  unfold hexDecode hexEncode
  induction bytes with
  | nil => rfl
  | cons b rest ih =>
      simp only [List.all_cons, Bool.and_eq_true, decide_eq_true_eq] at h
      obtain ⟨hb, hrest⟩ := h
      have e1 : hexVal (hexDigit (b / 16)) = some (b / 16) :=
        hexVal_hexDigit _ (Nat.div_lt_of_lt_mul (by omega))
      have e2 : hexVal (hexDigit (b % 16)) = some (b % 16) :=
        hexVal_hexDigit _ (Nat.mod_lt _ (by omega))
      have etail := ih hrest
      simp only [List.flatMap_cons, List.cons_append, List.nil_append]
      rw [show (String.mk (hexDigit (b / 16) :: hexDigit (b % 16) ::
        rest.flatMap (fun b => [hexDigit (b / 16), hexDigit (b % 16)]))).toList =
        hexDigit (b / 16) :: hexDigit (b % 16) ::
          rest.flatMap (fun b => [hexDigit (b / 16), hexDigit (b % 16)]) from rfl]
      rw [hexDecodeChars, e1, e2]
      simp only
      rw [show (String.mk (rest.flatMap
        (fun b => [hexDigit (b / 16), hexDigit (b % 16)]))).toList =
        rest.flatMap (fun b => [hexDigit (b / 16), hexDigit (b % 16)]) from rfl] at etail
      rw [etail]
      have hbm : b / 16 * 16 + b % 16 = b := by omega
      rw [hbm]

/-! Structural facts used by the round-trip induction. -/

/-- Serialization of a plain object preserves its key set. -/
theorem serializeFields_hasKey (fields : List (String × Value)) (d : Nat)
    (g : List (String × Value)) (h : Collection.serializeFields fields d = .ok g)
    (k : String) : hasKeyB g k = hasKeyB fields k := by
  induction fields generalizing g with
  | nil =>
      rw [Collection.serializeFields] at h
      cases h
      rfl
  | cons kv rest ih =>
      obtain ⟨k1, x⟩ := kv
      rw [Collection.serializeFields] at h
      cases hres : Collection.serialize x d with
      | error e => rw [hres] at h; simp at h
      | ok y =>
          rw [hres] at h
          cases hres2 : Collection.serializeFields rest d with
          | error e2 => rw [hres2] at h; simp at h
          | ok ys =>
              rw [hres2] at h
              simp only [ebind_ok, epure] at h
              cases h
              have hkeys := ih ys hres2
              simp only [hasKeyB, lookupField] at hkeys ⊢
              by_cases hk : k1 = k <;> simp [hk, hkeys]

theorem wfRT_text_parts (t : TextStateV) (h : wfRT (vtext t) = true) :
    jsTrimmedLen t.text > 0 ∧ isArrB t.chunks = true ∧
    (t.embModel.isNull = true ∨ Text.isValidEmbModel t.embModel = true) ∧
    t.maxChunkSize.isUndef = false ∧ t.chunkOverlap.isUndef = false ∧
    t.isSeparatorRegex.isUndef = false ∧ t.separators.isUndef = false ∧
    t.keepSeparator.isUndef = false := by
  simp only [wfRT, Bool.and_eq_true, Bool.or_eq_true, decide_eq_true_eq,
    Bool.not_eq_true] at h
  tauto

theorem wfRT_image_parts (i : ImageStateV) (h : wfRT (vimage i) = true) :
    imageDataRT i.data = true ∧ isArrB i.chunks = true ∧ isBoolB i.indexEnabled = true ∧
    i.embModel.isUndef = false ∧ i.visionModel.isUndef = false ∧
    i.maxChunkSize.isUndef = false ∧ i.chunkOverlap.isUndef = false ∧
    i.isSeparatorRegex.isUndef = false ∧ i.separators.isUndef = false ∧
    i.keepSeparator.isUndef = false := by
  simp only [wfRT, Bool.and_eq_true, Bool.or_eq_true, decide_eq_true_eq,
    Bool.not_eq_true] at h
  tauto

theorem wfRT_obj_parts (fields : List (String × Value)) (h : wfRT (vobj fields) = true) :
    (hasKeyB fields "xText" = false ∧ hasKeyB fields "xImage" = false ∧
     hasKeyB fields "$oid" = false ∧ hasKeyB fields "$date" = false ∧
     hasKeyB fields "$numberDecimal" = false ∧ hasKeyB fields "$binary" = false ∧
     hasKeyB fields "$regex" = false ∧ hasKeyB fields "$code" = false ∧
     hasKeyB fields "$timestamp" = false ∧ hasKeyB fields "$minKey" = false ∧
     hasKeyB fields "$maxKey" = false) ∧ wfRTFields fields = true := by
  rw [wfRT] at h
  simp only [reservedKeys, List.all_cons, List.all_nil, Bool.and_eq_true,
    Bool.and_true, decide_eq_true_eq] at h
  obtain ⟨⟨h1, h2, h3, h4, h5, h6, h7, h8, h9, h10, h11⟩, h12⟩ := h
  exact ⟨⟨by simp [h1], by simp [h2], by simp [h3], by simp [h4], by simp [h5],
    by simp [h6], by simp [h7], by simp [h8], by simp [h9], by simp [h10],
    by simp [h11]⟩, h12⟩

/-- The object arm of the walker on a marker-free entry list. -/
theorem deserialize_vobj_nomarker (fields : List (String × Value)) (d : Nat) (fs : FS)
    (hd : ¬ d > 100)
    (h1 : hasKeyB fields "xText" = false) (h2 : hasKeyB fields "xImage" = false)
    (h3 : hasKeyB fields "$oid" = false) (h4 : hasKeyB fields "$date" = false)
    (h5 : hasKeyB fields "$numberDecimal" = false) (h6 : hasKeyB fields "$binary" = false)
    (h7 : hasKeyB fields "$regex" = false) (h8 : hasKeyB fields "$code" = false)
    (h9 : hasKeyB fields "$timestamp" = false) (h10 : hasKeyB fields "$minKey" = false)
    (h11 : hasKeyB fields "$maxKey" = false) :
    Collection.deserialize (vobj fields) d fs = do
      return vobj (← Collection.deserializeFields fields (d + 1) fs) := by
  rw [deserialize_vobj, if_neg hd, if_neg (by simp [h1]), if_neg (by simp [h2]),
    if_neg (by simp [h3]), if_neg (by simp [h4]), if_neg (by simp [h5]),
    if_neg (by simp [h6]), if_neg (by simp [h7]), if_neg (by simp [h8]),
    if_neg (by simp [h9]), if_neg (by simp [h10]), if_neg (by simp [h11])]

/-! The walker on each serialized BSON leaf. -/

theorem deser_oid (hex : String) (d : Nat) (fs : FS) (hd : ¬ d > 100)
    (hlen : hex.length = 24) (hall : hex.toList.all isLowerHex = true) :
    Collection.deserialize (vobj [("$oid", vstr hex)]) d fs = .ok (voidc hex) := by
  have hsome : hex.toList.all (fun c => (hexVal c).isSome) = true :=
    List.all_eq_true.mpr (fun c hc =>
      hexVal_isSome_of_lowerHex c (List.all_eq_true.mp hall c hc))
  rw [deserialize_vobj, if_neg hd, if_neg (by simp [hasKeyB, lookupField]),
    if_neg (by simp [hasKeyB, lookupField]), if_pos (by simp [hasKeyB, lookupField])]
  have hcond : ∀ x ∈ hex.data, (hexVal x).isSome = true :=
    fun x hx => List.all_eq_true.mp hsome x hx
  simp [lookupField, Collection.mkObjectId, hlen, hcond, lowerStr_of_lowerHex hex hall]
  rw [if_pos hcond]
  rfl

theorem deser_date (iso : String) (d : Nat) (fs : FS) (hd : ¬ d > 100) :
    Collection.deserialize (vobj [("$date", vstr iso)]) d fs = .ok (vdate iso) := by
  rw [deserialize_vobj, if_neg hd, if_neg (by simp [hasKeyB, lookupField]),
    if_neg (by simp [hasKeyB, lookupField]), if_neg (by simp [hasKeyB, lookupField]),
    if_pos (by simp [hasKeyB, lookupField])]
  rfl

theorem deser_decimal (s : String) (d : Nat) (fs : FS) (hd : ¬ d > 100) :
    Collection.deserialize (vobj [("$numberDecimal", vstr s)]) d fs = .ok (vdecimal s) := by
  rw [deserialize_vobj, if_neg hd, if_neg (by simp [hasKeyB, lookupField]),
    if_neg (by simp [hasKeyB, lookupField]), if_neg (by simp [hasKeyB, lookupField]),
    if_neg (by simp [hasKeyB, lookupField]), if_pos (by simp [hasKeyB, lookupField])]
  rfl

theorem deser_binary (bytes : List Nat) (d : Nat) (fs : FS) (hd : ¬ d > 100)
    (hb : bytes.all (· < 256) = true) :
    Collection.deserialize (vobj [("$binary", vstr (hexEncode bytes))]) d fs =
      .ok (vbinary bytes) := by
  rw [deserialize_vobj, if_neg hd, if_neg (by simp [hasKeyB, lookupField]),
    if_neg (by simp [hasKeyB, lookupField]), if_neg (by simp [hasKeyB, lookupField]),
    if_neg (by simp [hasKeyB, lookupField]), if_neg (by simp [hasKeyB, lookupField]),
    if_pos (by simp [hasKeyB, lookupField])]
  simp [lookupField, Collection.mkBinary, hexDecode_encode bytes hb]

theorem deser_regexp (source flags : String) (d : Nat) (fs : FS) (hd : ¬ d > 100)
    (hf : Collection.validFlags flags = true) :
    Collection.deserialize (vobj [("$regex", vstr source), ("$options", vstr flags)]) d fs =
      .ok (vregexp source flags) := by
  rw [deserialize_vobj, if_neg hd, if_neg (by simp [hasKeyB, lookupField]),
    if_neg (by simp [hasKeyB, lookupField]), if_neg (by simp [hasKeyB, lookupField]),
    if_neg (by simp [hasKeyB, lookupField]), if_neg (by simp [hasKeyB, lookupField]),
    if_neg (by simp [hasKeyB, lookupField]), if_pos (by simp [hasKeyB, lookupField])]
  simp [lookupField, Collection.mkRegExp, jsTemplate, hf]

theorem deser_code (code : String) (d : Nat) (fs : FS) (hd : ¬ d > 100) :
    Collection.deserialize (vobj [("$code", vstr code)]) d fs = .ok (vcode code) := by
  rw [deserialize_vobj, if_neg hd, if_neg (by simp [hasKeyB, lookupField]),
    if_neg (by simp [hasKeyB, lookupField]), if_neg (by simp [hasKeyB, lookupField]),
    if_neg (by simp [hasKeyB, lookupField]), if_neg (by simp [hasKeyB, lookupField]),
    if_neg (by simp [hasKeyB, lookupField]), if_neg (by simp [hasKeyB, lookupField]),
    if_pos (by simp [hasKeyB, lookupField])]
  rfl

theorem deser_minkey (d : Nat) (fs : FS) (hd : ¬ d > 100) :
    Collection.deserialize (vobj [("$minKey", vnum 1)]) d fs = .ok vminkey := by
  rw [deserialize_vobj, if_neg hd, if_neg (by simp [hasKeyB, lookupField]),
    if_neg (by simp [hasKeyB, lookupField]), if_neg (by simp [hasKeyB, lookupField]),
    if_neg (by simp [hasKeyB, lookupField]), if_neg (by simp [hasKeyB, lookupField]),
    if_neg (by simp [hasKeyB, lookupField]), if_neg (by simp [hasKeyB, lookupField]),
    if_neg (by simp [hasKeyB, lookupField]), if_neg (by simp [hasKeyB, lookupField]),
    if_pos (by simp [hasKeyB, lookupField])]

theorem deser_maxkey (d : Nat) (fs : FS) (hd : ¬ d > 100) :
    Collection.deserialize (vobj [("$maxKey", vnum 1)]) d fs = .ok vmaxkey := by
  rw [deserialize_vobj, if_neg hd, if_neg (by simp [hasKeyB, lookupField]),
    if_neg (by simp [hasKeyB, lookupField]), if_neg (by simp [hasKeyB, lookupField]),
    if_neg (by simp [hasKeyB, lookupField]), if_neg (by simp [hasKeyB, lookupField]),
    if_neg (by simp [hasKeyB, lookupField]), if_neg (by simp [hasKeyB, lookupField]),
    if_neg (by simp [hasKeyB, lookupField]), if_neg (by simp [hasKeyB, lookupField]),
    if_neg (by simp [hasKeyB, lookupField]), if_pos (by simp [hasKeyB, lookupField])]

mutual

/-- The document walker round trip: a well-formed value that serializes
successfully is reconstructed exactly by `deserialize` at the same depth. -/
theorem serialize_rt (v : Value) (d : Nat) (fs : FS) (w : Value)
    (hwf : wfRT v = true) (hser : Collection.serialize v d = .ok w) :
    Collection.deserialize w d fs = .ok v := by
  rw [Collection.serialize.eq_def] at hser
  by_cases hd : d > 100
  · rw [if_pos hd] at hser
    simp at hser
  · rw [if_neg hd] at hser
    cases v with
    | vnull => dsimp only at hser; cases hser; rw [deserialize_other vnull d fs rfl rfl, if_neg hd]
    | vundefined => dsimp only at hser; cases hser; rw [deserialize_other vundefined d fs rfl rfl, if_neg hd]
    | vbool b => dsimp only at hser; cases hser; rw [deserialize_other (vbool b) d fs rfl rfl, if_neg hd]
    | vnum n => dsimp only at hser; cases hser; rw [deserialize_other (vnum n) d fs rfl rfl, if_neg hd]
    | vstr s => dsimp only at hser; cases hser; rw [deserialize_other (vstr s) d fs rfl rfl, if_neg hd]
    | varr xs =>
        dsimp only at hser
        have hwf1 : wfRTList xs = true := by simpa [wfRT] using hwf
        cases hres : Collection.serializeList xs (d + 1) with
        | error e => rw [hres] at hser; simp at hser
        | ok ys =>
            rw [hres] at hser
            simp only [ebind_ok, epure] at hser
            cases hser
            rw [deserialize_varr, if_neg hd]
            rw [serializeList_rt xs (d + 1) fs ys hwf1 hres]
            rfl
    | vobj fields =>
        dsimp only at hser
        obtain ⟨⟨k1, k2, k3, k4, k5, k6, k7, k8, k9, k10, k11⟩, hwff⟩ :=
          wfRT_obj_parts fields hwf
        cases hres : Collection.serializeFields fields (d + 1) with
        | error e => rw [hres] at hser; simp at hser
        | ok g =>
            rw [hres] at hser
            simp only [ebind_ok, epure] at hser
            cases hser
            have hk := fun k => serializeFields_hasKey fields (d + 1) g hres k
            rw [deserialize_vobj_nomarker g d fs hd ((hk "xText").trans k1)
              ((hk "xImage").trans k2) ((hk "$oid").trans k3) ((hk "$date").trans k4)
              ((hk "$numberDecimal").trans k5) ((hk "$binary").trans k6)
              ((hk "$regex").trans k7) ((hk "$code").trans k8)
              ((hk "$timestamp").trans k9) ((hk "$minKey").trans k10)
              ((hk "$maxKey").trans k11)]
            rw [serializeFields_rt fields (d + 1) fs g hwff hres]
            rfl
    | vtext t =>
        dsimp only at hser
        cases hser
        obtain ⟨p1, p2, p3, p4, p5, p6, p7, p8⟩ := wfRT_text_parts t hwf
        rw [show Text.serialize t = vobj [("xText", vobj (Text.serializeInner t))] from rfl]
        rw [deserialize_vobj, if_neg hd, if_pos (by simp [hasKeyB, lookupField])]
        rw [show (vobj [("xText", vobj (Text.serializeInner t))]) = Text.serialize t from rfl]
        rw [text_roundtrip t p1 p2 p3 p4 p5 p6 p7 p8]
        rfl
    | vimage i =>
        dsimp only at hser
        cases hser
        obtain ⟨p1, p2, p3, p4, p5, p6, p7, p8, p9, p10⟩ := wfRT_image_parts i hwf
        rw [show Image.serialize i = vobj [("xImage", vobj (Image.serializeInner i))] from rfl]
        rw [deserialize_vobj, if_neg hd, if_neg (by simp [hasKeyB, lookupField]),
          if_pos (by simp [hasKeyB, lookupField])]
        rw [show (vobj [("xImage", vobj (Image.serializeInner i))]) = Image.serialize i from rfl]
        rw [image_roundtrip i fs p1 p2 p3 p4 p5 p6 p7 p8 p9 p10]
        rfl
    | voidc hex =>
        dsimp only at hser
        cases hser
        have hp : hex.length = 24 ∧ hex.toList.all isLowerHex = true := by
          simpa [wfRT, Bool.and_eq_true, decide_eq_true_eq] using hwf
        exact deser_oid hex d fs hd hp.1 hp.2
    | vdate iso => dsimp only at hser; cases hser; exact deser_date iso d fs hd
    | vdecimal s => dsimp only at hser; cases hser; exact deser_decimal s d fs hd
    | vbinary bytes =>
        dsimp only at hser
        cases hser
        exact deser_binary bytes d fs hd (by simpa [wfRT] using hwf)
    | vregexp source flags =>
        dsimp only at hser
        cases hser
        exact deser_regexp source flags d fs hd (by simpa [wfRT] using hwf)
    | vcode code => dsimp only at hser; cases hser; exact deser_code code d fs hd
    | vtimestamp low high => simp [wfRT] at hwf
    | vminkey => dsimp only at hser; cases hser; exact deser_minkey d fs hd
    | vmaxkey => dsimp only at hser; cases hser; exact deser_maxkey d fs hd
    | vexotic ty => simp [wfRT] at hwf

/-- List version of the walker round trip. -/
theorem serializeList_rt (xs : List Value) (d : Nat) (fs : FS) (ws : List Value)
    (hwf : wfRTList xs = true) (hser : Collection.serializeList xs d = .ok ws) :
    Collection.deserializeList ws d fs = .ok xs := by
  cases xs with
  | nil =>
      rw [Collection.serializeList] at hser
      cases hser
      rfl
  | cons x rest =>
      have hw1 : wfRT x = true := by
        simp only [wfRTList, Bool.and_eq_true] at hwf
        exact hwf.1
      have hw2 : wfRTList rest = true := by
        simp only [wfRTList, Bool.and_eq_true] at hwf
        exact hwf.2
      rw [Collection.serializeList] at hser
      cases hres : Collection.serialize x d with
      | error e => rw [hres] at hser; simp at hser
      | ok y =>
          rw [hres] at hser
          cases hres2 : Collection.serializeList rest d with
          | error e2 => rw [hres2] at hser; simp at hser
          | ok ys =>
              rw [hres2] at hser
              simp only [ebind_ok, epure] at hser
              cases hser
              rw [Collection.deserializeList]
              rw [serialize_rt x d fs y hw1 hres, serializeList_rt rest d fs ys hw2 hres2]
              rfl

/-- Entry-list version of the walker round trip. -/
theorem serializeFields_rt (fields : List (String × Value)) (d : Nat) (fs : FS)
    (g : List (String × Value)) (hwf : wfRTFields fields = true)
    (hser : Collection.serializeFields fields d = .ok g) :
    Collection.deserializeFields g d fs = .ok fields := by
  cases fields with
  | nil =>
      rw [Collection.serializeFields] at hser
      cases hser
      rfl
  | cons kv rest =>
      obtain ⟨k, x⟩ := kv
      have hw1 : wfRT x = true := by
        simp only [wfRTFields, Bool.and_eq_true] at hwf
        exact hwf.1
      have hw2 : wfRTFields rest = true := by
        simp only [wfRTFields, Bool.and_eq_true] at hwf
        exact hwf.2
      rw [Collection.serializeFields] at hser
      cases hres : Collection.serialize x d with
      | error e => rw [hres] at hser; simp at hser
      | ok y =>
          rw [hres] at hser
          cases hres2 : Collection.serializeFields rest d with
          | error e2 => rw [hres2] at hser; simp at hser
          | ok ys =>
              rw [hres2] at hser
              simp only [ebind_ok, epure] at hser
              cases hser
              rw [Collection.deserializeFields]
              rw [serialize_rt x d fs y hw1 hres, serializeFields_rt rest d fs ys hw2 hres2]
              rfl

end

/-! ## C1 — round-trip claim -/

/-- A document holding an `Image` with a binary (`Uint8Array`) payload. -/
def c1doc : Value :=
  vobj [("photo", vimage (Image.freshState (.uint8Array [1, 2, 3]) "image/png"))]

/-- Its wire tree: the payload bytes are dropped, and no `data` key remains. -/
def c1wire : Value :=
  vobj [("photo", vobj [("xImage", vobj [("mime_type", vstr "image/png"),
    ("index", vbool false), ("chunks", varr [])])])]

/-- C1, counterexample: a document holding an `Image` built from binary bytes
(a supported leaf type) serializes fine, but deserializing the produced wire
tree throws: `Image._deserialize` re-runs the constructor on
`data["data"] || ""`, and the empty string fails validation.  So
`deserialize(serialize(d))` is not `d` — it is an error. -/
theorem c1_round_trip_fails_on_binary_image :
    Collection.serialize c1doc 0 = .ok c1wire ∧
    Collection.deserialize c1wire 0 fsNone = .error (.jsError
      ("Invalid data: must be a non-empty string containing valid "
        ++ "base64-encoded image data, HTTP URL, or valid file path.")) :=
  ⟨rfl, rfl⟩

/-- C1 (amended): for every document built from supported leaf types that
satisfies the constructor-established invariants (`wfRT`: valid text,
string-payload images as the constructor stores them, canonical BSON leaves,
no `Timestamp` leaves, no reserved marker key on plain maps), a successful
`serialize` is inverted exactly by `deserialize` — the index flag and every
optional config field are preserved exactly. -/
theorem c1_amended_round_trip (v : Value) (d : Nat) (fs : FS) (w : Value)
    (hwf : wfRT v = true) (hser : Collection.serialize v d = .ok w) :
    Collection.deserialize w d fs = .ok v :=
  serialize_rt v d fs w hwf hser

/-- A concrete well-formed document exercising text, image, BSON scalars,
arrays and nested plain maps. -/
def c1wit : Value :=
  vobj [("a", vnum 1), ("t", vtext textHi),
        ("img", vimage (Image.freshState (.str "aGVsbG8=") "image/png")),
        ("id", voidc "0123456789abcdef01234567"),
        ("bin", vbinary [0, 255, 16]),
        ("arr", varr [vnull, vstr "x", vobj [("k", vbool true)]]),
        ("re", vregexp "a+" "gi"),
        ("d", vdate "2024-01-01T00:00:00.000Z")]

/-- The wire tree `serialize` produces for it. -/
def c1witWire : Value :=
  vobj [("a", vnum 1),
        ("t", vobj [("xText", vobj [("text", vstr "hi"), ("chunks", varr []),
          ("index", vbool false)])]),
        ("img", vobj [("xImage", vobj [("mime_type", vstr "image/png"),
          ("index", vbool false), ("chunks", varr []), ("data", vstr "aGVsbG8=")])]),
        ("id", vobj [("$oid", vstr "0123456789abcdef01234567")]),
        ("bin", vobj [("$binary", vstr "00ff10")]),
        ("arr", varr [vnull, vstr "x", vobj [("k", vbool true)]]),
        ("re", vobj [("$regex", vstr "a+"), ("$options", vstr "gi")]),
        ("d", vobj [("$date", vstr "2024-01-01T00:00:00.000Z")])]

/-- C1 witness: the amended round trip at a concrete document. -/
theorem c1_round_trip_witness :
    wfRT c1wit = true ∧ Collection.serialize c1wit 0 = .ok c1witWire ∧
      Collection.deserialize c1witWire 0 fsNone = .ok c1wit :=
  ⟨rfl, rfl, c1_amended_round_trip c1wit 0 fsNone c1witWire rfl rfl⟩

/-! ## C2 — binary exclusion and extraction paths -/

/-- Serialization of a plain object maps each first-match entry pointwise. -/
theorem serializeFields_lookup (fields : List (String × Value)) (d : Nat)
    (g : List (String × Value)) (hser : Collection.serializeFields fields d = .ok g)
    (k : String) (x : Value) (hx : lookupField fields k = some x) :
    ∃ y, lookupField g k = some y ∧ Collection.serialize x d = .ok y := by
  induction fields generalizing g with
  | nil => simp [lookupField] at hx
  | cons kv rest ih =>
      obtain ⟨k1, x1⟩ := kv
      rw [Collection.serializeFields] at hser
      cases hres : Collection.serialize x1 d with
      | error e => rw [hres] at hser; simp at hser
      | ok y1 =>
          rw [hres] at hser
          cases hres2 : Collection.serializeFields rest d with
          | error e2 => rw [hres2] at hser; simp at hser
          | ok ys =>
              rw [hres2] at hser
              simp only [ebind_ok, epure] at hser
              cases hser
              rw [lookupField] at hx
              by_cases hk : k1 = k
              · rw [if_pos hk] at hx
                cases hx
                exact ⟨y1, by rw [lookupField, if_pos hk], hres⟩
              · rw [if_neg hk] at hx
                obtain ⟨y, hy1, hy2⟩ := ih ys hres2 hx
                exact ⟨y, by rw [lookupField, if_neg hk]; exact hy1, hy2⟩

/-- Serialization of an array maps elements pointwise. -/
theorem serializeList_get (xs : List Value) (d : Nat) (ys : List Value)
    (hser : Collection.serializeList xs d = .ok ys)
    (n : Nat) (x : Value) (hx : xs[n]? = some x) :
    ∃ y, ys[n]? = some y ∧ Collection.serialize x d = .ok y := by
  induction xs generalizing ys n with
  | nil => simp at hx
  | cons x1 rest ih =>
      rw [Collection.serializeList] at hser
      cases hres : Collection.serialize x1 d with
      | error e => rw [hres] at hser; simp at hser
      | ok y1 =>
          rw [hres] at hser
          cases hres2 : Collection.serializeList rest d with
          | error e2 => rw [hres2] at hser; simp at hser
          | ok ys1 =>
              rw [hres2] at hser
              simp only [ebind_ok, epure] at hser
              cases hser
              cases n with
              | zero =>
                  simp at hx
                  cases hx
                  exact ⟨y1, by simp, hres⟩
              | succ m =>
                  simp at hx
                  obtain ⟨y, hy1, hy2⟩ := ih ys1 hres2 m hx
                  exact ⟨y, by simpa using hy1, hy2⟩

/-- `getAt` along `[]` is the value itself. -/
theorem getAt_nil (v : Value) : getAt v [] = some v := by
  cases v <;> rfl

/-- Inversion of `getAt` along an object-key step. -/
theorem getAt_key_inv (v : Value) (k : String) (rest : List Step) (u : Value)
    (h : getAt v (.key k :: rest) = some u) :
    ∃ fields x, v = vobj fields ∧ lookupField fields k = some x ∧ getAt x rest = some u := by
  cases v with
  | vobj fields =>
      rw [getAt] at h
      cases hlk : lookupField fields k with
      | none => rw [hlk] at h; simp at h
      | some x =>
          rw [hlk] at h
          exact ⟨fields, x, rfl, hlk, h⟩
  | varr xs =>
      exact absurd h (by rw [show getAt (varr xs) (Step.key k :: rest) = none from rfl]; simp)
  | vnull =>
      exact absurd h (by rw [show getAt vnull (Step.key k :: rest) = none from rfl]; simp)
  | vundefined =>
      exact absurd h (by rw [show getAt vundefined (Step.key k :: rest) = none from rfl]; simp)
  | vbool b =>
      exact absurd h (by rw [show getAt (vbool b) (Step.key k :: rest) = none from rfl]; simp)
  | vnum n =>
      exact absurd h (by rw [show getAt (vnum n) (Step.key k :: rest) = none from rfl]; simp)
  | vstr s =>
      exact absurd h (by rw [show getAt (vstr s) (Step.key k :: rest) = none from rfl]; simp)
  | vtext t =>
      exact absurd h (by rw [show getAt (vtext t) (Step.key k :: rest) = none from rfl]; simp)
  | vimage i =>
      exact absurd h (by rw [show getAt (vimage i) (Step.key k :: rest) = none from rfl]; simp)
  | voidc hex =>
      exact absurd h (by rw [show getAt (voidc hex) (Step.key k :: rest) = none from rfl]; simp)
  | vdate iso =>
      exact absurd h (by rw [show getAt (vdate iso) (Step.key k :: rest) = none from rfl]; simp)
  | vdecimal s =>
      exact absurd h (by rw [show getAt (vdecimal s) (Step.key k :: rest) = none from rfl]; simp)
  | vbinary bytes =>
      exact absurd h (by rw [show getAt (vbinary bytes) (Step.key k :: rest) = none from rfl]; simp)
  | vregexp source flags =>
      exact absurd h (by rw [show getAt (vregexp source flags) (Step.key k :: rest) = none from rfl]; simp)
  | vcode code =>
      exact absurd h (by rw [show getAt (vcode code) (Step.key k :: rest) = none from rfl]; simp)
  | vtimestamp low high =>
      exact absurd h (by rw [show getAt (vtimestamp low high) (Step.key k :: rest) = none from rfl]; simp)
  | vminkey =>
      exact absurd h (by rw [show getAt vminkey (Step.key k :: rest) = none from rfl]; simp)
  | vmaxkey =>
      exact absurd h (by rw [show getAt vmaxkey (Step.key k :: rest) = none from rfl]; simp)
  | vexotic ty =>
      exact absurd h (by rw [show getAt (vexotic ty) (Step.key k :: rest) = none from rfl]; simp)

/-- Inversion of `getAt` along an array-index step. -/
theorem getAt_idx_inv (v : Value) (n : Nat) (rest : List Step) (u : Value)
    (h : getAt v (.idx n :: rest) = some u) :
    ∃ xs x, v = varr xs ∧ xs[n]? = some x ∧ getAt x rest = some u := by
  cases v with
  | varr xs =>
      rw [getAt] at h
      cases hlk : xs[n]? with
      | none => rw [hlk] at h; simp at h
      | some x =>
          rw [hlk] at h
          exact ⟨xs, x, rfl, hlk, h⟩
  | vobj fields =>
      exact absurd h (by rw [show getAt (vobj fields) (Step.idx n :: rest) = none from rfl]; simp)
  | vnull =>
      exact absurd h (by rw [show getAt vnull (Step.idx n :: rest) = none from rfl]; simp)
  | vundefined =>
      exact absurd h (by rw [show getAt vundefined (Step.idx n :: rest) = none from rfl]; simp)
  | vbool b =>
      exact absurd h (by rw [show getAt (vbool b) (Step.idx n :: rest) = none from rfl]; simp)
  | vnum m =>
      exact absurd h (by rw [show getAt (vnum m) (Step.idx n :: rest) = none from rfl]; simp)
  | vstr s =>
      exact absurd h (by rw [show getAt (vstr s) (Step.idx n :: rest) = none from rfl]; simp)
  | vtext t =>
      exact absurd h (by rw [show getAt (vtext t) (Step.idx n :: rest) = none from rfl]; simp)
  | vimage i =>
      exact absurd h (by rw [show getAt (vimage i) (Step.idx n :: rest) = none from rfl]; simp)
  | voidc hex =>
      exact absurd h (by rw [show getAt (voidc hex) (Step.idx n :: rest) = none from rfl]; simp)
  | vdate iso =>
      exact absurd h (by rw [show getAt (vdate iso) (Step.idx n :: rest) = none from rfl]; simp)
  | vdecimal s =>
      exact absurd h (by rw [show getAt (vdecimal s) (Step.idx n :: rest) = none from rfl]; simp)
  | vbinary bytes =>
      exact absurd h (by rw [show getAt (vbinary bytes) (Step.idx n :: rest) = none from rfl]; simp)
  | vregexp source flags =>
      exact absurd h (by rw [show getAt (vregexp source flags) (Step.idx n :: rest) = none from rfl]; simp)
  | vcode code =>
      exact absurd h (by rw [show getAt (vcode code) (Step.idx n :: rest) = none from rfl]; simp)
  | vtimestamp low high =>
      exact absurd h (by rw [show getAt (vtimestamp low high) (Step.idx n :: rest) = none from rfl]; simp)
  | vminkey =>
      exact absurd h (by rw [show getAt vminkey (Step.idx n :: rest) = none from rfl]; simp)
  | vmaxkey =>
      exact absurd h (by rw [show getAt vmaxkey (Step.idx n :: rest) = none from rfl]; simp)
  | vexotic ty =>
      exact absurd h (by rw [show getAt (vexotic ty) (Step.idx n :: rest) = none from rfl]; simp)

/-- A successful serialization maps the value found at any object-key /
array-index path to its own serialization at the path depth. -/
theorem serialize_getAt (p : List Step) (v : Value) (d : Nat) (w : Value)
    (hser : Collection.serialize v d = .ok w) (u : Value)
    (hat : getAt v p = some u) :
    ∃ du wu, getAt w p = some wu ∧ Collection.serialize u du = .ok wu := by
  induction p generalizing v d w with
  | nil =>
      rw [getAt_nil] at hat
      cases hat
      exact ⟨d, w, getAt_nil w, hser⟩
  | cons st rest ih =>
      cases st with
      | key k =>
          obtain ⟨fields, x, rfl, hlk, hx⟩ := getAt_key_inv v k rest u hat
          rw [Collection.serialize.eq_def] at hser
          by_cases hd : d > 100
          · rw [if_pos hd] at hser; simp at hser
          · rw [if_neg hd] at hser
            dsimp only at hser
            cases hres : Collection.serializeFields fields (d + 1) with
            | error e => rw [hres] at hser; simp at hser
            | ok g =>
                rw [hres] at hser
                simp only [ebind_ok, epure] at hser
                cases hser
                obtain ⟨y, hy1, hy2⟩ := serializeFields_lookup fields (d + 1) g hres k x hlk
                obtain ⟨du, wu, hw1, hw2⟩ := ih x (d + 1) y hy2 hx
                exact ⟨du, wu, by rw [getAt, hy1]; exact hw1, hw2⟩
      | idx n =>
          obtain ⟨xs, x, rfl, hlk, hx⟩ := getAt_idx_inv v n rest u hat
          rw [Collection.serialize.eq_def] at hser
          by_cases hd : d > 100
          · rw [if_pos hd] at hser; simp at hser
          · rw [if_neg hd] at hser
            dsimp only at hser
            cases hres : Collection.serializeList xs (d + 1) with
            | error e => rw [hres] at hser; simp at hser
            | ok ys =>
                rw [hres] at hser
                simp only [ebind_ok, epure] at hser
                cases hser
                obtain ⟨y, hy1, hy2⟩ := serializeList_get xs (d + 1) ys hres n x hlk
                obtain ⟨du, wu, hw1, hw2⟩ := ih x (d + 1) y hy2 hx
                exact ⟨du, wu, by rw [getAt, hy1]; exact hw1, hw2⟩

/-! Key-set facts about the extractor's side table. -/

/-- `files[k] = b` makes `k` a key. -/
theorem mem_keys_objSet_self (files : List (String × Blobby)) (k : String) (b : Blobby) :
    k ∈ (Collection.objSet files k b).map Prod.fst := by
  induction files with
  | nil => simp [Collection.objSet]
  | cons kv rest ih =>
      obtain ⟨k1, b1⟩ := kv
      rw [Collection.objSet]
      by_cases hk : k1 = k
      · rw [if_pos hk]
        simp [hk]
      · rw [if_neg hk]
        simpa using Or.inr ih

/-- `files[k] = b` keeps every existing key. -/
theorem mem_keys_objSet_mono (files : List (String × Blobby)) (k : String) (b : Blobby)
    (k0 : String) (h : k0 ∈ files.map Prod.fst) :
    k0 ∈ (Collection.objSet files k b).map Prod.fst := by
  induction files with
  | nil => simp at h
  | cons kv rest ih =>
      obtain ⟨k1, b1⟩ := kv
      rw [Collection.objSet]
      simp only [List.map_cons, List.mem_cons] at h
      by_cases hk : k1 = k
      · rw [if_pos hk]
        simpa using h
      · rw [if_neg hk]
        rcases h with rfl | h
        · simp
        · simpa using Or.inr (ih h)

/-- `files[k] = b` adds no key beyond `k`. -/
theorem mem_keys_objSet_inv (files : List (String × Blobby)) (k : String) (b : Blobby)
    (k0 : String) (h : k0 ∈ (Collection.objSet files k b).map Prod.fst) :
    k0 = k ∨ k0 ∈ files.map Prod.fst := by
  induction files with
  | nil => simpa [Collection.objSet] using h
  | cons kv rest ih =>
      obtain ⟨k1, b1⟩ := kv
      rw [Collection.objSet] at h
      by_cases hk : k1 = k
      · rw [if_pos hk] at h
        simp only [List.map_cons, List.mem_cons] at h
        rcases h with rfl | h
        · simp [hk]
        · simp [h]
      · rw [if_neg hk] at h
        simp only [List.map_cons, List.mem_cons] at h
        rcases h with rfl | h
        · simp
        · rcases ih h with rfl | h2
          · simp
          · simp [h2]

/-- `files[k] = b` preserves key uniqueness. -/
theorem nodup_keys_objSet (files : List (String × Blobby)) (k : String) (b : Blobby)
    (h : (files.map Prod.fst).Nodup) :
    ((Collection.objSet files k b).map Prod.fst).Nodup := by
  induction files with
  | nil => simp [Collection.objSet]
  | cons kv rest ih =>
      obtain ⟨k1, b1⟩ := kv
      simp only [List.map_cons, List.nodup_cons] at h
      rw [Collection.objSet]
      by_cases hk : k1 = k
      · rw [if_pos hk]
        simp only [List.map_cons, List.nodup_cons]
        exact h
      · rw [if_neg hk]
        simp only [List.map_cons, List.nodup_cons]
        refine ⟨fun hmem => ?_, ih h.2⟩
        rcases mem_keys_objSet_inv rest k b k1 hmem with rfl | h2
        · exact hk rfl
        · exact h.1 h2

mutual

/-- The extractor never removes a key. -/
theorem extract_keys_mono (v : Value) (docIndex : Nat) (path : String)
    (files : List (String × Blobby)) (k0 : String) (h : k0 ∈ files.map Prod.fst) :
    k0 ∈ (Collection.extractFromValue v docIndex path files).map Prod.fst := by
  cases v with
  | vimage i =>
      obtain ⟨da, mt, ch, em, vm, mcs, co, isr, sep, ks, idx⟩ := i
      cases da with
      | str s =>
          by_cases hh : startsWithB s "http" = true
          · simpa [Collection.extractFromValue, Image.hasBinaryData,
              Image.getBinaryData, hh] using h
          · simp only [Collection.extractFromValue, Image.hasBinaryData, hh,
              Bool.false_eq_true, if_false]
            repeat
              first
              | exact h
              | apply extract_keys_mono
      | file name ty bys =>
          simp only [Collection.extractFromValue, Image.hasBinaryData,
            Image.getBinaryData, Collection.toBlob, if_true]
          exact mem_keys_objSet_mono _ _ _ _ h
      | blob ty bys =>
          simp only [Collection.extractFromValue, Image.hasBinaryData,
            Image.getBinaryData, Collection.toBlob, if_true]
          exact mem_keys_objSet_mono _ _ _ _ h
      | arrayBuffer bys =>
          simp only [Collection.extractFromValue, Image.hasBinaryData,
            Image.getBinaryData, Collection.toBlob, if_true]
          exact mem_keys_objSet_mono _ _ _ _ h
      | uint8Array bys =>
          simp only [Collection.extractFromValue, Image.hasBinaryData,
            Image.getBinaryData, Collection.toBlob, if_true]
          exact mem_keys_objSet_mono _ _ _ _ h
  | vtext t =>
      obtain ⟨tx, ch, em, mcs, co, isr, sep, ks, idx⟩ := t
      simp only [Collection.extractFromValue]
      repeat
        first
        | exact h
        | apply extract_keys_mono
  | varr xs =>
      simp only [Collection.extractFromValue]
      exact extractList_keys_mono xs 0 docIndex path files k0 h
  | vobj fields =>
      simp only [Collection.extractFromValue]
      exact extractFields_keys_mono fields docIndex path files k0 h
  | vnull => simpa [Collection.extractFromValue] using h
  | vundefined => simpa [Collection.extractFromValue] using h
  | vbool b => simpa [Collection.extractFromValue] using h
  | vnum n => simpa [Collection.extractFromValue] using h
  | vstr s => simpa [Collection.extractFromValue] using h
  | voidc hex => simpa [Collection.extractFromValue] using h
  | vdate iso => simpa [Collection.extractFromValue] using h
  | vdecimal s => simpa [Collection.extractFromValue] using h
  | vbinary bytes => simpa [Collection.extractFromValue] using h
  | vregexp source flags => simpa [Collection.extractFromValue] using h
  | vcode code => simpa [Collection.extractFromValue] using h
  | vtimestamp low high => simpa [Collection.extractFromValue] using h
  | vminkey => simpa [Collection.extractFromValue] using h
  | vmaxkey => simpa [Collection.extractFromValue] using h
  | vexotic ty => simpa [Collection.extractFromValue] using h

/-- List version. -/
theorem extractList_keys_mono (xs : List Value) (n : Nat) (docIndex : Nat) (path : String)
    (files : List (String × Blobby)) (k0 : String) (h : k0 ∈ files.map Prod.fst) :
    k0 ∈ (Collection.extractFromList xs n docIndex path files).map Prod.fst := by
  cases xs with
  | nil => simpa [Collection.extractFromList] using h
  | cons x rest =>
      rw [Collection.extractFromList]
      exact extractList_keys_mono rest (n + 1) docIndex path _ k0
        (extract_keys_mono x docIndex _ files k0 h)

/-- Entry-list version. -/
theorem extractFields_keys_mono (fields : List (String × Value)) (docIndex : Nat)
    (path : String) (files : List (String × Blobby)) (k0 : String)
    (h : k0 ∈ files.map Prod.fst) :
    k0 ∈ (Collection.extractFromFields fields docIndex path files).map Prod.fst := by
  cases fields with
  | nil => simpa [Collection.extractFromFields] using h
  | cons kv rest =>
      obtain ⟨k, x⟩ := kv
      rw [Collection.extractFromFields]
      exact extractFields_keys_mono rest docIndex path _ k0
        (extract_keys_mono x docIndex _ files k0 h)

end

mutual

/-- The extractor preserves key uniqueness. -/
theorem extract_keys_nodup (v : Value) (docIndex : Nat) (path : String)
    (files : List (String × Blobby)) (h : (files.map Prod.fst).Nodup) :
    ((Collection.extractFromValue v docIndex path files).map Prod.fst).Nodup := by
  cases v with
  | vimage i =>
      obtain ⟨da, mt, ch, em, vm, mcs, co, isr, sep, ks, idx⟩ := i
      cases da with
      | str s =>
          by_cases hh : startsWithB s "http" = true
          · simpa [Collection.extractFromValue, Image.hasBinaryData,
              Image.getBinaryData, hh] using h
          · simp only [Collection.extractFromValue, Image.hasBinaryData, hh,
              Bool.false_eq_true, if_false]
            repeat
              first
              | exact h
              | apply extract_keys_nodup
      | file name ty bys =>
          simp only [Collection.extractFromValue, Image.hasBinaryData,
            Image.getBinaryData, Collection.toBlob, if_true]
          exact nodup_keys_objSet _ _ _ h
      | blob ty bys =>
          simp only [Collection.extractFromValue, Image.hasBinaryData,
            Image.getBinaryData, Collection.toBlob, if_true]
          exact nodup_keys_objSet _ _ _ h
      | arrayBuffer bys =>
          simp only [Collection.extractFromValue, Image.hasBinaryData,
            Image.getBinaryData, Collection.toBlob, if_true]
          exact nodup_keys_objSet _ _ _ h
      | uint8Array bys =>
          simp only [Collection.extractFromValue, Image.hasBinaryData,
            Image.getBinaryData, Collection.toBlob, if_true]
          exact nodup_keys_objSet _ _ _ h
  | vtext t =>
      obtain ⟨tx, ch, em, mcs, co, isr, sep, ks, idx⟩ := t
      simp only [Collection.extractFromValue]
      repeat
        first
        | exact h
        | apply extract_keys_nodup
  | varr xs =>
      simp only [Collection.extractFromValue]
      exact extractList_keys_nodup xs 0 docIndex path files h
  | vobj fields =>
      simp only [Collection.extractFromValue]
      exact extractFields_keys_nodup fields docIndex path files h
  | vnull => simpa [Collection.extractFromValue] using h
  | vundefined => simpa [Collection.extractFromValue] using h
  | vbool b => simpa [Collection.extractFromValue] using h
  | vnum n => simpa [Collection.extractFromValue] using h
  | vstr s => simpa [Collection.extractFromValue] using h
  | voidc hex => simpa [Collection.extractFromValue] using h
  | vdate iso => simpa [Collection.extractFromValue] using h
  | vdecimal s => simpa [Collection.extractFromValue] using h
  | vbinary bytes => simpa [Collection.extractFromValue] using h
  | vregexp source flags => simpa [Collection.extractFromValue] using h
  | vcode code => simpa [Collection.extractFromValue] using h
  | vtimestamp low high => simpa [Collection.extractFromValue] using h
  | vminkey => simpa [Collection.extractFromValue] using h
  | vmaxkey => simpa [Collection.extractFromValue] using h
  | vexotic ty => simpa [Collection.extractFromValue] using h

/-- List version. -/
theorem extractList_keys_nodup (xs : List Value) (n : Nat) (docIndex : Nat) (path : String)
    (files : List (String × Blobby)) (h : (files.map Prod.fst).Nodup) :
    ((Collection.extractFromList xs n docIndex path files).map Prod.fst).Nodup := by
  cases xs with
  | nil => simpa [Collection.extractFromList] using h
  | cons x rest =>
      rw [Collection.extractFromList]
      exact extractList_keys_nodup rest (n + 1) docIndex path _
        (extract_keys_nodup x docIndex _ files h)

/-- Entry-list version. -/
theorem extractFields_keys_nodup (fields : List (String × Value)) (docIndex : Nat)
    (path : String) (files : List (String × Blobby)) (h : (files.map Prod.fst).Nodup) :
    ((Collection.extractFromFields fields docIndex path files).map Prod.fst).Nodup := by
  cases fields with
  | nil => simpa [Collection.extractFromFields] using h
  | cons kv rest =>
      obtain ⟨k, x⟩ := kv
      rw [Collection.extractFromFields]
      exact extractFields_keys_nodup rest docIndex path _
        (extract_keys_nodup x docIndex _ files h)

end

mutual

/-- Every binary-payload image field reachable by an object-key / array-index
path contributes its dotted key to the extractor's side table. -/
theorem extract_presence (v : Value) (docIndex : Nat) (path : String)
    (files : List (String × Blobby)) (p : List Step) (img : ImageStateV)
    (hat : getAt v p = some (vimage img)) (bd : ImageData)
    (hbd : Image.getBinaryData img = some bd) :
    leafKey docIndex (extendPath path p) ∈
      (Collection.extractFromValue v docIndex path files).map Prod.fst := by
  cases v with
  | vimage i =>
      cases p with
      | nil =>
          rw [getAt_nil] at hat
          simp only [Option.some.injEq, Value.vimage.injEq] at hat
          subst hat
          obtain ⟨da, mt, ch, em, vm, mcs, co, isr, sep, ks, idx⟩ := i
          cases da with
          | str s => simp [Image.getBinaryData] at hbd
          | file name ty bys =>
              simp only [Collection.extractFromValue, Image.hasBinaryData,
                Image.getBinaryData, Collection.toBlob, if_true]
              simpa [leafKey, extendPath] using mem_keys_objSet_self files _ _
          | blob ty bys =>
              simp only [Collection.extractFromValue, Image.hasBinaryData,
                Image.getBinaryData, Collection.toBlob, if_true]
              simpa [leafKey, extendPath] using mem_keys_objSet_self files _ _
          | arrayBuffer bys =>
              simp only [Collection.extractFromValue, Image.hasBinaryData,
                Image.getBinaryData, Collection.toBlob, if_true]
              simpa [leafKey, extendPath] using mem_keys_objSet_self files _ _
          | uint8Array bys =>
              simp only [Collection.extractFromValue, Image.hasBinaryData,
                Image.getBinaryData, Collection.toBlob, if_true]
              simpa [leafKey, extendPath] using mem_keys_objSet_self files _ _
      | cons st rest =>
          cases st with
          | key k =>
              exact absurd hat
                (by rw [show getAt (vimage i) (Step.key k :: rest) = none from rfl]; simp)
          | idx n =>
              exact absurd hat
                (by rw [show getAt (vimage i) (Step.idx n :: rest) = none from rfl]; simp)
  | varr xs =>
      cases p with
      | nil => rw [getAt_nil] at hat; simp at hat
      | cons st rest =>
          cases st with
          | key k =>
              exact absurd hat
                (by rw [show getAt (varr xs) (Step.key k :: rest) = none from rfl]; simp)
          | idx n =>
              rw [getAt] at hat
              cases hlk : xs[n]? with
              | none => rw [hlk] at hat; simp at hat
              | some x =>
                  rw [hlk] at hat
                  simp only [Collection.extractFromValue]
                  have := extractList_presence xs 0 docIndex path files n x hlk rest img hat bd hbd
                  simpa [extendPath, Collection.extPath, stepStr] using this
  | vobj fields =>
      cases p with
      | nil => rw [getAt_nil] at hat; simp at hat
      | cons st rest =>
          cases st with
          | idx n =>
              exact absurd hat
                (by rw [show getAt (vobj fields) (Step.idx n :: rest) = none from rfl]; simp)
          | key k =>
              rw [getAt] at hat
              cases hlk : lookupField fields k with
              | none => rw [hlk] at hat; simp at hat
              | some x =>
                  rw [hlk] at hat
                  simp only [Collection.extractFromValue]
                  have := extractFields_presence fields docIndex path files k x hlk rest img hat bd hbd
                  simpa [extendPath, Collection.extPath, stepStr] using this
  | vnull =>
      cases p with
      | nil => rw [getAt_nil] at hat; simp at hat
      | cons st rest =>
          cases st with
          | key k =>
              exact absurd hat
                (by rw [show getAt vnull (Step.key k :: rest) = none from rfl]; simp)
          | idx n =>
              exact absurd hat
                (by rw [show getAt vnull (Step.idx n :: rest) = none from rfl]; simp)
  | vundefined =>
      cases p with
      | nil => rw [getAt_nil] at hat; simp at hat
      | cons st rest =>
          cases st with
          | key k =>
              exact absurd hat
                (by rw [show getAt vundefined (Step.key k :: rest) = none from rfl]; simp)
          | idx n =>
              exact absurd hat
                (by rw [show getAt vundefined (Step.idx n :: rest) = none from rfl]; simp)
  | vbool b =>
      cases p with
      | nil => rw [getAt_nil] at hat; simp at hat
      | cons st rest =>
          cases st with
          | key k =>
              exact absurd hat
                (by rw [show getAt (vbool b) (Step.key k :: rest) = none from rfl]; simp)
          | idx n =>
              exact absurd hat
                (by rw [show getAt (vbool b) (Step.idx n :: rest) = none from rfl]; simp)
  | vnum m =>
      cases p with
      | nil => rw [getAt_nil] at hat; simp at hat
      | cons st rest =>
          cases st with
          | key k =>
              exact absurd hat
                (by rw [show getAt (vnum m) (Step.key k :: rest) = none from rfl]; simp)
          | idx n =>
              exact absurd hat
                (by rw [show getAt (vnum m) (Step.idx n :: rest) = none from rfl]; simp)
  | vstr s =>
      cases p with
      | nil => rw [getAt_nil] at hat; simp at hat
      | cons st rest =>
          cases st with
          | key k =>
              exact absurd hat
                (by rw [show getAt (vstr s) (Step.key k :: rest) = none from rfl]; simp)
          | idx n =>
              exact absurd hat
                (by rw [show getAt (vstr s) (Step.idx n :: rest) = none from rfl]; simp)
  | vtext t =>
      cases p with
      | nil => rw [getAt_nil] at hat; simp at hat
      | cons st rest =>
          cases st with
          | key k =>
              exact absurd hat
                (by rw [show getAt (vtext t) (Step.key k :: rest) = none from rfl]; simp)
          | idx n =>
              exact absurd hat
                (by rw [show getAt (vtext t) (Step.idx n :: rest) = none from rfl]; simp)
  | voidc hex =>
      cases p with
      | nil => rw [getAt_nil] at hat; simp at hat
      | cons st rest =>
          cases st with
          | key k =>
              exact absurd hat
                (by rw [show getAt (voidc hex) (Step.key k :: rest) = none from rfl]; simp)
          | idx n =>
              exact absurd hat
                (by rw [show getAt (voidc hex) (Step.idx n :: rest) = none from rfl]; simp)
  | vdate iso =>
      cases p with
      | nil => rw [getAt_nil] at hat; simp at hat
      | cons st rest =>
          cases st with
          | key k =>
              exact absurd hat
                (by rw [show getAt (vdate iso) (Step.key k :: rest) = none from rfl]; simp)
          | idx n =>
              exact absurd hat
                (by rw [show getAt (vdate iso) (Step.idx n :: rest) = none from rfl]; simp)
  | vdecimal s =>
      cases p with
      | nil => rw [getAt_nil] at hat; simp at hat
      | cons st rest =>
          cases st with
          | key k =>
              exact absurd hat
                (by rw [show getAt (vdecimal s) (Step.key k :: rest) = none from rfl]; simp)
          | idx n =>
              exact absurd hat
                (by rw [show getAt (vdecimal s) (Step.idx n :: rest) = none from rfl]; simp)
  | vbinary bytes =>
      cases p with
      | nil => rw [getAt_nil] at hat; simp at hat
      | cons st rest =>
          cases st with
          | key k =>
              exact absurd hat
                (by rw [show getAt (vbinary bytes) (Step.key k :: rest) = none from rfl]; simp)
          | idx n =>
              exact absurd hat
                (by rw [show getAt (vbinary bytes) (Step.idx n :: rest) = none from rfl]; simp)
  | vregexp source flags =>
      cases p with
      | nil => rw [getAt_nil] at hat; simp at hat
      | cons st rest =>
          cases st with
          | key k =>
              exact absurd hat
                (by rw [show getAt (vregexp source flags) (Step.key k :: rest) = none from rfl]; simp)
          | idx n =>
              exact absurd hat
                (by rw [show getAt (vregexp source flags) (Step.idx n :: rest) = none from rfl]; simp)
  | vcode code =>
      cases p with
      | nil => rw [getAt_nil] at hat; simp at hat
      | cons st rest =>
          cases st with
          | key k =>
              exact absurd hat
                (by rw [show getAt (vcode code) (Step.key k :: rest) = none from rfl]; simp)
          | idx n =>
              exact absurd hat
                (by rw [show getAt (vcode code) (Step.idx n :: rest) = none from rfl]; simp)
  | vtimestamp low high =>
      cases p with
      | nil => rw [getAt_nil] at hat; simp at hat
      | cons st rest =>
          cases st with
          | key k =>
              exact absurd hat
                (by rw [show getAt (vtimestamp low high) (Step.key k :: rest) = none from rfl]; simp)
          | idx n =>
              exact absurd hat
                (by rw [show getAt (vtimestamp low high) (Step.idx n :: rest) = none from rfl]; simp)
  | vminkey =>
      cases p with
      | nil => rw [getAt_nil] at hat; simp at hat
      | cons st rest =>
          cases st with
          | key k =>
              exact absurd hat
                (by rw [show getAt vminkey (Step.key k :: rest) = none from rfl]; simp)
          | idx n =>
              exact absurd hat
                (by rw [show getAt vminkey (Step.idx n :: rest) = none from rfl]; simp)
  | vmaxkey =>
      cases p with
      | nil => rw [getAt_nil] at hat; simp at hat
      | cons st rest =>
          cases st with
          | key k =>
              exact absurd hat
                (by rw [show getAt vmaxkey (Step.key k :: rest) = none from rfl]; simp)
          | idx n =>
              exact absurd hat
                (by rw [show getAt vmaxkey (Step.idx n :: rest) = none from rfl]; simp)
  | vexotic ty =>
      cases p with
      | nil => rw [getAt_nil] at hat; simp at hat
      | cons st rest =>
          cases st with
          | key k =>
              exact absurd hat
                (by rw [show getAt (vexotic ty) (Step.key k :: rest) = none from rfl]; simp)
          | idx n =>
              exact absurd hat
                (by rw [show getAt (vexotic ty) (Step.idx n :: rest) = none from rfl]; simp)

termination_by structural v

/-- List version: element `j` of a walk starting at rendered index `n0`. -/
theorem extractList_presence (xs : List Value) (n0 : Nat) (docIndex : Nat) (path : String)
    (files : List (String × Blobby)) (j : Nat) (x : Value) (hx : xs[j]? = some x)
    (rest : List Step) (img : ImageStateV) (hat : getAt x rest = some (vimage img))
    (bd : ImageData) (hbd : Image.getBinaryData img = some bd) :
    leafKey docIndex (extendPath (Collection.extPath path (toString (n0 + j))) rest) ∈
      (Collection.extractFromList xs n0 docIndex path files).map Prod.fst := by
  cases xs with
  | nil => simp at hx
  | cons x1 xs1 =>
      rw [Collection.extractFromList]
      cases j with
      | zero =>
          simp only [List.getElem?_cons_zero, Option.some.injEq] at hx
          subst hx
          have hmem := extract_presence x1 docIndex (Collection.extPath path (toString n0)) files
            rest img hat bd hbd
          have hmem2 : leafKey docIndex (extendPath (Collection.extPath path (toString (n0 + 0))) rest) ∈
              (Collection.extractFromValue x1 docIndex
                (if path = "" then toString n0 else path ++ "." ++ toString n0) files).map
                Prod.fst := by
            simpa [Collection.extPath] using hmem
          exact extractList_keys_mono xs1 (n0 + 1) docIndex path _ _ hmem2
      | succ m =>
          simp only [List.getElem?_cons_succ] at hx
          have := extractList_presence xs1 (n0 + 1) docIndex path
            (Collection.extractFromValue x1 docIndex
              (if path = "" then toString n0 else path ++ "." ++ toString n0) files)
            m x hx rest img hat bd hbd
          have harith : n0 + 1 + m = n0 + (m + 1) := by omega
          rw [harith] at this
          exact this
termination_by structural xs

/-- Entry-list version: the first entry carrying key `k`. -/
theorem extractFields_presence (fields : List (String × Value)) (docIndex : Nat)
    (path : String) (files : List (String × Blobby)) (k : String) (x : Value)
    (hlk : lookupField fields k = some x)
    (rest : List Step) (img : ImageStateV) (hat : getAt x rest = some (vimage img))
    (bd : ImageData) (hbd : Image.getBinaryData img = some bd) :
    leafKey docIndex (extendPath (Collection.extPath path k) rest) ∈
      (Collection.extractFromFields fields docIndex path files).map Prod.fst := by
  cases fields with
  | nil => simp [lookupField] at hlk
  | cons kv rest1 =>
      obtain ⟨k1, x1⟩ := kv
      rw [Collection.extractFromFields]
      rw [lookupField] at hlk
      by_cases hk : k1 = k
      · rw [if_pos hk] at hlk
        simp only [Option.some.injEq] at hlk
        subst hlk
        subst hk
        have hmem := extract_presence x1 docIndex (Collection.extPath path k1) files rest img hat bd hbd
        have hmem2 : leafKey docIndex (extendPath (Collection.extPath path k1) rest) ∈
            (Collection.extractFromValue x1 docIndex
              (if path = "" then k1 else path ++ "." ++ k1) files).map Prod.fst := by
          simpa [Collection.extPath] using hmem
        exact extractFields_keys_mono rest1 docIndex path _ _ hmem2
      · rw [if_neg hk] at hlk
        exact extractFields_presence rest1 docIndex path _ k x hlk rest img hat bd hbd
termination_by structural fields

end

/-- Document-list walk: keys persist. -/
theorem extractDocs_keys_mono (documents : List Value) (docIndex : Nat)
    (files : List (String × Blobby)) (k0 : String) (h : k0 ∈ files.map Prod.fst) :
    k0 ∈ (Collection.extractDocs documents docIndex files).map Prod.fst := by
  induction documents generalizing docIndex files with
  | nil => simpa [Collection.extractDocs] using h
  | cons d rest ih =>
      rw [Collection.extractDocs]
      exact ih (docIndex + 1) _ (extract_keys_mono d docIndex "" files k0 h)

/-- Document-list walk: key uniqueness persists. -/
theorem extractDocs_keys_nodup (documents : List Value) (docIndex : Nat)
    (files : List (String × Blobby)) (h : (files.map Prod.fst).Nodup) :
    ((Collection.extractDocs documents docIndex files).map Prod.fst).Nodup := by
  induction documents generalizing docIndex files with
  | nil => simpa [Collection.extractDocs] using h
  | cons d rest ih =>
      rw [Collection.extractDocs]
      exact ih (docIndex + 1) _ (extract_keys_nodup d docIndex "" files h)

/-- Document-list walk: document `i` contributes its binary-image key. -/
theorem extractDocs_presence (documents : List Value) (docIndex : Nat)
    (files : List (String × Blobby)) (i : Nat) (di : Value)
    (hdoc : documents[i]? = some di) (p : List Step) (img : ImageStateV)
    (hat : getAt di p = some (vimage img)) (bd : ImageData)
    (hbd : Image.getBinaryData img = some bd) :
    leafKey (docIndex + i) (extendPath "" p) ∈
      (Collection.extractDocs documents docIndex files).map Prod.fst := by
  induction documents generalizing docIndex files i with
  | nil => simp at hdoc
  | cons d rest ih =>
      rw [Collection.extractDocs]
      cases i with
      | zero =>
          simp only [List.getElem?_cons_zero, Option.some.injEq] at hdoc
          subst hdoc
          exact extractDocs_keys_mono rest (docIndex + 1) _ _
            (extract_presence d docIndex "" files p img hat bd hbd)
      | succ m =>
          simp only [List.getElem?_cons_succ] at hdoc
          have := ih (docIndex + 1) (Collection.extractFromValue d docIndex "" files) m hdoc
          have harith : docIndex + 1 + m = docIndex + (m + 1) := by omega
          rw [harith] at this
          exact this

/-- An image leaf serializes to the tagged wire object. -/
theorem serialize_vimage_eq (img : ImageStateV) (d : Nat) (w : Value)
    (h : Collection.serialize (vimage img) d = .ok w) :
    w = vobj [("xImage", vobj (Image.serializeInner img))] := by
  rw [Collection.serialize.eq_def] at h
  by_cases hd : d > 100
  · rw [if_pos hd] at h; simp at h
  · rw [if_neg hd] at h
    dsimp only at h
    simp only [Except.ok.injEq] at h
    exact h.symm

/-- A binary payload equals the stored data and is not a string. -/
theorem getBinaryData_some (img : ImageStateV) (bd : ImageData)
    (hbd : Image.getBinaryData img = some bd) :
    img.data = bd ∧ ∀ s, bd ≠ ImageData.str s := by
  cases h : img.data with
  | str s => simp [Image.getBinaryData, h] at hbd
  | file name ty bys =>
      simp only [Image.getBinaryData, h, Option.some.injEq] at hbd
      subst hbd
      exact ⟨rfl, by intro s hs; cases hs⟩
  | blob ty bys =>
      simp only [Image.getBinaryData, h, Option.some.injEq] at hbd
      subst hbd
      exact ⟨rfl, by intro s hs; cases hs⟩
  | arrayBuffer bys =>
      simp only [Image.getBinaryData, h, Option.some.injEq] at hbd
      subst hbd
      exact ⟨rfl, by intro s hs; cases hs⟩
  | uint8Array bys =>
      simp only [Image.getBinaryData, h, Option.some.injEq] at hbd
      subst hbd
      exact ⟨rfl, by intro s hs; cases hs⟩

/-- A non-string payload leaves no `data` key in the serialized image. -/
theorem ig_data_none (i : ImageStateV) (hns : ∀ s, i.data ≠ ImageData.str s) :
    lookupField (Image.serializeInner i) "data" = none := by
  cases hd : i.data with
  | str s => exact absurd hd (hns s)
  | file name ty bys =>
      simp [Image.serializeInner, lookupField_append, lookupField, lookupField_opt_ne, hd]
  | blob ty bys =>
      simp [Image.serializeInner, lookupField_append, lookupField, lookupField_opt_ne, hd]
  | arrayBuffer bys =>
      simp [Image.serializeInner, lookupField_append, lookupField, lookupField_opt_ne, hd]
  | uint8Array bys =>
      simp [Image.serializeInner, lookupField_append, lookupField, lookupField_opt_ne, hd]

/-- C2: in a document list, every `Image` field holding a binary (non-string)
payload is excluded from the wire tree (the serialized tagged object at the
same object-key / array-index path has no `data` key), while
`extractBinaryData` on the document list yields exactly one side-table entry
for that field, keyed `doc_<i>` followed by each key or index on the way
down, with the fixed `xImage.data` suffix appended. -/
theorem c2_binary_exclusion_and_extraction
    (docs : List Value) (i : Nat) (di : Value) (hdoc : docs[i]? = some di)
    (p : List Step) (img : ImageStateV) (hat : getAt di p = some (vimage img))
    (bd : ImageData) (hbd : Image.getBinaryData img = some bd)
    (w : Value) (hser : Collection.serialize di 0 = .ok w) :
    (∃ inner, getAt w p = some (vobj [("xImage", vobj inner)]) ∧
        lookupField inner "data" = none) ∧
    ((Collection.extractBinaryData docs).map Prod.fst).count
        (leafKey i (extendPath "" p)) = 1 := by
  constructor
  · obtain ⟨du, wu, hw1, hw2⟩ := serialize_getAt p di 0 w hser (vimage img) hat
    have hwu := serialize_vimage_eq img du wu hw2
    subst hwu
    refine ⟨Image.serializeInner img, hw1, ?_⟩
    obtain ⟨hdata, hns⟩ := getBinaryData_some img bd hbd
    exact ig_data_none img (fun s hs => hns s (hdata ▸ hs))
  · have hmem : leafKey i (extendPath "" p) ∈
        (Collection.extractBinaryData docs).map Prod.fst := by
      have := extractDocs_presence docs 0 [] i di hdoc p img hat bd hbd
      simpa [Collection.extractBinaryData] using this
    have hnodup : ((Collection.extractBinaryData docs).map Prod.fst).Nodup := by
      have := extractDocs_keys_nodup docs 0 [] (by simp)
      simpa [Collection.extractBinaryData] using this
    have h1 := List.nodup_iff_count_le_one.mp hnodup (leafKey i (extendPath "" p))
    have h2 := List.count_pos_iff.mpr hmem
    omega

/-- C2 witness: the binary-image document at key `photo` of document 0. -/
theorem c2_extraction_witness :
    ([c1doc])[0]? = some c1doc ∧
    getAt c1doc [Step.key "photo"] =
      some (vimage (Image.freshState (.uint8Array [1, 2, 3]) "image/png")) ∧
    Image.getBinaryData (Image.freshState (.uint8Array [1, 2, 3]) "image/png") =
      some (.uint8Array [1, 2, 3]) ∧
    Collection.serialize c1doc 0 = .ok c1wire ∧
    ((∃ inner, getAt c1wire [Step.key "photo"] = some (vobj [("xImage", vobj inner)]) ∧
        lookupField inner "data" = none) ∧
     ((Collection.extractBinaryData [c1doc]).map Prod.fst).count
        (leafKey 0 (extendPath "" [Step.key "photo"])) = 1) :=
  ⟨rfl, rfl, rfl, rfl,
    c2_binary_exclusion_and_extraction [c1doc] 0 c1doc rfl [Step.key "photo"]
      (Image.freshState (.uint8Array [1, 2, 3]) "image/png") rfl
      (.uint8Array [1, 2, 3]) rfl c1wire rfl⟩

/-! ## C10 witness material -/

/-- `new Text("hi")` after the failing `enableIndex({embModel: "bad-model"})`. -/
def c10textSt : TextStateV :=
  ⟨"hi", varr [], vnull, vnull, vnull, vnull, vnull, vnull, true⟩

/-- The unsupported-MIME image after its failing `enableIndex()`. -/
def c10imgSt : ImageStateV :=
  { data := .str "aGVsbG8=", mimeType := vstr "text/plain", chunks := varr [],
    embModel := vnull, visionModel := vnull, maxChunkSize := vnull, chunkOverlap := vnull,
    isSeparatorRegex := vnull, separators := vnull, keepSeparator := vnull,
    indexEnabled := vbool true }

/-- The valid-MIME image after `enableIndex` assigned a valid `embModel` and
then failed on an invalid `visionModel`. -/
def c10imgSt2 : ImageStateV :=
  { data := .str "aGVsbG8=", mimeType := vstr "image/png", chunks := varr [],
    embModel := vstr "text-embedding-3-small", visionModel := vnull,
    maxChunkSize := vnull, chunkOverlap := vnull, isSeparatorRegex := vnull,
    separators := vnull, keepSeparator := vnull, indexEnabled := vbool true }

/-- An ejson-revision image with an unsupported stored MIME type. -/
def c10ejSt : EJImage.State :=
  { data := some "aGVsbG8=", binaryData := none, mimeType := "text/plain", chunks := [],
    url := none, embModel := none, visionModel := none, maxChunkSize := none,
    chunkOverlap := none, isSeparatorRegex := none, separators := none,
    keepSeparator := none, indexEnabled := false }

/-- C10 witness: concrete failing `enableIndex` calls on all three classes,
each leaving the flag set (and the third image keeping its already-assigned
embedding model). -/
theorem c10_not_atomic_witness :
    (c10textSt.indexEnabled = true ∧
      ("index", vbool true) ∈ Text.serializeInner c10textSt) ∧
    (c10imgSt.indexEnabled = vbool true ∧
      ("index", vbool true) ∈ Image.serializeInner c10imgSt) ∧
    ({ c10ejSt with indexEnabled := true }.indexEnabled = true) ∧
    (c10imgSt2.embModel = vstr "text-embedding-3-small") :=
  ⟨c10_enable_index_not_atomic.1 textHi { embModel := vstr "bad-model" } c10textSt
      (.jsError "Invalid embedding model: bad-model is not supported.") rfl,
   c10_enable_index_not_atomic.2.1 (Image.freshState (.str "aGVsbG8=") "text/plain") {}
      c10imgSt
      (.jsError ("Unsupported mime type: \x27text/plain\x27. Supported types are: "
        ++ "image/jpeg, image/jpg, image/png, image/gif, image/webp")) rfl,
   c10_enable_index_not_atomic.2.2.1 c10ejSt {} { c10ejSt with indexEnabled := true }
      (.jsError ("Unsupported mime type: \x27text/plain\x27. Supported types are: "
        ++ "image/jpeg, image/jpg, image/png, image/gif, image/webp")) rfl,
   c10_enable_index_not_atomic.2.2.2 (Image.freshState (.str "aGVsbG8=") "image/png")
      { embModel := vstr "text-embedding-3-small", visionModel := vstr "bad-vision" }
      c10imgSt2
      (.jsError ("Invalid vision model: \x27bad-vision\x27 is not supported. "
        ++ "Supported models are: gpt-4o, gpt-4o-mini, o4-mini, o3, o1, o1-pro, "
        ++ "gpt-4.1, gpt-4.1-mini, gpt-4.1-nano")) rfl rfl rfl rfl⟩
